import Mathlib

/-!
# Event queues and event ports (`rpcs3/Emu/SysCalls/lv2/sys_event.cpp`)

A shallow embedding of the lv2 event-queue and event-port system calls.

* Guest integers are `Nat` (unsigned) or `Int` (signed); wrap-around is written
  out with `% 2 ^ w` where the source computes in a fixed width.
* `std::shared_ptr<event_queue_t>` is an address into `State.heap`; a
  `std::weak_ptr` is an optional address that is expired when no owner is left.
* A `vm::ptr<T>` output argument is the value stored behind the pointer: the
  function receives the old value and returns the new one.
* `throw __FUNCTION__` is `Except.error` carrying the function name.
* Every entry point runs under `LV2_LOCK`; the only suspension point is
  `cv.wait_for` inside `sys_event_queue_receive`, modelled by a frame parked in
  `State.receivers`.
-/

namespace sys_event

/-! ## Constants and plain data -/

/-- Error codes returned by the entry points (`ErrorCodes.h` is not part of the
sources at hand; only their being distinct names is used). -/
inductive ErrorCode where
  | CELL_OK
  | CELL_EINVAL
  | CELL_ESRCH
  | CELL_EBUSY
  | CELL_EEXIST
  | CELL_EISCONN
  | CELL_ENOTCONN
  | CELL_ECANCELED
  | CELL_ETIMEDOUT
deriving DecidableEq, Repr

open ErrorCode

/-- Enumeration constants of `sys_event.h` and `sleep_queue.h`, which are not
part of the sources at hand: they are taken as parameters, each with its
integer value. -/
structure Consts where
  SYS_SYNC_FIFO : Int
  SYS_SYNC_PRIORITY : Int
  SYS_PPU_QUEUE : Int
  SYS_SPU_QUEUE : Int
  SYS_EVENT_QUEUE_DESTROY_FORCE : Int
  SYS_EVENT_PORT_LOCAL : Int
deriving DecidableEq, Repr

/-- Conversion of an integer to `u32`. -/
def to_u32 (x : Int) : Nat := (x % 2 ^ 32).toNat

/-- Conversion of an unsigned value to `s32`. -/
def to_s32 (x : Nat) : Int :=
  if x % 2 ^ 32 < 2 ^ 31 then ((x % 2 ^ 32 : Nat) : Int) else ((x % 2 ^ 32 : Nat) : Int) - 2 ^ 32

/-- Conversion of an `s32` to `size_t` (64 bits), as done by the comparison
`queue->events.size() >= queue->size`. -/
def to_size_t (x : Int) : Nat := (x % 2 ^ 64).toNat

/-- Subtraction of two `u64` values. -/
def u64_sub (a b : Nat) : Nat := (((a : Int) - (b : Int)) % 2 ^ 64).toNat

/-- An element of `event_queue_t::events`. -/
structure event_t where
  source : Nat
  data1 : Nat
  data2 : Nat
  data3 : Nat
deriving DecidableEq, Repr

/-- The guest structure `sys_event_t`: four big-endian 64-bit fields, kept by
value. -/
structure sys_event_t where
  source : Nat
  data1 : Nat
  data2 : Nat
  data3 : Nat
deriving DecidableEq, Repr

/-- The guest structure `sys_event_queue_attr`. -/
structure sys_event_queue_attr where
  protocol : Nat
  type : Nat
  name_u64 : Nat
deriving DecidableEq, Repr

/-- Modelled from the spec: the class `event_queue_t` of `sys_event.h`, which
is not part of the sources at hand. Fields follow the EventQueue of the data
model: `size` is the capacity, `events` the pending records, `waiters` the
waiter count. The wake signal `cv` carries no data. -/
structure event_queue_t where
  protocol : Nat
  type : Int
  name : Nat
  key : Nat
  size : Int
  events : List event_t
  waiters : Int
  cancelled : Bool
deriving DecidableEq, Repr

/-- Modelled from the spec: the constructor of `event_queue_t`: no pending
record, no waiter, not cancelled. -/
def event_queue_t.new (protocol : Nat) (type : Int) (name key : Nat) (size : Int) : event_queue_t :=
  { protocol := protocol, type := type, name := name, key := key, size := size,
    events := [], waiters := 0, cancelled := false }

/-- Modelled from the spec: `event_queue_t::push`, which appends a record to
the back of the pending records (and signals `cv`). -/
def event_queue_t.push (q : event_queue_t) (source data1 data2 data3 : Nat) : event_queue_t :=
  { q with events := q.events ++ [{ source := source, data1 := data1, data2 := data2, data3 := data3 }] }

/-- Modelled from the spec: the class `event_port_t` of `sys_event.h`. `queue`
is the `std::weak_ptr<event_queue_t>`: `none` when empty, else the address of
the queue object it was set from. -/
structure event_port_t where
  type : Int
  name : Nat
  queue : Option Nat
deriving DecidableEq, Repr

/-- The part of `PPUThread` used here: the general purpose registers. -/
structure PPUThread where
  GPR : Nat → Nat

/-! ## The state behind the entry points -/

/-- An entry of the ID manager table: the kind of resource and the object
(`std::shared_ptr`) it owns. A queue is owned by address, a port by value. -/
inductive ID where
  | TYPE_EVENT_QUEUE (queue : Nat)
  | TYPE_EVENT_PORT (port : event_port_t)
deriving DecidableEq, Repr

/-- A call of `sys_event_queue_receive` suspended in `cv.wait_for`: the locals
that live across the suspension. `queue` is the `std::shared_ptr` it holds. -/
structure receive_frame where
  queue : Nat
  timeout : Nat
  start_time : Nat
deriving DecidableEq, Repr

/-- The state shared by all entry points.

* `m_cur_id`, `m_id_map`: the ID manager (`Emu.GetIdManager()`);
* `eq_map`: the key registry of the event manager (`Emu.GetEventManager()`);
* `heap`: the `event_queue_t` objects allocated so far, by address;
* `receivers`: the receive calls suspended in their wait loop. -/
structure State where
  m_cur_id : Nat
  m_id_map : List (Nat × ID)
  eq_map : List (Nat × Nat)
  heap : List event_queue_t
  receivers : List receive_frame
deriving DecidableEq, Repr

/-- The empty system: nothing allocated, first id is 1. -/
def State.init : State :=
  { m_cur_id := 1, m_id_map := [], eq_map := [], heap := [], receivers := [] }

/-- Number of `std::shared_ptr` owners of the queue object at address `queue`:
entries of the ID table, entries of the key registry and suspended receive
calls. -/
def use_count (s : State) (queue : Nat) : Nat :=
  s.m_id_map.countP (fun e => decide (e.2 = ID.TYPE_EVENT_QUEUE queue))
    + s.eq_map.countP (fun e => decide (e.2 = queue))
    + s.receivers.countP (fun f => decide (f.queue = queue))

/-- The test `std::weak_ptr::expired`. -/
def expired (s : State) (w : Option Nat) : Bool :=
  match w with
  | none => true
  | some queue => decide (use_count s queue = 0)

/-- The call `std::weak_ptr::lock`: the address and the object when an owner is
left, nothing otherwise. -/
def lock (s : State) (w : Option Nat) : Option (Nat × event_queue_t) :=
  match w with
  | none => none
  | some queue => if expired s w then none else (s.heap[queue]?).map (fun q => (queue, q))

/-- Store through a `std::shared_ptr<event_queue_t>`. -/
def set_queue (s : State) (queue : Nat) (q : event_queue_t) : State :=
  { s with heap := s.heap.set queue q }

/-- Store through a `std::shared_ptr<event_port_t>`: the port owned by the ID
table entry `eport_id` is replaced. -/
def set_port (s : State) (eport_id : Nat) (p : event_port_t) : State :=
  { s with m_id_map := s.m_id_map.map (fun e =>
      if e.1 = eport_id then (e.1, ID.TYPE_EVENT_PORT p) else e) }

/-- Modelled from the spec: `IdManager::GetNewID`, the opaque-id allocator,
which is not part of the sources at hand: the object is entered under the
current id, and the counter moves on. Ids are `u32` values (lines 16, 25, 59,
218 and 237 return or store them as `u32`) and the call cannot fail, so the
counter is a 32-bit one and goes from `2^32 - 1` back to 0. The new entry is
put in front of the table: when the id is still in the table, lookups find the
new entry. -/
def GetNewID (s : State) (data : ID) : Nat × State :=
  (s.m_cur_id % 2 ^ 32,
   { s with m_id_map := (s.m_cur_id % 2 ^ 32, data) :: s.m_id_map,
            m_cur_id := (s.m_cur_id + 1) % 2 ^ 32 })

/-- Modelled from the spec: `IdManager::GetIDData` for an `event_queue_t`: the
lookup succeeds when the id is in the table with a queue behind it; it gives
the address held by the table and the object stored there. -/
def GetIDData_queue (s : State) (id : Nat) : Option (Nat × event_queue_t) :=
  match s.m_id_map.lookup id with
  | some (ID.TYPE_EVENT_QUEUE queue) => (s.heap[queue]?).map (fun q => (queue, q))
  | _ => none

/-- Modelled from the spec: `IdManager::GetIDData` for an `event_port_t`. -/
def GetIDData_port (s : State) (id : Nat) : Option event_port_t :=
  match s.m_id_map.lookup id with
  | some (ID.TYPE_EVENT_PORT port) => some port
  | _ => none

/-- Modelled from the spec: `IdManager::RemoveID`: the id leaves the table. -/
def RemoveID (s : State) (id : Nat) : State :=
  { s with m_id_map := s.m_id_map.filter (fun e => decide (e.1 ≠ id)) }

/-- Modelled from the spec: `EventManager::RegisterKey` (Key Registry, section
4.3): success without effect for key 0; otherwise `key → queue` is inserted,
and the call fails when the key is already present. -/
def RegisterKey (s : State) (data : Nat) (key : Nat) : Bool × State :=
  if key = 0 then (true, s)
  else if (s.eq_map.lookup key).isSome then (false, s)
  else (true, { s with eq_map := (key, data) :: s.eq_map })

/-- Modelled from the spec: `EventManager::UnregisterKey` (Key Registry,
section 4.3): removes the entry when the key is not 0. -/
def UnregisterKey (s : State) (key : Nat) : State :=
  if key = 0 then s
  else { s with eq_map := s.eq_map.filter (fun e => decide (e.1 ≠ key)) }

/-- Allocation `new event_queue_t(...)`: the object is placed at the next free
address. -/
def new_queue (s : State) (q : event_queue_t) : Nat × State :=
  (s.heap.length, { s with heap := s.heap ++ [q] })

/-! ## Event queue entry points -/

/-- The helper `event_queue_create` (lines 16-23): the result of `RegisterKey`
is not looked at. -/
def event_queue_create (s : State) (protocol : Nat) (type : Int) (name_u64 event_queue_key : Nat)
    (size : Int) : Nat × State :=
  let (queue, s1) := new_queue s (event_queue_t.new protocol type name_u64 event_queue_key size)
  let s2 := (RegisterKey s1 queue event_queue_key).2
  GetNewID s2 (ID.TYPE_EVENT_QUEUE queue)

/-- The entry point `sys_event_queue_create` (lines 25-62). `equeue_id` is the
value behind the output pointer. When `RegisterKey` fails the new object has no
owner left and is freed: the state is the one before the call. -/
def sys_event_queue_create (K : Consts) (s : State) (equeue_id : Nat) (attr : sys_event_queue_attr)
    (event_queue_key : Nat) (size : Int) : ErrorCode × State × Nat :=
  if size ≤ 0 ∨ size > 127 then (CELL_EINVAL, s, equeue_id)
  else
    let protocol := attr.protocol
    if ¬ (protocol = to_u32 K.SYS_SYNC_FIFO ∨ protocol = to_u32 K.SYS_SYNC_PRIORITY) then
      (CELL_EINVAL, s, equeue_id)
    else
      let type := attr.type
      if ¬ (type = to_u32 K.SYS_PPU_QUEUE ∨ type = to_u32 K.SYS_SPU_QUEUE) then
        (CELL_EINVAL, s, equeue_id)
      else
        let (queue, s1) :=
          new_queue s (event_queue_t.new protocol (to_s32 type) attr.name_u64 event_queue_key size)
        match RegisterKey s1 queue event_queue_key with
        | (false, _) => (CELL_EEXIST, s, equeue_id)
        | (true, s2) =>
          let (id, s3) := GetNewID s2 (ID.TYPE_EVENT_QUEUE queue)
          (CELL_OK, s3, id)

/-- The entry point `sys_event_queue_destroy` (lines 64-101). `cv.notify_all`
changes no data. -/
def sys_event_queue_destroy (K : Consts) (s : State) (equeue_id : Nat) (mode : Int) :
    Except String (ErrorCode × State) :=
  match GetIDData_queue s equeue_id with
  | none => .ok (CELL_ESRCH, s)
  | some (queue, q) =>
    if mode ≠ 0 ∧ mode ≠ K.SYS_EVENT_QUEUE_DESTROY_FORCE then .ok (CELL_EINVAL, s)
    else if mode = 0 ∧ q.waiters ≠ 0 then .ok (CELL_EBUSY, s)
    else if q.cancelled then .error "sys_event_queue_destroy"
    else
      let s1 := set_queue s queue { q with cancelled := true }
      let s2 := UnregisterKey s1 q.key
      let s3 := RemoveID s2 equeue_id
      .ok (CELL_OK, s3)

/-- The copy `event_array[count] = { make(source), make(data1), ... }`. -/
def to_sys_event (e : event_t) : sys_event_t :=
  { source := e.source, data1 := e.data1, data2 := e.data2, data3 := e.data3 }

/-- The loop of `sys_event_queue_tryreceive` (lines 128-134), on the pending
records: returns the records left, the count and the guest array. -/
def tryreceive_loop (waiters size : Int) :
    List event_t → Nat → (Nat → sys_event_t) → List event_t × Nat × (Nat → sys_event_t)
  | [], count, event_array => ([], count, event_array)
  | event :: rest, count, event_array =>
    if waiters = 0 ∧ (count : Int) < size then
      tryreceive_loop waiters size rest (count + 1)
        (fun i => if i = count then to_sys_event event else event_array i)
    else (event :: rest, count, event_array)

/-- The entry point `sys_event_queue_tryreceive` (lines 103-139). `event_array`
and `number` are the values behind the output pointers. -/
def sys_event_queue_tryreceive (K : Consts) (s : State) (equeue_id : Nat)
    (event_array : Nat → sys_event_t) (size : Int) (number : Nat) :
    Except String (ErrorCode × State × (Nat → sys_event_t) × Nat) :=
  match GetIDData_queue s equeue_id with
  | none => .ok (CELL_ESRCH, s, event_array, number)
  | some (queue, q) =>
    if size < 0 then .error "sys_event_queue_tryreceive"
    else if q.type ≠ K.SYS_PPU_QUEUE then .ok (CELL_EINVAL, s, event_array, number)
    else
      let (events, count, event_array1) := tryreceive_loop q.waiters size q.events 0 event_array
      .ok (CELL_OK, set_queue s queue { q with events := events }, event_array1, count)

/-- What one evaluation of the wait loop of `sys_event_queue_receive` leads to:
the call returns (with the record it puts into the registers, if any), or it
goes to sleep in `cv.wait_for`. -/
inductive receive_outcome where
  | returned (code : ErrorCode) (event : Option event_t)
  | waiting
deriving DecidableEq, Repr

/-- One evaluation of `while (queue->events.empty()) { ... }` and, when the
loop is left, of the delivery that follows (lines 164-197), on the queue
object. `now` is the reading of `get_system_time()`, `stopped` the reading of
`Emu.IsStopped()`. -/
def receive_iter (q : event_queue_t) (timeout start_time now : Nat) (stopped : Bool) :
    receive_outcome × event_queue_t :=
  match q.events with
  | [] =>
    if q.cancelled then
      (.returned CELL_ECANCELED none, { q with waiters := q.waiters - 1 })
    else if timeout ≠ 0 ∧ u64_sub now start_time > timeout then
      (.returned CELL_ETIMEDOUT none, { q with waiters := q.waiters - 1 })
    else if stopped then
      (.returned CELL_OK none, q)
    else
      (.waiting, q)
  | event :: rest =>
    (.returned CELL_OK (some event), { q with events := rest, waiters := q.waiters - 1 })

/-- The register writes `CPU.GPR[4..7] = event.{source, data1, data2, data3}`
(lines 189-192); nothing is written when no record is delivered. -/
def write_gpr (CPU : PPUThread) (event : Option event_t) : PPUThread :=
  match event with
  | none => CPU
  | some e =>
    { GPR := fun i =>
        if i = 4 then e.source else if i = 5 then e.data1
        else if i = 6 then e.data2 else if i = 7 then e.data3 else CPU.GPR i }

/-- The wait loop of a receive call that runs alone: between two evaluations
nothing but the clock and the stop flag changes. `n` counts the readings of the
environment, `fuel` bounds the number of sleeps; `none` means still asleep. -/
def receive_wait (clock : Nat → Nat) (stopped : Nat → Bool) (timeout start_time : Nat)
    (q : event_queue_t) : Nat → Nat → Option (ErrorCode × Option event_t × event_queue_t)
  | fuel, n =>
    match receive_iter q timeout start_time (clock n) (stopped n) with
    | (.returned code event, q1) => some (code, event, q1)
    | (.waiting, _) =>
      match fuel with
      | 0 => none
      | fuel1 + 1 => receive_wait clock stopped timeout start_time q fuel1 (n + 1)

/-- The entry point `sys_event_queue_receive` (lines 141-198), as a whole call
with no other thread running. `clock 0` is the reading taken before the lock;
`none` means the call has not returned after `fuel` sleeps. -/
def sys_event_queue_receive (K : Consts) (clock : Nat → Nat) (stopped : Nat → Bool) (fuel : Nat)
    (s : State) (CPU : PPUThread) (equeue_id : Nat) (timeout : Nat) :
    Option (ErrorCode × State × PPUThread) :=
  let start_time := clock 0
  match GetIDData_queue s equeue_id with
  | none => some (CELL_ESRCH, s, CPU)
  | some (queue, q) =>
    if q.type ≠ K.SYS_PPU_QUEUE then some (CELL_EINVAL, s, CPU)
    else
      match receive_wait clock stopped timeout start_time { q with waiters := q.waiters + 1 } fuel 1 with
      | none => none
      | some (code, event, q1) => some (code, set_queue s queue q1, write_gpr CPU event)

/-- The entry point `sys_event_queue_drain` (lines 200-216). -/
def sys_event_queue_drain (s : State) (equeue_id : Nat) : ErrorCode × State :=
  match GetIDData_queue s equeue_id with
  | none => (CELL_ESRCH, s)
  | some (queue, q) => (CELL_OK, set_queue s queue { q with events := [] })

/-! ## Event port entry points -/

/-- The helper `event_port_create` (lines 218-223). -/
def event_port_create (K : Consts) (s : State) (name : Nat) : Nat × State :=
  GetNewID s (ID.TYPE_EVENT_PORT { type := K.SYS_EVENT_PORT_LOCAL, name := name, queue := none })

/-- The entry point `sys_event_port_create` (lines 225-240). -/
def sys_event_port_create (K : Consts) (s : State) (eport_id : Nat) (port_type : Int) (name : Nat) :
    ErrorCode × State × Nat :=
  if port_type ≠ K.SYS_EVENT_PORT_LOCAL then (CELL_EINVAL, s, eport_id)
  else
    let (id, s1) := GetNewID s (ID.TYPE_EVENT_PORT { type := port_type, name := name, queue := none })
    (CELL_OK, s1, id)

/-- The entry point `sys_event_port_destroy` (lines 242-263). -/
def sys_event_port_destroy (s : State) (eport_id : Nat) : ErrorCode × State :=
  match GetIDData_port s eport_id with
  | none => (CELL_ESRCH, s)
  | some port =>
    if ¬ expired s port.queue then (CELL_EISCONN, s)
    else (CELL_OK, RemoveID s eport_id)

/-- The entry point `sys_event_port_connect_local` (lines 265-292). -/
def sys_event_port_connect_local (K : Consts) (s : State) (eport_id equeue_id : Nat) :
    ErrorCode × State :=
  match GetIDData_port s eport_id, GetIDData_queue s equeue_id with
  | some port, some (queue, _) =>
    if port.type ≠ K.SYS_EVENT_PORT_LOCAL then (CELL_EINVAL, s)
    else if ¬ expired s port.queue then (CELL_EISCONN, s)
    else (CELL_OK, set_port s eport_id { port with queue := some queue })
  | _, _ => (CELL_ESRCH, s)

/-- The entry point `sys_event_port_disconnect` (lines 294-329). -/
def sys_event_port_disconnect (s : State) (eport_id : Nat) : ErrorCode × State :=
  match GetIDData_port s eport_id with
  | none => (CELL_ESRCH, s)
  | some port =>
    match lock s port.queue with
    | none => (CELL_ENOTCONN, s)
    | some _ => (CELL_OK, set_port s eport_id { port with queue := none })

/-- The source identity computed at line 356:
`port->name ? port->name : ((u64)process_getpid() << 32) | (u64)eport_id`,
with `pid` the 32-bit result of `process_getpid()`. -/
def event_source (pid : Nat) (name eport_id : Nat) : Nat :=
  if name ≠ 0 then name else (((pid % 2 ^ 32) <<< 32) % 2 ^ 64) ||| (eport_id % 2 ^ 32)

/-- The entry point `sys_event_port_send` (lines 331-361). `pid` is the result
of `process_getpid()`. -/
def sys_event_port_send (pid : Nat) (s : State) (eport_id data1 data2 data3 : Nat) :
    ErrorCode × State :=
  match GetIDData_port s eport_id with
  | none => (CELL_ESRCH, s)
  | some port =>
    match lock s port.queue with
    | none => (CELL_ENOTCONN, s)
    | some (queue, q) =>
      if q.events.length ≥ to_size_t q.size then (CELL_EBUSY, s)
      else
        let source := event_source pid port.name eport_id
        (CELL_OK, set_queue s queue (q.push source data1 data2 data3))

/-! ## Interleaved execution -/

/-- A call of `sys_event_queue_receive` from its start to its return or to its
first sleep, with other threads running in between sleeps: when it goes to
sleep its frame is parked in `receivers`. -/
def sys_event_queue_receive_enter (K : Consts) (s : State) (equeue_id timeout start_time now : Nat)
    (stopped : Bool) : receive_outcome × State :=
  match GetIDData_queue s equeue_id with
  | none => (.returned CELL_ESRCH none, s)
  | some (queue, q) =>
    if q.type ≠ K.SYS_PPU_QUEUE then (.returned CELL_EINVAL none, s)
    else
      match receive_iter { q with waiters := q.waiters + 1 } timeout start_time now stopped with
      | (.returned code event, q1) => (.returned code event, set_queue s queue q1)
      | (.waiting, q1) =>
        (.waiting, { set_queue s queue q1 with
          receivers := s.receivers ++ [{ queue := queue, timeout := timeout, start_time := start_time }] })

/-- The suspended receive call number `i` wakes up (signal or end of the
1 ms slice) and evaluates its wait loop once more; when it returns, its frame
and the `std::shared_ptr` in it are gone. -/
def sys_event_queue_receive_wake (s : State) (i now : Nat) (stopped : Bool) :
    Option (receive_outcome × State) :=
  match s.receivers[i]? with
  | none => none
  | some f =>
    match s.heap[f.queue]? with
    | none => none
    | some q =>
      match receive_iter q f.timeout f.start_time now stopped with
      | (.returned code event, q1) =>
        some (.returned code event, { set_queue s f.queue q1 with receivers := s.receivers.eraseIdx i })
      | (.waiting, q1) => some (.waiting, set_queue s f.queue q1)

/-- One atomic step of the system: a call of an entry point (of a helper), or
the wake-up of a suspended receive call, with the values the environment
supplies. -/
inductive Action where
  | queue_create (attr : sys_event_queue_attr) (event_queue_key : Nat) (size : Int)
  | queue_destroy (equeue_id : Nat) (mode : Int)
  | queue_tryreceive (equeue_id : Nat) (size : Int)
  | queue_receive (equeue_id timeout start_time now : Nat) (stopped : Bool)
  | receive_wake (i now : Nat) (stopped : Bool)
  | queue_drain (equeue_id : Nat)
  | port_create (port_type : Int) (name : Nat)
  | port_destroy (eport_id : Nat)
  | port_connect_local (eport_id equeue_id : Nat)
  | port_disconnect (eport_id : Nat)
  | port_send (eport_id data1 data2 data3 : Nat)
  | helper_queue_create (protocol : Nat) (type : Int) (name_u64 event_queue_key : Nat) (size : Int)
  | helper_port_create (name : Nat)
deriving DecidableEq, Repr

/-- The steps that are guest-visible entry points (`sys_...`), as opposed to
the two helpers `event_queue_create` and `event_port_create`. -/
def Action.is_syscall : Action → Bool
  | .helper_queue_create _ _ _ _ _ => false
  | .helper_port_create _ => false
  | _ => true

/-- The state after one step. A call that throws leaves the state as it
is. -/
def step (K : Consts) (pid : Nat) (s : State) : Action → State
  | .queue_create attr key size => (sys_event_queue_create K s 0 attr key size).2.1
  | .queue_destroy id mode =>
    match sys_event_queue_destroy K s id mode with
    | .ok r => r.2
    | .error _ => s
  | .queue_tryreceive id size =>
    match sys_event_queue_tryreceive K s id (fun _ => ⟨0, 0, 0, 0⟩) size 0 with
    | .ok r => r.2.1
    | .error _ => s
  | .queue_receive id timeout start_time now stopped =>
    (sys_event_queue_receive_enter K s id timeout start_time now stopped).2
  | .receive_wake i now stopped =>
    match sys_event_queue_receive_wake s i now stopped with
    | some r => r.2
    | none => s
  | .queue_drain id => (sys_event_queue_drain s id).2
  | .port_create port_type name => (sys_event_port_create K s 0 port_type name).2.1
  | .port_destroy id => (sys_event_port_destroy s id).2
  | .port_connect_local eport_id equeue_id => (sys_event_port_connect_local K s eport_id equeue_id).2
  | .port_disconnect id => (sys_event_port_disconnect s id).2
  | .port_send id data1 data2 data3 => (sys_event_port_send pid s id data1 data2 data3).2
  | .helper_queue_create protocol type name key size =>
    (event_queue_create s protocol type name key size).2
  | .helper_port_create name => (event_port_create K s name).2

/-- The state after a sequence of steps. -/
def run (K : Consts) (pid : Nat) (s : State) (as : List Action) : State :=
  as.foldl (step K pid) s

/-- States the entry points can bring the system to, from `s0`. -/
def ReachableFrom (K : Consts) (pid : Nat) (s0 s : State) : Prop :=
  ∃ as : List Action, (∀ a ∈ as, a.is_syscall = true) ∧ run K pid s0 as = s

/-- States the entry points can bring the empty system to. -/
def Reachable (K : Consts) (pid : Nat) (s : State) : Prop :=
  ReachableFrom K pid State.init s

/-- The values of the constants in the PS3 system headers, for examples. -/
def K0 : Consts :=
  { SYS_SYNC_FIFO := 1, SYS_SYNC_PRIORITY := 2, SYS_PPU_QUEUE := 1, SYS_SPU_QUEUE := 2,
    SYS_EVENT_QUEUE_DESTROY_FORCE := 1, SYS_EVENT_PORT_LOCAL := 1 }

/-! ## Sequences of calls, for stating round trips -/

/-- The record `sys_event_port_send` pushes for the port `eport_id`. -/
def sent_event (pid : Nat) (port : event_port_t) (eport_id : Nat) (d : Nat × Nat × Nat) : event_t :=
  { source := event_source pid port.name eport_id, data1 := d.1, data2 := d.2.1, data3 := d.2.2 }

/-- The calls `sys_event_port_send` made one after the other for a list of
payloads: the codes returned and the final state. -/
def send_all (pid eport_id : Nat) : State → List (Nat × Nat × Nat) → List ErrorCode × State
  | s, [] => ([], s)
  | s, d :: ds =>
    let r := sys_event_port_send pid s eport_id d.1 d.2.1 d.2.2
    let rs := send_all pid eport_id r.2 ds
    (r.1 :: rs.1, rs.2)

/-- The calls `sys_event_queue_receive` made `n` times one after the other by
one thread: for each call the code returned and the registers `GPR[4..7]` after
it, and the final state; `none` when a call does not return within `fuel`
sleeps. -/
def receive_n (K : Consts) (clock : Nat → Nat) (stopped : Nat → Bool) (fuel equeue_id timeout : Nat) :
    Nat → State → PPUThread → Option (List (ErrorCode × Nat × Nat × Nat × Nat) × State)
  | 0, s, _ => some ([], s)
  | n + 1, s, CPU =>
    match sys_event_queue_receive K clock stopped fuel s CPU equeue_id timeout with
    | none => none
    | some (code, s1, CPU1) =>
      match receive_n K clock stopped fuel equeue_id timeout n s1 CPU1 with
      | none => none
      | some (rs, s2) => some ((code, CPU1.GPR 4, CPU1.GPR 5, CPU1.GPR 6, CPU1.GPR 7) :: rs, s2)

/-- What a receive call hands to the caller for a record: `CELL_OK` and the
four fields in `GPR[4..7]`. -/
def delivered (e : event_t) : ErrorCode × Nat × Nat × Nat × Nat :=
  (CELL_OK, e.source, e.data1, e.data2, e.data3)

/-- The system after `sys_event_queue_create` (FIFO, PPU, key 0, size 2),
`sys_event_port_create` (unnamed) and `sys_event_port_connect_local`: the
queue has id 1, the port id 2. -/
def connected_example : State :=
  { m_cur_id := 3,
    m_id_map := [(2, ID.TYPE_EVENT_PORT { type := 1, name := 0, queue := some 0 }),
                 (1, ID.TYPE_EVENT_QUEUE 0)],
    eq_map := [],
    heap := [{ protocol := 1, type := 1, name := 0, key := 0, size := 2,
               events := [], waiters := 0, cancelled := false }],
    receivers := [] }

/-! ## Effects of a step, and invariants -/

/-- What a step other than creation and destruction may do to a queue object:
the constant fields and `cancelled` stay, and the pending records either do not
grow in number or grow by one while there was room. -/
def queue_step (q q1 : event_queue_t) : Prop :=
  q1.protocol = q.protocol ∧ q1.type = q.type ∧ q1.name = q.name ∧ q1.key = q.key
  ∧ q1.size = q.size ∧ q1.cancelled = q.cancelled
  ∧ (q1.events.length ≤ q.events.length
      ∨ (q1.events.length = q.events.length + 1 ∧ q.events.length < to_size_t q.size))

/-- The state after a successful `sys_event_queue_create`. -/
def created (s : State) (attr : sys_event_queue_attr) (key : Nat) (size : Int) : State :=
  { m_cur_id := (s.m_cur_id + 1) % 2 ^ 32,
    m_id_map := (s.m_cur_id % 2 ^ 32, ID.TYPE_EVENT_QUEUE s.heap.length) :: s.m_id_map,
    eq_map := if key = 0 then s.eq_map else (key, s.heap.length) :: s.eq_map,
    heap := s.heap ++ [event_queue_t.new attr.protocol (to_s32 attr.type) attr.name_u64 key size],
    receivers := s.receivers }

/-- The state after a successful `sys_event_queue_destroy` of the queue `q` at
address `a`. -/
def destroyed (s : State) (equeue_id a : Nat) (q : event_queue_t) : State :=
  RemoveID (UnregisterKey (set_queue s a { q with cancelled := true }) q.key) equeue_id

/-- The kinds of state change a step of an entry point (or of the helper
`event_port_create`) can make. -/
inductive Effect (K : Consts) (s : State) : State → Prop where
  | same : Effect K s s
  | heap_update (a : Nat) (q q1 : event_queue_t) (receivers : List receive_frame) :
      s.heap[a]? = some q → queue_step q q1 →
      Effect K s { set_queue s a q1 with receivers := receivers }
  | new_port (p : event_port_t) :
      p.type = K.SYS_EVENT_PORT_LOCAL → p.queue = none →
      Effect K s (GetNewID s (ID.TYPE_EVENT_PORT p)).2
  | remove_port (id : Nat) (p : event_port_t) :
      GetIDData_port s id = some p → Effect K s (RemoveID s id)
  | change_port (id : Nat) (port p : event_port_t) :
      GetIDData_port s id = some port → p.type = port.type → p.name = port.name →
      Effect K s (set_port s id p)
  | create (attr : sys_event_queue_attr) (key : Nat) (size : Int) :
      0 < size → size ≤ 127 → (key = 0 ∨ s.eq_map.lookup key = none) →
      Effect K s (created s attr key size)
  | destroy (equeue_id a : Nat) (q : event_queue_t) :
      GetIDData_queue s equeue_id = some (a, q) → q.cancelled = false →
      Effect K s (destroyed s equeue_id a q)

/-- Every port in the ID table has the type LOCAL. -/
def ports_local (K : Consts) (s : State) : Prop :=
  ∀ id p, (id, ID.TYPE_EVENT_PORT p) ∈ s.m_id_map → p.type = K.SYS_EVENT_PORT_LOCAL

/-- Queue entries of the ID table point into the heap. -/
def table_in_heap (s : State) : Prop :=
  ∀ id a, (id, ID.TYPE_EVENT_QUEUE a) ∈ s.m_id_map → a < s.heap.length

/-- Every live queue with a nonzero key has its key in the key registry. -/
def keys_registered (s : State) : Prop :=
  ∀ id a q, (id, ID.TYPE_EVENT_QUEUE a) ∈ s.m_id_map → s.heap[a]? = some q → q.key ≠ 0 →
    (s.eq_map.lookup q.key).isSome = true

/-- No two live queues share a nonzero key. -/
def keys_unique (s : State) : Prop :=
  ∀ id1 a1 q1 id2 a2 q2,
    (id1, ID.TYPE_EVENT_QUEUE a1) ∈ s.m_id_map → (id2, ID.TYPE_EVENT_QUEUE a2) ∈ s.m_id_map →
    s.heap[a1]? = some q1 → s.heap[a2]? = some q2 → q1.key = q2.key → q1.key ≠ 0 → id1 = id2

/-- Every queue object has a capacity from 1 to 127 and at most that many
pending records. -/
def capacity_ok (s : State) : Prop :=
  ∀ q ∈ s.heap, 1 ≤ q.size ∧ q.size ≤ 127 ∧ (q.events.length : Int) ≤ q.size

/-- The id is not in the ID table. -/
def id_absent (s : State) (id : Nat) : Prop :=
  ∀ e ∈ s.m_id_map, e.1 ≠ id

/-- The three facts on keys, taken together. -/
def key_inv (s : State) : Prop :=
  table_in_heap s ∧ keys_registered s ∧ keys_unique s

/-- What any step does to the ID manager: an id in the table was there before,
or it is the id the counter stood at and the counter has moved. -/
def table_grows (s s1 : State) : Prop :=
  ∀ e ∈ s1.m_id_map,
    (∃ e0 ∈ s.m_id_map, e0.1 = e.1) ∨ (e.1 = s.m_cur_id % 2 ^ 32 ∧ s1.m_cur_id ≠ s.m_cur_id)

/-- The step `act`, taken in state `s`, is given `id` by `GetNewID`: the
counter stands at `id` and the step moves it. -/
def id_issued (K : Consts) (pid : Nat) (s : State) (act : Action) (id : Nat) : Bool :=
  decide (s.m_cur_id % 2 ^ 32 = id) && decide ((step K pid s act).m_cur_id ≠ s.m_cur_id)

/-- No step of the sequence `as`, run from `s`, is given `id` by `GetNewID`. -/
def never_issued (K : Consts) (pid : Nat) (id : Nat) : State → List Action → Bool
  | _, [] => true
  | s, act :: rest => !(id_issued K pid s act id) && never_issued K pid id (step K pid s act) rest

/-! ## Waiters, ownership and cancellation: the facts kept by every step -/

/-- Number of suspended receive calls that hold the queue object at address
`a`, that is, of calls inside the wait loop of that queue. -/
def parked (s : State) (a : Nat) : Nat :=
  s.receivers.countP (fun f => decide (f.queue = a))

/-- Suspended receive calls hold allocated queue objects. -/
def frames_in_heap (s : State) : Prop :=
  ∀ f ∈ s.receivers, f.queue < s.heap.length

/-- Every queue object counts at least the calls inside its wait loop. -/
def waiters_ge (s : State) : Prop :=
  ∀ (a : Nat) (q : event_queue_t), s.heap[a]? = some q → (parked s a : Int) ≤ q.waiters

/-- Every queue object counts exactly the calls inside its wait loop. -/
def waiters_eq (s : State) : Prop :=
  ∀ (a : Nat) (q : event_queue_t), s.heap[a]? = some q → q.waiters = (parked s a : Int)

/-- The reading of `Emu.IsStopped()` a step is given; `false` for the steps
that do not read it. -/
def Action.stop_flag : Action → Bool
  | .queue_receive _ _ _ _ stopped => stopped
  | .receive_wake _ _ stopped => stopped
  | _ => false

/-- What a step does to `waiters` and to the suspended calls: an object that
was there keeps the difference `waiters - parked`, or, when the stop flag was
read as set (`ab`), raises it by one; a new object has no waiter; a new frame
holds an object that was there. -/
def waiters_step (ab : Bool) (s s1 : State) : Prop :=
  s.heap.length ≤ s1.heap.length
  ∧ (∀ f ∈ s1.receivers, f ∈ s.receivers ∨ f.queue < s.heap.length)
  ∧ ∀ (b : Nat) (q1 : event_queue_t), s1.heap[b]? = some q1 →
      (∃ q : event_queue_t, s.heap[b]? = some q
        ∧ (q1.waiters - (parked s1 b : Int) = q.waiters - (parked s b : Int)
          ∨ (ab = true ∧ q1.waiters - (parked s1 b : Int) = q.waiters - (parked s b : Int) + 1)))
      ∨ (s.heap.length ≤ b ∧ q1.waiters = 0 ∧ parked s1 b = parked s b)

/-- No two entries of the ID table own the same queue object. -/
def addr_unique (s : State) : Prop :=
  ∀ id1 id2 a, (id1, ID.TYPE_EVENT_QUEUE a) ∈ s.m_id_map →
    (id2, ID.TYPE_EVENT_QUEUE a) ∈ s.m_id_map → id1 = id2

/-- A queue object owned by the ID table is not cancelled. -/
def live_not_cancelled (s : State) : Prop :=
  ∀ id a q, (id, ID.TYPE_EVENT_QUEUE a) ∈ s.m_id_map → s.heap[a]? = some q → q.cancelled = false

/-- An entry `key → queue` of the key registry has a nonzero key, which is the
key of the queue object. -/
def reg_keyed (s : State) : Prop :=
  ∀ k b, (k, b) ∈ s.eq_map → k ≠ 0 ∧ ∃ q : event_queue_t, s.heap[b]? = some q ∧ q.key = k

/-- The facts on the owners of queue objects, taken together. -/
def live_inv (s : State) : Prop :=
  table_in_heap s ∧ addr_unique s ∧ live_not_cancelled s ∧ reg_keyed s

/-- Example: the system with one queue (id 1, FIFO, PPU, key 0, size 2, at
address 0) and the id counter at `c`. -/
def one_queue_example (c : Nat) : State :=
  { m_cur_id := c,
    m_id_map := [(1, ID.TYPE_EVENT_QUEUE 0)],
    eq_map := [],
    heap := [{ protocol := 1, type := 1, name := 0, key := 0, size := 2,
               events := [], waiters := 0, cancelled := false }],
    receivers := [] }

/-- Example input: `n` times `sys_event_port_create` followed by
`sys_event_port_destroy` of the port just made, the id counter starting at
`c`. -/
def port_churn : Nat → Nat → List Action
  | 0, _ => []
  | n + 1, c => Action.port_create 1 0 :: Action.port_destroy (c % 2 ^ 32) :: port_churn n (c + 1)

/-- The queue object at address `a` is owned neither by the ID table nor by the
key registry: what a successful `sys_event_queue_destroy` leaves of a queue.
Only suspended receive calls can still hold it. -/
def orphan (s : State) (a : Nat) : Prop :=
  a < s.heap.length
  ∧ (∀ id, (id, ID.TYPE_EVENT_QUEUE a) ∉ s.m_id_map)
  ∧ (∀ k, (k, a) ∉ s.eq_map)

/-! # Theorems -/

/-! ## Lemmas on the allocator and the key registry -/

theorem RegisterKey_fst (s : State) (data key : Nat) :
    (RegisterKey s data key).1 = decide (key = 0 ∨ s.eq_map.lookup key = none) := by
  unfold RegisterKey
  by_cases hk : key = 0
  · simp [hk]
  · cases h : s.eq_map.lookup key <;> simp [hk]

/-- Shape of the result of `sys_event_queue_create` once the arguments are
valid: `CELL_EEXIST` with nothing changed when the key is taken, else `CELL_OK`
with the new object, the key registered and the id entered. -/
theorem sys_event_queue_create_valid (K : Consts) (s : State) (equeue_id : Nat)
    (attr : sys_event_queue_attr) (key : Nat) (size : Int)
    (hsize : 0 < size ∧ size ≤ 127)
    (hprot : attr.protocol = to_u32 K.SYS_SYNC_FIFO ∨ attr.protocol = to_u32 K.SYS_SYNC_PRIORITY)
    (htype : attr.type = to_u32 K.SYS_PPU_QUEUE ∨ attr.type = to_u32 K.SYS_SPU_QUEUE) :
    sys_event_queue_create K s equeue_id attr key size =
      if key ≠ 0 ∧ (s.eq_map.lookup key).isSome then (CELL_EEXIST, s, equeue_id)
      else (CELL_OK,
        { m_cur_id := (s.m_cur_id + 1) % 2 ^ 32,
          m_id_map := (s.m_cur_id % 2 ^ 32, ID.TYPE_EVENT_QUEUE s.heap.length) :: s.m_id_map,
          eq_map := if key = 0 then s.eq_map else (key, s.heap.length) :: s.eq_map,
          heap := s.heap ++ [event_queue_t.new attr.protocol (to_s32 attr.type) attr.name_u64 key size],
          receivers := s.receivers },
        s.m_cur_id % 2 ^ 32) := by
  have h1 : ¬ (size ≤ 0 ∨ size > 127) := by omega
  unfold sys_event_queue_create
  simp only [h1, if_false, hprot, htype, not_true_eq_false, new_queue, RegisterKey, GetNewID]
  by_cases hk : key = 0
  · simp [hk]
  · cases h : s.eq_map.lookup key <;> simp [hk, h]

/-- C1. `sys_event_queue_create` returns `CELL_EINVAL` exactly when
`size <= 0`, or `size > 127`, or the protocol is neither FIFO nor PRIORITY, or
the type is neither PPU nor SPU; in that case the state (resource table, key
registry, queue objects) and the id output are as before the call. With valid
protocol and type and a key that is 0 or not registered, sizes 0 and 128 give
`CELL_EINVAL`, sizes 1 and 127 give `CELL_OK`. -/
theorem sys_event_queue_create_invalid_argument (K : Consts) (s : State) (equeue_id : Nat)
    (attr : sys_event_queue_attr) (key : Nat) (size : Int) :
    ((sys_event_queue_create K s equeue_id attr key size).1 = CELL_EINVAL ↔
      (size ≤ 0 ∨ size > 127
        ∨ (attr.protocol ≠ to_u32 K.SYS_SYNC_FIFO ∧ attr.protocol ≠ to_u32 K.SYS_SYNC_PRIORITY)
        ∨ (attr.type ≠ to_u32 K.SYS_PPU_QUEUE ∧ attr.type ≠ to_u32 K.SYS_SPU_QUEUE)))
    ∧ ((sys_event_queue_create K s equeue_id attr key size).1 = CELL_EINVAL →
        (sys_event_queue_create K s equeue_id attr key size).2 = (s, equeue_id))
    ∧ ((attr.protocol = to_u32 K.SYS_SYNC_FIFO ∨ attr.protocol = to_u32 K.SYS_SYNC_PRIORITY) →
        (attr.type = to_u32 K.SYS_PPU_QUEUE ∨ attr.type = to_u32 K.SYS_SPU_QUEUE) →
        (key = 0 ∨ s.eq_map.lookup key = none) →
        (sys_event_queue_create K s equeue_id attr key 0).1 = CELL_EINVAL
        ∧ (sys_event_queue_create K s equeue_id attr key 128).1 = CELL_EINVAL
        ∧ (sys_event_queue_create K s equeue_id attr key 1).1 = CELL_OK
        ∧ (sys_event_queue_create K s equeue_id attr key 127).1 = CELL_OK) := by
  have key_ok : ∀ sz : Int, 0 < sz ∧ sz ≤ 127 →
      (attr.protocol = to_u32 K.SYS_SYNC_FIFO ∨ attr.protocol = to_u32 K.SYS_SYNC_PRIORITY) →
      (attr.type = to_u32 K.SYS_PPU_QUEUE ∨ attr.type = to_u32 K.SYS_SPU_QUEUE) →
      (sys_event_queue_create K s equeue_id attr key sz).1 ≠ CELL_EINVAL
      ∧ ((key = 0 ∨ s.eq_map.lookup key = none) →
          (sys_event_queue_create K s equeue_id attr key sz).1 = CELL_OK) := by
    intro sz hsz hp ht
    rw [sys_event_queue_create_valid K s equeue_id attr key sz hsz hp ht]
    constructor
    · split <;> simp
    · intro hfree
      have hno : ¬ (key ≠ 0 ∧ (s.eq_map.lookup key).isSome = true) := by
        rcases hfree with h | h
        · simp [h]
        · simp [h]
      rw [if_neg hno]
  have bad_size : ∀ sz : Int, (sz ≤ 0 ∨ sz > 127) →
      sys_event_queue_create K s equeue_id attr key sz = (CELL_EINVAL, s, equeue_id) := by
    intro sz hsz
    unfold sys_event_queue_create
    simp [hsz]
  refine ⟨?_, ?_, ?_⟩
  · by_cases hsz : size ≤ 0 ∨ size > 127
    · rw [bad_size size hsz]
      constructor
      · intro _
        rcases hsz with h | h
        · exact Or.inl h
        · exact Or.inr (Or.inl h)
      · intro _; rfl
    · by_cases hp : attr.protocol = to_u32 K.SYS_SYNC_FIFO ∨ attr.protocol = to_u32 K.SYS_SYNC_PRIORITY
      · by_cases ht : attr.type = to_u32 K.SYS_PPU_QUEUE ∨ attr.type = to_u32 K.SYS_SPU_QUEUE
        · have hne := (key_ok size (by omega) hp ht).1
          constructor
          · intro h; exact absurd h hne
          · intro h
            rcases h with h | h | h | h
            · exact absurd (Or.inl h) hsz
            · exact absurd (Or.inr h) hsz
            · rcases hp with hp | hp
              · exact absurd hp h.1
              · exact absurd hp h.2
            · rcases ht with ht | ht
              · exact absurd ht h.1
              · exact absurd ht h.2
        · have hres : sys_event_queue_create K s equeue_id attr key size = (CELL_EINVAL, s, equeue_id) := by
            unfold sys_event_queue_create
            simp [hsz, hp, ht]
          rw [hres]
          constructor
          · intro _
            exact Or.inr (Or.inr (Or.inr (not_or.mp ht)))
          · intro _; rfl
      · have hres : sys_event_queue_create K s equeue_id attr key size = (CELL_EINVAL, s, equeue_id) := by
          unfold sys_event_queue_create
          simp [hsz, hp]
        rw [hres]
        constructor
        · intro _
          exact Or.inr (Or.inr (Or.inl (not_or.mp hp)))
        · intro _; rfl
  · intro h
    by_cases hsz : size ≤ 0 ∨ size > 127
    · rw [bad_size size hsz]
    · by_cases hp : attr.protocol = to_u32 K.SYS_SYNC_FIFO ∨ attr.protocol = to_u32 K.SYS_SYNC_PRIORITY
      · by_cases ht : attr.type = to_u32 K.SYS_PPU_QUEUE ∨ attr.type = to_u32 K.SYS_SPU_QUEUE
        · exact absurd h (key_ok size (by omega) hp ht).1
        · unfold sys_event_queue_create
          simp [hsz, hp, ht]
      · unfold sys_event_queue_create
        simp [hsz, hp]
  · intro hp ht hfree
    refine ⟨?_, ?_, ?_, ?_⟩
    · rw [bad_size 0 (by omega)]
    · rw [bad_size 128 (by omega)]
    · exact (key_ok 1 (by omega) hp ht).2 hfree
    · exact (key_ok 127 (by omega) hp ht).2 hfree

/-- Witness for C1 on the empty system, with a FIFO PPU queue and key 7. -/
theorem sys_event_queue_create_invalid_argument_witness :
    (sys_event_queue_create K0 State.init 0 ⟨1, 1, 0⟩ 7 0).1 = CELL_EINVAL
    ∧ (sys_event_queue_create K0 State.init 0 ⟨1, 1, 0⟩ 7 128).1 = CELL_EINVAL
    ∧ (sys_event_queue_create K0 State.init 0 ⟨1, 1, 0⟩ 7 1).1 = CELL_OK
    ∧ (sys_event_queue_create K0 State.init 0 ⟨1, 1, 0⟩ 7 127).1 = CELL_OK :=
  (sys_event_queue_create_invalid_argument K0 State.init 0 ⟨1, 1, 0⟩ 7 1).2.2
    (by decide) (by decide) (by decide)

/-! ## Lemmas on queue objects behind the ID table -/

theorem heap_set_self (heap : List event_queue_t) (a : Nat) (q : event_queue_t)
    (h : heap[a]? = some q) : heap.set a q = heap := by
  apply List.ext_getElem?
  intro i
  by_cases hi : a = i
  · subst hi
    rw [List.getElem?_set_self', h]
    simp
  · rw [List.getElem?_set_ne hi]

theorem set_queue_self (s : State) (a : Nat) (q : event_queue_t) (h : s.heap[a]? = some q) :
    set_queue s a q = s := by
  unfold set_queue
  rw [heap_set_self s.heap a q h]

theorem GetIDData_queue_some {s : State} {id a : Nat} {q : event_queue_t}
    (h : GetIDData_queue s id = some (a, q)) :
    s.m_id_map.lookup id = some (ID.TYPE_EVENT_QUEUE a) ∧ s.heap[a]? = some q := by
  unfold GetIDData_queue at h
  split at h
  · rename_i queue hl
    cases hq : s.heap[queue]? with
    | none => simp [hq] at h
    | some q1 =>
      simp only [hq, Option.map_some', Option.some.injEq, Prod.mk.injEq] at h
      obtain ⟨h1, h2⟩ := h
      subst h1
      subst h2
      exact ⟨hl, hq⟩
  · simp at h

theorem GetIDData_queue_of {s : State} {id a : Nat} {q : event_queue_t}
    (h1 : s.m_id_map.lookup id = some (ID.TYPE_EVENT_QUEUE a)) (h2 : s.heap[a]? = some q) :
    GetIDData_queue s id = some (a, q) := by
  unfold GetIDData_queue
  simp [h1, h2]

theorem heap_get_set_queue (s : State) (a : Nat) (q q1 : event_queue_t)
    (h : s.heap[a]? = some q) : (set_queue s a q1).heap[a]? = some q1 := by
  have hlt : a < s.heap.length := by
    rcases Nat.lt_or_ge a s.heap.length with h1 | h1
    · exact h1
    · rw [List.getElem?_eq_none h1] at h
      cases h
  simp [set_queue, List.getElem?_set_self hlt]

theorem GetIDData_queue_set_queue {s : State} {id a : Nat} {q : event_queue_t}
    (h : GetIDData_queue s id = some (a, q)) (q1 : event_queue_t) :
    GetIDData_queue (set_queue s a q1) id = some (a, q1) := by
  obtain ⟨h1, h2⟩ := GetIDData_queue_some h
  exact GetIDData_queue_of (by simpa [set_queue] using h1) (heap_get_set_queue s a q q1 h2)

/-! ## `sys_event_queue_tryreceive` -/

/-- The loop of `sys_event_queue_tryreceive` when nobody waits: it takes
`m = min (size - count) (length events)` records from the front, writes them to
`event_array[count .. count + m - 1]` and touches no other element. -/
theorem tryreceive_loop_spec (size : Int) :
    ∀ (events : List event_t) (count : Nat) (event_array : Nat → sys_event_t),
      (count : Int) ≤ size →
      (tryreceive_loop 0 size events count event_array).1
          = events.drop (min (size.toNat - count) events.length)
      ∧ (tryreceive_loop 0 size events count event_array).2.1
          = count + min (size.toNat - count) events.length
      ∧ (∀ j e, j < size.toNat - count → events[j]? = some e →
          (tryreceive_loop 0 size events count event_array).2.2 (count + j) = to_sys_event e)
      ∧ (∀ i, i < count ∨ count + min (size.toNat - count) events.length ≤ i →
          (tryreceive_loop 0 size events count event_array).2.2 i = event_array i) := by
  intro events
  induction events with
  | nil =>
    intro count event_array _
    simp [tryreceive_loop]
  | cons ev rest ih =>
    intro count event_array hc
    by_cases hlt : (count : Int) < size
    · have hstep : tryreceive_loop 0 size (ev :: rest) count event_array
          = tryreceive_loop 0 size rest (count + 1)
              (fun i => if i = count then to_sys_event ev else event_array i) := by
        simp [tryreceive_loop, hlt]
      obtain ⟨h1, h2, h3, h4⟩ := ih (count + 1)
        (fun i => if i = count then to_sys_event ev else event_array i) (by push_cast; omega)
      have hm : min (size.toNat - count) (rest.length + 1)
          = min (size.toNat - (count + 1)) rest.length + 1 := by omega
      rw [hstep]
      refine ⟨?_, ?_, ?_, ?_⟩
      · rw [h1, List.length_cons, hm, List.drop_succ_cons]
      · rw [h2, List.length_cons, hm]
        omega
      · intro j e hj he
        cases j with
        | zero =>
          simp only [List.getElem?_cons_zero, Option.some.injEq] at he
          subst he
          rw [h4 (count + 0) (Or.inl (by omega))]
          simp
        | succ j =>
          simp only [List.getElem?_cons_succ] at he
          have := h3 j e (by omega) he
          rw [show count + (j + 1) = count + 1 + j by omega]
          exact this
      · intro i hi
        rw [List.length_cons, hm] at hi
        rw [h4 i (by omega)]
        have : i ≠ count := by omega
        simp [this]
    · have hsz : size.toNat - count = 0 := by omega
      simp [tryreceive_loop, hlt, hsz]

/-- The loop of `sys_event_queue_tryreceive` when somebody waits: nothing is
taken and nothing is written. -/
theorem tryreceive_loop_waiters (waiters size : Int) (hw : waiters ≠ 0)
    (events : List event_t) (count : Nat) (event_array : Nat → sys_event_t) :
    tryreceive_loop waiters size events count event_array = (events, count, event_array) := by
  cases events with
  | nil => simp [tryreceive_loop]
  | cons ev rest => simp [tryreceive_loop, hw]

/-- Result of `sys_event_queue_tryreceive` on a PPU queue nobody waits on. -/
theorem sys_event_queue_tryreceive_spec (K : Consts) (s : State) (equeue_id a : Nat)
    (q : event_queue_t) (event_array : Nat → sys_event_t) (size : Int) (number : Nat)
    (hq : GetIDData_queue s equeue_id = some (a, q))
    (hppu : q.type = K.SYS_PPU_QUEUE) (hw : q.waiters = 0) (hsize : 0 ≤ size) :
    ∃ (s1 : State) (event_array1 : Nat → sys_event_t),
      sys_event_queue_tryreceive K s equeue_id event_array size number
        = .ok (CELL_OK, s1, event_array1, min size.toNat q.events.length)
      ∧ (∀ i e, i < min size.toNat q.events.length → q.events[i]? = some e →
          event_array1 i = to_sys_event e)
      ∧ (∀ i, min size.toNat q.events.length ≤ i → event_array1 i = event_array i)
      ∧ s1 = set_queue s a { q with events := q.events.drop (min size.toNat q.events.length) }
      ∧ GetIDData_queue s1 equeue_id
          = some (a, { q with events := q.events.drop (min size.toNat q.events.length) })
      ∧ (q.events = [] → min size.toNat q.events.length = 0) := by
  obtain ⟨h1, h2, h3, h4⟩ := tryreceive_loop_spec size q.events 0 event_array (by simpa using hsize)
  simp only [Nat.sub_zero, Nat.zero_add] at h1 h2 h3 h4
  refine ⟨set_queue s a { q with events := q.events.drop (min size.toNat q.events.length) },
    (tryreceive_loop 0 size q.events 0 event_array).2.2, ?_, ?_, ?_, rfl, ?_, ?_⟩
  · unfold sys_event_queue_tryreceive
    simp only [hq, hw]
    have hns : ¬ size < 0 := by omega
    have hne : ¬ (q.type ≠ K.SYS_PPU_QUEUE) := by simp [hppu]
    simp only [hns, if_false, hne]
    rw [← h1, ← h2]
  · intro i e hi he
    exact h3 i e (by omega) he
  · intro i hi
    exact h4 i (Or.inr hi)
  · exact GetIDData_queue_set_queue hq _
  · intro he
    simp [he]

/-- C3. On a PPU queue with `waiters = 0` and `size >= 0`,
`sys_event_queue_tryreceive` returns `CELL_OK` with
`number = min(size, length of pending)`; `event_array[i]` for `i < number` is
the `i`-th pending record (its four fields), the other elements of the array
are untouched; afterwards the queue holds the old pending records without
these first `number` ones, and on an empty queue `number = 0`. -/
theorem sys_event_queue_tryreceive_drains (K : Consts) (s : State) (equeue_id a : Nat)
    (q : event_queue_t) (event_array : Nat → sys_event_t) (size : Int) (number : Nat)
    (hq : GetIDData_queue s equeue_id = some (a, q))
    (hppu : q.type = K.SYS_PPU_QUEUE) (hw : q.waiters = 0) (hsize : 0 ≤ size) :
    ∃ (s1 : State) (event_array1 : Nat → sys_event_t),
      sys_event_queue_tryreceive K s equeue_id event_array size number
        = .ok (CELL_OK, s1, event_array1, min size.toNat q.events.length)
      ∧ (∀ i e, i < min size.toNat q.events.length → q.events[i]? = some e →
          event_array1 i = to_sys_event e)
      ∧ (∀ i, min size.toNat q.events.length ≤ i → event_array1 i = event_array i)
      ∧ s1 = set_queue s a { q with events := q.events.drop (min size.toNat q.events.length) }
      ∧ GetIDData_queue s1 equeue_id
          = some (a, { q with events := q.events.drop (min size.toNat q.events.length) })
      ∧ (q.events = [] → min size.toNat q.events.length = 0) := by
  obtain ⟨h1, h2, h3, h4⟩ := tryreceive_loop_spec size q.events 0 event_array (by simpa using hsize)
  simp only [Nat.sub_zero, Nat.zero_add] at h1 h2 h3 h4
  refine ⟨set_queue s a { q with events := q.events.drop (min size.toNat q.events.length) },
    (tryreceive_loop 0 size q.events 0 event_array).2.2, ?_, ?_, ?_, rfl, ?_, ?_⟩
  · unfold sys_event_queue_tryreceive
    simp only [hq, hw]
    have hns : ¬ size < 0 := by omega
    have hne : ¬ (q.type ≠ K.SYS_PPU_QUEUE) := by simp [hppu]
    simp only [hns, if_false, hne]
    rw [← h1, ← h2]
  · intro i e hi he
    exact h3 i e (by omega) he
  · intro i hi
    exact h4 i (Or.inr hi)
  · exact GetIDData_queue_set_queue hq _
  · intro he
    simp [he]

/-- Witness for C3: a PPU queue holding two records, `size = 1`: one record is
taken, `event_array[0]` holds it, `event_array[1]` is untouched. -/
theorem sys_event_queue_tryreceive_drains_witness :
    ∃ (s1 : State) (event_array1 : Nat → sys_event_t),
      sys_event_queue_tryreceive K0
          { m_cur_id := 2, m_id_map := [(1, ID.TYPE_EVENT_QUEUE 0)], eq_map := [],
            heap := [{ protocol := 1, type := 1, name := 0, key := 0, size := 2,
                       events := [⟨9, 1, 2, 3⟩, ⟨9, 4, 5, 6⟩], waiters := 0, cancelled := false }],
            receivers := [] }
          1 (fun _ => ⟨0, 0, 0, 0⟩) 1 0
        = .ok (CELL_OK, s1, event_array1, 1)
      ∧ event_array1 0 = ⟨9, 1, 2, 3⟩
      ∧ event_array1 1 = ⟨0, 0, 0, 0⟩
      ∧ s1.heap = [{ protocol := 1, type := 1, name := 0, key := 0, size := 2,
                     events := [⟨9, 4, 5, 6⟩], waiters := 0, cancelled := false }] := by
  obtain ⟨s1, arr, h1, h2, h3, h4, _, _⟩ := sys_event_queue_tryreceive_drains K0
    { m_cur_id := 2, m_id_map := [(1, ID.TYPE_EVENT_QUEUE 0)], eq_map := [],
      heap := [{ protocol := 1, type := 1, name := 0, key := 0, size := 2,
                 events := [⟨9, 1, 2, 3⟩, ⟨9, 4, 5, 6⟩], waiters := 0, cancelled := false }],
      receivers := [] }
    1 0 { protocol := 1, type := 1, name := 0, key := 0, size := 2,
          events := [⟨9, 1, 2, 3⟩, ⟨9, 4, 5, 6⟩], waiters := 0, cancelled := false }
    (fun _ => ⟨0, 0, 0, 0⟩) 1 0 (by decide) (by decide) (by decide) (by decide)
  exact ⟨s1, arr, h1, h2 0 ⟨9, 1, 2, 3⟩ (by decide) (by decide), h3 1 (by decide),
    by rw [h4]; decide⟩

/-- C4. On a PPU queue with `waiters > 0` and `size >= 0`,
`sys_event_queue_tryreceive` returns `CELL_OK` with `number = 0`, leaves the
event array as it was and leaves the state, the pending records included, as
it was, whatever the pending records are. -/
theorem sys_event_queue_tryreceive_yields_to_waiter (K : Consts) (s : State) (equeue_id a : Nat)
    (q : event_queue_t) (event_array : Nat → sys_event_t) (size : Int) (number : Nat)
    (hq : GetIDData_queue s equeue_id = some (a, q))
    (hppu : q.type = K.SYS_PPU_QUEUE) (hw : q.waiters > 0) (hsize : 0 ≤ size) :
    sys_event_queue_tryreceive K s equeue_id event_array size number
        = .ok (CELL_OK, s, event_array, 0)
    ∧ GetIDData_queue s equeue_id = some (a, q) := by
  refine ⟨?_, hq⟩
  have hns : ¬ size < 0 := by omega
  have hne : ¬ (q.type ≠ K.SYS_PPU_QUEUE) := by simp [hppu]
  have hself : set_queue s a { q with events := q.events } = s :=
    set_queue_self s a q (GetIDData_queue_some hq).2
  unfold sys_event_queue_tryreceive
  simp only [hq, hns, if_false, hne, tryreceive_loop_waiters q.waiters size (by omega), hself]

/-- Witness for C4: a PPU queue holding one record with one waiter. -/
theorem sys_event_queue_tryreceive_yields_to_waiter_witness :
    sys_event_queue_tryreceive K0
        { m_cur_id := 2, m_id_map := [(1, ID.TYPE_EVENT_QUEUE 0)], eq_map := [],
          heap := [{ protocol := 1, type := 1, name := 0, key := 0, size := 2,
                     events := [⟨9, 1, 2, 3⟩], waiters := 1, cancelled := false }],
          receivers := [⟨0, 0, 0⟩] }
        1 (fun _ => ⟨0, 0, 0, 0⟩) 5 77
      = .ok (CELL_OK,
        { m_cur_id := 2, m_id_map := [(1, ID.TYPE_EVENT_QUEUE 0)], eq_map := [],
          heap := [{ protocol := 1, type := 1, name := 0, key := 0, size := 2,
                     events := [⟨9, 1, 2, 3⟩], waiters := 1, cancelled := false }],
          receivers := [⟨0, 0, 0⟩] },
        fun _ => ⟨0, 0, 0, 0⟩, 0) :=
  (sys_event_queue_tryreceive_yields_to_waiter K0
    { m_cur_id := 2, m_id_map := [(1, ID.TYPE_EVENT_QUEUE 0)], eq_map := [],
      heap := [{ protocol := 1, type := 1, name := 0, key := 0, size := 2,
                 events := [⟨9, 1, 2, 3⟩], waiters := 1, cancelled := false }],
      receivers := [⟨0, 0, 0⟩] }
    1 0 { protocol := 1, type := 1, name := 0, key := 0, size := 2,
          events := [⟨9, 1, 2, 3⟩], waiters := 1, cancelled := false }
    (fun _ => ⟨0, 0, 0, 0⟩) 5 77 (by decide) (by decide) (by decide) (by decide)).1

/-! ## Ownership of queue objects -/

theorem lookup_mem {α : Type} (l : List (Nat × α)) (k : Nat) (v : α)
    (h : l.lookup k = some v) : (k, v) ∈ l := by
  induction l with
  | nil => simp at h
  | cons e rest ih =>
    obtain ⟨k1, v1⟩ := e
    rw [List.lookup_cons] at h
    by_cases hk : k = k1
    · subst hk
      simp only [beq_self_eq_true, Option.some.injEq] at h
      subst h
      exact List.mem_cons_self _ _
    · have hb : (k == k1) = false := by simpa using hk
      rw [hb] at h
      exact List.mem_cons_of_mem _ (ih h)

theorem lock_some {s : State} {w : Option Nat} {a : Nat} {q : event_queue_t}
    (h : lock s w = some (a, q)) :
    w = some a ∧ use_count s a ≠ 0 ∧ s.heap[a]? = some q := by
  unfold lock at h
  cases w with
  | none => simp at h
  | some b =>
    simp only at h
    by_cases he : expired s (some b) = true
    · simp [he] at h
    · simp only [he] at h
      cases hb : s.heap[b]? with
      | none => simp [hb] at h
      | some q1 =>
        simp only [hb, Bool.false_eq_true, if_false, Option.map_some', Option.some.injEq,
          Prod.mk.injEq] at h
        obtain ⟨h1, h2⟩ := h
        subst h1
        subst h2
        refine ⟨rfl, ?_, hb⟩
        intro h0
        apply he
        simp [expired, h0]

theorem lock_of {s : State} {a : Nat} {q : event_queue_t}
    (h1 : use_count s a ≠ 0) (h2 : s.heap[a]? = some q) : lock s (some a) = some (a, q) := by
  simp [lock, expired, h1, h2]

/-- A queue that resolves through the ID table is owned by the table, so a
`weak_ptr` set from it is not expired. -/
theorem lock_of_live {s : State} {id a : Nat} {q : event_queue_t}
    (h : GetIDData_queue s id = some (a, q)) : lock s (some a) = some (a, q) := by
  obtain ⟨h1, h2⟩ := GetIDData_queue_some h
  apply lock_of _ h2
  have hmem := lookup_mem _ _ _ h1
  have hpos : 0 < s.m_id_map.countP (fun e => decide (e.2 = ID.TYPE_EVENT_QUEUE a)) := by
    rw [List.countP_pos_iff]
    exact ⟨_, hmem, by simp⟩
  unfold use_count
  omega

theorem lock_set_queue {s : State} {w : Option Nat} {a : Nat} {q : event_queue_t}
    (h : lock s w = some (a, q)) (q1 : event_queue_t) :
    lock (set_queue s a q1) w = some (a, q1) := by
  obtain ⟨h1, h2, h3⟩ := lock_some h
  subst h1
  exact lock_of (by simpa [use_count, set_queue] using h2) (heap_get_set_queue s a q q1 h3)

theorem to_size_t_of_nonneg (x : Int) (h0 : 0 ≤ x) (h1 : x < 2 ^ 31) : to_size_t x = x.toNat := by
  unfold to_size_t
  rw [Int.emod_eq_of_lt h0 (by omega)]

/-! ## `sys_event_port_send` -/

/-- Result of `sys_event_port_send` on a port whose queue reference
resolves. -/
theorem sys_event_port_send_connected (pid : Nat) (s : State) (eport_id a : Nat)
    (port : event_port_t) (q : event_queue_t) (data1 data2 data3 : Nat)
    (hp : GetIDData_port s eport_id = some port) (hl : lock s port.queue = some (a, q)) :
    sys_event_port_send pid s eport_id data1 data2 data3 =
      if q.events.length ≥ to_size_t q.size then (CELL_EBUSY, s)
      else (CELL_OK,
        set_queue s a { q with events := q.events ++ [sent_event pid port eport_id (data1, data2, data3)] }) := by
  unfold sys_event_port_send
  simp only [hp, hl]
  rfl

/-- After a store into the queue object the port and the queue resolve as
before, to the new object. -/
theorem resolve_set_queue {s : State} {eport_id a : Nat} {port : event_port_t} {q : event_queue_t}
    (hp : GetIDData_port s eport_id = some port) (hl : lock s port.queue = some (a, q))
    (q1 : event_queue_t) :
    GetIDData_port (set_queue s a q1) eport_id = some port
    ∧ lock (set_queue s a q1) port.queue = some (a, q1) :=
  ⟨hp, lock_set_queue hl q1⟩

theorem set_queue_set_queue (s : State) (a : Nat) (q1 q2 : event_queue_t) :
    set_queue (set_queue s a q1) a q2 = set_queue s a q2 := by
  simp [set_queue, List.set_set]

/-- Sends that fit into the capacity all return `CELL_OK` and append their
records in order. -/
theorem send_all_fits (pid eport_id a : Nat) (port : event_port_t) :
    ∀ (ds : List (Nat × Nat × Nat)) (s : State) (q : event_queue_t),
      GetIDData_port s eport_id = some port → lock s port.queue = some (a, q) →
      0 ≤ q.size → q.size < 2 ^ 31 → ((q.events.length + ds.length : Nat) : Int) ≤ q.size →
      send_all pid eport_id s ds
        = (List.replicate ds.length CELL_OK,
           set_queue s a { q with events := q.events ++ ds.map (sent_event pid port eport_id) }) := by
  intro ds
  induction ds with
  | nil =>
    intro s q _ hl _ _ _
    have := set_queue_self s a q (lock_some hl).2.2
    simp [send_all, this]
  | cons d ds ih =>
    intro s q hp hl h0 h1 hlen
    have hnb : ¬ (q.events.length ≥ to_size_t q.size) := by
      rw [to_size_t_of_nonneg q.size h0 h1]
      simp only [List.length_cons] at hlen
      omega
    have hsend := sys_event_port_send_connected pid s eport_id a port q d.1 d.2.1 d.2.2 hp hl
    rw [if_neg hnb] at hsend
    obtain ⟨hp1, hl1⟩ := resolve_set_queue hp hl
      { q with events := q.events ++ [sent_event pid port eport_id (d.1, d.2.1, d.2.2)] }
    have hrec := ih _ _ hp1 hl1 h0 h1 (by
      simp only [List.length_append, List.length_cons, List.length_nil] at hlen ⊢
      omega)
    simp only [send_all, hsend, hrec, set_queue_set_queue, List.replicate_succ, List.length_cons,
      List.map_cons, List.append_assoc, List.singleton_append]

/-! ## `sys_event_queue_receive` -/

/-- A receive call on a PPU queue with a pending record returns at once, for
every clock, stop flag and fuel: `CELL_OK`, the front record in `GPR[4..7]`,
the record removed and `waiters` as before the call. -/
theorem sys_event_queue_receive_nonempty (K : Consts) (clock : Nat → Nat) (stopped : Nat → Bool)
    (fuel : Nat) (s : State) (CPU : PPUThread) (equeue_id timeout a : Nat) (q : event_queue_t)
    (e : event_t) (rest : List event_t)
    (hq : GetIDData_queue s equeue_id = some (a, q)) (hppu : q.type = K.SYS_PPU_QUEUE)
    (hev : q.events = e :: rest) :
    sys_event_queue_receive K clock stopped fuel s CPU equeue_id timeout
      = some (CELL_OK, set_queue s a { q with events := rest }, write_gpr CPU (some e)) := by
  have hne : ¬ (q.type ≠ K.SYS_PPU_QUEUE) := by simp [hppu]
  unfold sys_event_queue_receive
  simp only [hq, hne, if_false]
  cases fuel <;> simp [receive_wait, receive_iter, hev]

/-- Receive calls made one after the other on a PPU queue deliver its pending
records front first; after `k` calls the first `k` records are gone and nothing
else in the queue object has changed. -/
theorem receive_n_pending (K : Consts) (clock : Nat → Nat) (stopped : Nat → Bool)
    (fuel equeue_id timeout a : Nat) :
    ∀ (k : Nat) (s : State) (q : event_queue_t) (CPU : PPUThread),
      GetIDData_queue s equeue_id = some (a, q) → q.type = K.SYS_PPU_QUEUE →
      k ≤ q.events.length →
      receive_n K clock stopped fuel equeue_id timeout k s CPU
        = some ((q.events.take k).map delivered, set_queue s a { q with events := q.events.drop k }) := by
  intro k
  induction k with
  | zero =>
    intro s q CPU hq _ _
    have := set_queue_self s a q (GetIDData_queue_some hq).2
    simp [receive_n, this]
  | succ k ih =>
    intro s q CPU hq hppu hk
    cases hev : q.events with
    | nil => simp [hev] at hk
    | cons e rest =>
      have h1 := sys_event_queue_receive_nonempty K clock stopped fuel s CPU equeue_id timeout a q
        e rest hq hppu hev
      have hq1 := GetIDData_queue_set_queue hq { q with events := rest }
      have h2 := ih (set_queue s a { q with events := rest }) { q with events := rest }
        (write_gpr CPU (some e)) hq1 hppu (by simp [hev] at hk ⊢; omega)
      simp only [receive_n, h1, h2, set_queue_set_queue, List.take_succ_cons, List.map_cons,
        List.drop_succ_cons]
      simp [write_gpr, delivered]

/-! ## Round trip and back-pressure -/

/-- C5. Send/receive round trip in FIFO order. For a live PPU queue with no
pending record, connected to a port, and `n` payloads with `n` at most the
capacity: the `n` calls of `sys_event_port_send` all return `CELL_OK`, and then
for every `k <= n` the first `k` calls of `sys_event_queue_receive` all return
(for every clock, stop flag, timeout and fuel) `CELL_OK` with
`GPR[4..7] = (source, d1, d2, d3)` of the payloads in the order sent, `source`
being the source identity of the port; after them the queue holds the records
of the payloads not yet received and `waiters` is what it was. -/
theorem send_receive_round_trip (K : Consts) (pid : Nat) (clock : Nat → Nat) (stopped : Nat → Bool)
    (fuel timeout : Nat) (s : State) (CPU : PPUThread) (equeue_id eport_id a : Nat)
    (q : event_queue_t) (port : event_port_t) (ds : List (Nat × Nat × Nat))
    (hq : GetIDData_queue s equeue_id = some (a, q))
    (hp : GetIDData_port s eport_id = some port) (hconn : port.queue = some a)
    (hppu : q.type = K.SYS_PPU_QUEUE) (hempty : q.events = [])
    (hcap : (ds.length : Int) ≤ q.size) (hs32 : q.size < 2 ^ 31) :
    send_all pid eport_id s ds
      = (List.replicate ds.length CELL_OK,
         set_queue s a { q with events := ds.map (sent_event pid port eport_id) })
    ∧ ∀ k, k ≤ ds.length →
        receive_n K clock stopped fuel equeue_id timeout k (send_all pid eport_id s ds).2 CPU
          = some ((ds.take k).map (fun d =>
                (CELL_OK, event_source pid port.name eport_id, d.1, d.2.1, d.2.2)),
              set_queue s a { q with events := (ds.drop k).map (sent_event pid port eport_id) }) := by
  have hl : lock s port.queue = some (a, q) := by
    rw [hconn]
    exact lock_of_live hq
  have hsend := send_all_fits pid eport_id a port ds s q hp hl (by omega) hs32
    (by simp only [hempty, List.length_nil, Nat.zero_add]; exact hcap)
  simp only [hempty, List.nil_append] at hsend
  refine ⟨hsend, ?_⟩
  intro k hk
  rw [hsend]
  have hq1 := GetIDData_queue_set_queue hq
    { q with events := ds.map (sent_event pid port eport_id) }
  have hrec := receive_n_pending K clock stopped fuel equeue_id timeout a k _ _ CPU hq1 hppu
    (by simpa using hk)
  simp only [set_queue_set_queue] at hrec
  rw [hrec, ← List.map_take, ← List.map_drop, List.map_map]
  rfl

/-- Witness for C5, on the scenario of the specification: queue of capacity 2,
port 2 connected to it; `Send(1,2,3)` and `Send(4,5,6)` succeed, `Send(7,8,9)`
fails with `CELL_EBUSY`, a receive call returns `(source, 1, 2, 3)`, and
`Send(7,8,9)` then succeeds. -/
theorem send_receive_round_trip_witness :
    sys_event_port_connect_local K0
        (sys_event_port_create K0
          (sys_event_queue_create K0 State.init 0 ⟨1, 1, 0⟩ 0 2).2.1 0 1 0).2.1 2 1
      = (CELL_OK, connected_example)
    ∧ (send_all 1 2 connected_example [(1, 2, 3), (4, 5, 6)]).1 = [CELL_OK, CELL_OK]
    ∧ (sys_event_port_send 1 (send_all 1 2 connected_example [(1, 2, 3), (4, 5, 6)]).2 2 7 8 9).1
        = CELL_EBUSY
    ∧ (receive_n K0 (fun _ => 0) (fun _ => false) 0 1 0 1
          (send_all 1 2 connected_example [(1, 2, 3), (4, 5, 6)]).2 ⟨fun _ => 0⟩).map Prod.fst
        = some [(CELL_OK, 2 ^ 32 + 2, 1, 2, 3)]
    ∧ (receive_n K0 (fun _ => 0) (fun _ => false) 0 1 0 2
          (send_all 1 2 connected_example [(1, 2, 3), (4, 5, 6)]).2 ⟨fun _ => 0⟩)
        = some ([(CELL_OK, 2 ^ 32 + 2, 1, 2, 3), (CELL_OK, 2 ^ 32 + 2, 4, 5, 6)], connected_example)
    ∧ (receive_n K0 (fun _ => 0) (fun _ => false) 0 1 0 1
          (send_all 1 2 connected_example [(1, 2, 3), (4, 5, 6)]).2 ⟨fun _ => 0⟩).map
            (fun r => (sys_event_port_send 1 r.2 2 7 8 9).1)
        = some CELL_OK := by
  have h := send_receive_round_trip K0 1 (fun _ => 0) (fun _ => false) 0 0 connected_example
    ⟨fun _ => 0⟩ 1 2 0
    { protocol := 1, type := 1, name := 0, key := 0, size := 2,
      events := [], waiters := 0, cancelled := false }
    { type := 1, name := 0, queue := some 0 } [(1, 2, 3), (4, 5, 6)]
    (by decide) (by decide) (by decide) (by decide) (by decide) (by decide) (by decide)
  refine ⟨by decide, ?_, by decide, ?_, ?_, ?_⟩
  · rw [h.1]
    rfl
  · rw [h.2 1 (by decide)]
    decide
  · rw [h.2 2 (by decide)]
    rfl
  · rw [h.2 1 (by decide)]
    decide

/-- C6. Back-pressure. For a port whose queue reference resolves to a queue of
capacity `size >= 0`: `sys_event_port_send` returns `CELL_EBUSY` exactly when
the number of pending records is at least `size`, and then changes nothing;
otherwise it returns `CELL_OK` and the queue holds the old pending records
followed by the new record. Hence on a queue of capacity `size >= 1` with no
pending record, `size` sends return `CELL_OK`, one more returns `CELL_EBUSY`,
and after `sys_event_queue_tryreceive` with `size = 1` (on a PPU queue nobody
waits on) or `sys_event_queue_receive` (on a PPU queue) has taken a record the
next send returns `CELL_OK`. -/
theorem sys_event_port_send_back_pressure (pid : Nat) (s : State) (eport_id a : Nat)
    (port : event_port_t) (q : event_queue_t) (data1 data2 data3 : Nat)
    (hp : GetIDData_port s eport_id = some port) (hl : lock s port.queue = some (a, q))
    (hsize : 0 ≤ q.size) (hs32 : q.size < 2 ^ 31) :
    ((sys_event_port_send pid s eport_id data1 data2 data3).1 = CELL_EBUSY
        ↔ q.size ≤ (q.events.length : Int))
    ∧ (q.size ≤ (q.events.length : Int) →
        sys_event_port_send pid s eport_id data1 data2 data3 = (CELL_EBUSY, s))
    ∧ ((q.events.length : Int) < q.size →
        sys_event_port_send pid s eport_id data1 data2 data3
          = (CELL_OK, set_queue s a
              { q with events := q.events ++ [sent_event pid port eport_id (data1, data2, data3)] })
        ∧ lock (sys_event_port_send pid s eport_id data1 data2 data3).2 port.queue
          = some (a, { q with events := q.events ++ [sent_event pid port eport_id (data1, data2, data3)] }))
    ∧ (q.events = [] → 1 ≤ q.size → ∀ ds : List (Nat × Nat × Nat), (ds.length : Int) = q.size →
        (send_all pid eport_id s ds).1 = List.replicate ds.length CELL_OK
        ∧ sys_event_port_send pid (send_all pid eport_id s ds).2 eport_id data1 data2 data3
            = (CELL_EBUSY, (send_all pid eport_id s ds).2)
        ∧ (∀ (K : Consts) (equeue_id : Nat) (event_array : Nat → sys_event_t) (number : Nat),
            GetIDData_queue s equeue_id = some (a, q) → q.type = K.SYS_PPU_QUEUE → q.waiters = 0 →
            ∃ s1 event_array1,
              sys_event_queue_tryreceive K (send_all pid eport_id s ds).2 equeue_id event_array 1 number
                = .ok (CELL_OK, s1, event_array1, 1)
              ∧ (sys_event_port_send pid s1 eport_id data1 data2 data3).1 = CELL_OK)
        ∧ (∀ (K : Consts) (clock : Nat → Nat) (stopped : Nat → Bool) (fuel : Nat) (CPU : PPUThread)
              (equeue_id timeout : Nat),
            GetIDData_queue s equeue_id = some (a, q) → q.type = K.SYS_PPU_QUEUE →
            ∃ s1 CPU1,
              sys_event_queue_receive K clock stopped fuel (send_all pid eport_id s ds).2 CPU
                  equeue_id timeout = some (CELL_OK, s1, CPU1)
              ∧ (sys_event_port_send pid s1 eport_id data1 data2 data3).1 = CELL_OK)) := by
  have hsend := sys_event_port_send_connected pid s eport_id a port q data1 data2 data3 hp hl
  have hcap : to_size_t q.size = q.size.toNat := to_size_t_of_nonneg q.size hsize hs32
  refine ⟨?_, ?_, ?_, ?_⟩
  · rw [hsend, hcap]
    by_cases hb : q.events.length ≥ q.size.toNat
    · simp only [hb, if_true, true_iff]
      omega
    · simp only [hb, if_false]
      constructor
      · intro h; cases h
      · intro h; exact absurd (by omega) hb
  · intro hb
    rw [hsend, hcap, if_pos (by omega)]
  · intro hb
    have hnb : ¬ (q.events.length ≥ q.size.toNat) := by omega
    rw [hsend, hcap, if_neg hnb]
    exact ⟨rfl, lock_set_queue hl _⟩
  · intro hempty hone ds hlen
    have hall := send_all_fits pid eport_id a port ds s q hp hl hsize hs32
      (by simp only [hempty, List.length_nil, Nat.zero_add]; omega)
    simp only [hempty, List.nil_append] at hall
    have hfull : ∀ (q1 : event_queue_t), q1 = { q with events := ds.map (sent_event pid port eport_id) } →
        (q1.size = q.size ∧ (q1.events.length : Int) = q.size) := by
      intro q1 h1
      subst h1
      simp [hlen]
    obtain ⟨hp1, hl1⟩ := resolve_set_queue hp hl
      { q with events := ds.map (sent_event pid port eport_id) }
    rw [hall]
    refine ⟨rfl, ?_, ?_, ?_⟩
    · rw [sys_event_port_send_connected pid _ eport_id a port _ data1 data2 data3 hp1 hl1]
      have h := hfull _ rfl
      rw [if_pos]
      simp only at h ⊢
      rw [hcap]
      simp only [List.length_map] at h ⊢
      omega
    · intro K equeue_id event_array number hq hppu hw
      have hq1 := GetIDData_queue_set_queue hq
        { q with events := ds.map (sent_event pid port eport_id) }
      obtain ⟨s1, arr1, h1, _, _, h4, _, _⟩ := sys_event_queue_tryreceive_spec K _ equeue_id a _
        event_array 1 number hq1 hppu hw (by decide)
      have hmin : min (1 : Int).toNat (ds.map (sent_event pid port eport_id)).length = 1 := by
        simp only [List.length_map]
        have : (1 : Int).toNat = 1 := rfl
        omega
      simp only [hmin] at h1 h4
      refine ⟨s1, arr1, h1, ?_⟩
      rw [h4, set_queue_set_queue]
      obtain ⟨hp2, hl2⟩ := resolve_set_queue hp hl
        { q with events := (ds.map (sent_event pid port eport_id)).drop 1 }
      rw [sys_event_port_send_connected pid _ eport_id a port _ data1 data2 data3 hp2 hl2]
      rw [if_neg]
      simp only [hcap, List.length_drop, List.length_map]
      omega
    · intro K clock stopped fuel CPU equeue_id timeout hq hppu
      have hq1 := GetIDData_queue_set_queue hq
        { q with events := ds.map (sent_event pid port eport_id) }
      obtain ⟨d, rest, hds⟩ := List.exists_cons_of_length_pos (show 0 < ds.length by omega)
      have h1 := sys_event_queue_receive_nonempty K clock stopped fuel _ CPU equeue_id timeout a _
        (sent_event pid port eport_id d) (rest.map (sent_event pid port eport_id)) hq1 hppu
        (by simp [hds])
      refine ⟨_, _, h1, ?_⟩
      rw [set_queue_set_queue]
      obtain ⟨hp2, hl2⟩ := resolve_set_queue hp hl
        { q with events := rest.map (sent_event pid port eport_id) }
      rw [sys_event_port_send_connected pid _ eport_id a port _ data1 data2 data3 hp2 hl2]
      rw [if_neg]
      simp only [hcap, List.length_map]
      simp only [hds, List.length_cons] at hlen
      omega

/-- Witness for C6 on the connected queue of capacity 2: a send succeeds, two
sends fill the queue, the third is busy, and after a tryreceive of one record
or a receive the send of `(7, 8, 9)` succeeds. -/
theorem sys_event_port_send_back_pressure_witness :
    (sys_event_port_send 1 connected_example 2 7 8 9).1 = CELL_OK
    ∧ (send_all 1 2 connected_example [(1, 2, 3), (4, 5, 6)]).1 = List.replicate 2 CELL_OK
    ∧ sys_event_port_send 1 (send_all 1 2 connected_example [(1, 2, 3), (4, 5, 6)]).2 2 7 8 9
        = (CELL_EBUSY, (send_all 1 2 connected_example [(1, 2, 3), (4, 5, 6)]).2)
    ∧ (∃ s1 event_array1,
        sys_event_queue_tryreceive K0 (send_all 1 2 connected_example [(1, 2, 3), (4, 5, 6)]).2 1
            (fun _ => ⟨0, 0, 0, 0⟩) 1 0 = .ok (CELL_OK, s1, event_array1, 1)
        ∧ (sys_event_port_send 1 s1 2 7 8 9).1 = CELL_OK)
    ∧ (∃ s1 CPU1,
        sys_event_queue_receive K0 (fun _ => 0) (fun _ => false) 0
            (send_all 1 2 connected_example [(1, 2, 3), (4, 5, 6)]).2 ⟨fun _ => 0⟩ 1 0
          = some (CELL_OK, s1, CPU1)
        ∧ (sys_event_port_send 1 s1 2 7 8 9).1 = CELL_OK) := by
  have h := sys_event_port_send_back_pressure 1 connected_example 2 0
    { type := 1, name := 0, queue := some 0 }
    { protocol := 1, type := 1, name := 0, key := 0, size := 2,
      events := [], waiters := 0, cancelled := false } 7 8 9
    (by decide) (by decide) (by decide) (by decide)
  have h4 := h.2.2.2 (by decide) (by decide) [(1, 2, 3), (4, 5, 6)] (by decide)
  exact ⟨by rw [(h.2.2.1 (by decide)).1], h4.1, h4.2.1,
    h4.2.2.1 K0 1 (fun _ => ⟨0, 0, 0, 0⟩) 0 (by decide) (by decide) (by decide),
    h4.2.2.2 K0 (fun _ => 0) (fun _ => false) 0 ⟨fun _ => 0⟩ 1 0 (by decide) (by decide)⟩

/-! ## Source identity -/

theorem event_source_unnamed (pid eport_id : Nat) (hpid : pid < 2 ^ 32) (hid : eport_id < 2 ^ 32) :
    event_source pid 0 eport_id = pid * 2 ^ 32 + eport_id := by
  unfold event_source
  simp only [ne_eq, not_true_eq_false, if_false]
  rw [Nat.mod_eq_of_lt hpid, Nat.mod_eq_of_lt hid, Nat.shiftLeft_eq,
    Nat.mod_eq_of_lt (by omega), Nat.mul_comm, ← Nat.mul_add_lt_is_or hid]

/-- C8. Source identity computed by `sys_event_port_send`. The record pushed by
a successful send carries `event_source pid name eport_id`. When `name` is not
0 this is `name`, whatever `pid` and `eport_id` are. When `name` is 0 and `pid`
and `eport_id` are 32-bit values it is `pid * 2^32 + eport_id`, a 64-bit value
whose high 32 bits are `pid` and whose low 32 bits are `eport_id`; so for two
different port ids of one process the sources have the same high 32 bits and
different low 32 bits, and `(pid, eport_id) -> source` is injective. -/
theorem event_source_identity (pid name eport_id : Nat) :
    (∀ (s : State) (port : event_port_t) (a : Nat) (q : event_queue_t) (data1 data2 data3 : Nat),
        GetIDData_port s eport_id = some port → port.name = name →
        lock s port.queue = some (a, q) → q.events.length < to_size_t q.size →
        sys_event_port_send pid s eport_id data1 data2 data3
          = (CELL_OK, set_queue s a { q with events := q.events ++
              [{ source := event_source pid name eport_id,
                 data1 := data1, data2 := data2, data3 := data3 }] }))
    ∧ (name ≠ 0 → event_source pid name eport_id = name)
    ∧ (pid < 2 ^ 32 → eport_id < 2 ^ 32 →
        event_source pid 0 eport_id = pid * 2 ^ 32 + eport_id
        ∧ event_source pid 0 eport_id < 2 ^ 64
        ∧ event_source pid 0 eport_id / 2 ^ 32 = pid
        ∧ event_source pid 0 eport_id % 2 ^ 32 = eport_id)
    ∧ (∀ eport_id2, pid < 2 ^ 32 → eport_id < 2 ^ 32 → eport_id2 < 2 ^ 32 → eport_id ≠ eport_id2 →
        event_source pid 0 eport_id / 2 ^ 32 = event_source pid 0 eport_id2 / 2 ^ 32
        ∧ event_source pid 0 eport_id % 2 ^ 32 ≠ event_source pid 0 eport_id2 % 2 ^ 32)
    ∧ (∀ pid2 eport_id2, pid < 2 ^ 32 → eport_id < 2 ^ 32 → pid2 < 2 ^ 32 → eport_id2 < 2 ^ 32 →
        event_source pid 0 eport_id = event_source pid2 0 eport_id2 →
        pid = pid2 ∧ eport_id = eport_id2) := by
  refine ⟨?_, ?_, ?_, ?_, ?_⟩
  · intro s port a q data1 data2 data3 hp hname hl hfree
    rw [sys_event_port_send_connected pid s eport_id a port q data1 data2 data3 hp hl,
      if_neg (by omega)]
    simp [sent_event, hname]
  · intro h
    simp [event_source, h]
  · intro hpid hid
    rw [event_source_unnamed pid eport_id hpid hid]
    refine ⟨rfl, by omega, by omega, by omega⟩
  · intro e2 hpid hid hid2 hne
    rw [event_source_unnamed pid eport_id hpid hid, event_source_unnamed pid e2 hpid hid2]
    constructor <;> omega
  · intro p2 e2 hpid hid hpid2 hid2 h
    rw [event_source_unnamed pid eport_id hpid hid, event_source_unnamed p2 e2 hpid2 hid2] at h
    constructor <;> omega

/-- Witness for C8: process 1, unnamed ports 2 and 3, and a port named 5. -/
theorem event_source_identity_witness :
    event_source 1 5 2 = 5
    ∧ event_source 1 0 2 = 1 * 2 ^ 32 + 2
    ∧ event_source 1 0 2 / 2 ^ 32 = event_source 1 0 3 / 2 ^ 32
    ∧ event_source 1 0 2 % 2 ^ 32 ≠ event_source 1 0 3 % 2 ^ 32
    ∧ sys_event_port_send 1 connected_example 2 7 8 9
        = (CELL_OK, set_queue connected_example 0
            { protocol := 1, type := 1, name := 0, key := 0, size := 2,
              events := [{ source := event_source 1 0 2, data1 := 7, data2 := 8, data3 := 9 }],
              waiters := 0, cancelled := false }) :=
  ⟨(event_source_identity 1 5 2).2.1 (by decide),
   ((event_source_identity 1 0 2).2.2.1 (by decide) (by decide)).1,
   ((event_source_identity 1 0 2).2.2.2.1 3 (by decide) (by decide) (by decide) (by decide)).1,
   ((event_source_identity 1 0 2).2.2.2.1 3 (by decide) (by decide) (by decide) (by decide)).2,
   (event_source_identity 1 0 2).1 connected_example { type := 1, name := 0, queue := some 0 } 0
     { protocol := 1, type := 1, name := 0, key := 0, size := 2,
       events := [], waiters := 0, cancelled := false } 7 8 9
     (by decide) (by decide) (by decide) (by decide)⟩

/-! ## Port connection lifecycle -/

theorem expired_of_lock {s : State} {w : Option Nat} {a : Nat} {q : event_queue_t}
    (h : lock s w = some (a, q)) : expired s w = false := by
  obtain ⟨h1, h2, _⟩ := lock_some h
  subst h1
  simp [expired, h2]

/-! ## The effect of each step -/

theorem queue_step_events {q q1 : event_queue_t} (h1 : q1.protocol = q.protocol)
    (h2 : q1.type = q.type) (h3 : q1.name = q.name) (h4 : q1.key = q.key) (h5 : q1.size = q.size)
    (h6 : q1.cancelled = q.cancelled) (h7 : q1.events.length ≤ q.events.length) : queue_step q q1 :=
  ⟨h1, h2, h3, h4, h5, h6, Or.inl h7⟩

theorem Effect.queue_update {K : Consts} {s : State} {a : Nat} {q q1 : event_queue_t}
    (h : s.heap[a]? = some q) (hs : queue_step q q1) : Effect K s (set_queue s a q1) :=
  Effect.heap_update a q q1 s.receivers h hs

theorem sys_event_queue_create_cases (K : Consts) (s : State) (equeue_id : Nat)
    (attr : sys_event_queue_attr) (key : Nat) (size : Int) :
    sys_event_queue_create K s equeue_id attr key size = (CELL_EINVAL, s, equeue_id)
    ∨ ((0 < size ∧ size ≤ 127) ∧ key ≠ 0 ∧ (s.eq_map.lookup key).isSome = true
        ∧ sys_event_queue_create K s equeue_id attr key size = (CELL_EEXIST, s, equeue_id))
    ∨ ((0 < size ∧ size ≤ 127) ∧ (key = 0 ∨ s.eq_map.lookup key = none)
        ∧ sys_event_queue_create K s equeue_id attr key size
            = (CELL_OK, created s attr key size, s.m_cur_id % 2 ^ 32)) := by
  by_cases hsz : size ≤ 0 ∨ size > 127
  · left
    unfold sys_event_queue_create
    simp [hsz]
  · by_cases hp : attr.protocol = to_u32 K.SYS_SYNC_FIFO ∨ attr.protocol = to_u32 K.SYS_SYNC_PRIORITY
    · by_cases ht : attr.type = to_u32 K.SYS_PPU_QUEUE ∨ attr.type = to_u32 K.SYS_SPU_QUEUE
      · right
        have hv := sys_event_queue_create_valid K s equeue_id attr key size (by omega) hp ht
        by_cases hk : key ≠ 0 ∧ (s.eq_map.lookup key).isSome = true
        · left
          rw [if_pos hk] at hv
          exact ⟨by omega, hk.1, hk.2, hv⟩
        · right
          rw [if_neg hk] at hv
          refine ⟨by omega, ?_, hv⟩
          by_cases h0 : key = 0
          · exact Or.inl h0
          · right
            cases hl : s.eq_map.lookup key with
            | none => rfl
            | some v => exact absurd ⟨h0, by simp [hl]⟩ hk
      · left
        unfold sys_event_queue_create
        simp [hsz, hp, ht]
    · left
      unfold sys_event_queue_create
      simp [hsz, hp]

theorem sys_event_queue_create_effect (K : Consts) (s : State) (equeue_id : Nat)
    (attr : sys_event_queue_attr) (key : Nat) (size : Int) :
    Effect K s (sys_event_queue_create K s equeue_id attr key size).2.1 := by
  rcases sys_event_queue_create_cases K s equeue_id attr key size with h | ⟨_, _, _, h⟩ | ⟨hsz, hk, h⟩
  · rw [h]; exact Effect.same
  · rw [h]; exact Effect.same
  · rw [h]; exact Effect.create attr key size hsz.1 hsz.2 hk

/-- The results of `sys_event_queue_destroy`. -/
theorem sys_event_queue_destroy_cases (K : Consts) (s : State) (equeue_id : Nat) (mode : Int) :
    (GetIDData_queue s equeue_id = none
        ∧ sys_event_queue_destroy K s equeue_id mode = .ok (CELL_ESRCH, s))
    ∨ ∃ a q, GetIDData_queue s equeue_id = some (a, q)
        ∧ ((mode ≠ 0 ∧ mode ≠ K.SYS_EVENT_QUEUE_DESTROY_FORCE
              ∧ sys_event_queue_destroy K s equeue_id mode = .ok (CELL_EINVAL, s))
          ∨ (mode = 0 ∧ q.waiters ≠ 0
              ∧ sys_event_queue_destroy K s equeue_id mode = .ok (CELL_EBUSY, s))
          ∨ ((¬ (mode ≠ 0 ∧ mode ≠ K.SYS_EVENT_QUEUE_DESTROY_FORCE) ∧ ¬ (mode = 0 ∧ q.waiters ≠ 0))
              ∧ q.cancelled = true
              ∧ sys_event_queue_destroy K s equeue_id mode = .error "sys_event_queue_destroy")
          ∨ ((¬ (mode ≠ 0 ∧ mode ≠ K.SYS_EVENT_QUEUE_DESTROY_FORCE) ∧ ¬ (mode = 0 ∧ q.waiters ≠ 0))
              ∧ q.cancelled = false
              ∧ sys_event_queue_destroy K s equeue_id mode
                  = .ok (CELL_OK, destroyed s equeue_id a q))) := by
  cases hq : GetIDData_queue s equeue_id with
  | none =>
    left
    refine ⟨rfl, ?_⟩
    unfold sys_event_queue_destroy
    simp [hq]
  | some x =>
    obtain ⟨a, q⟩ := x
    right
    refine ⟨a, q, rfl, ?_⟩
    unfold sys_event_queue_destroy
    simp only [hq]
    by_cases h1 : mode ≠ 0 ∧ mode ≠ K.SYS_EVENT_QUEUE_DESTROY_FORCE
    · left
      exact ⟨h1.1, h1.2, by rw [if_pos h1]⟩
    · right
      rw [if_neg h1]
      by_cases h2 : mode = 0 ∧ q.waiters ≠ 0
      · left
        exact ⟨h2.1, h2.2, by rw [if_pos h2]⟩
      · right
        rw [if_neg h2]
        have hmode : ¬ (mode ≠ 0 ∧ mode ≠ K.SYS_EVENT_QUEUE_DESTROY_FORCE)
            ∧ ¬ (mode = 0 ∧ q.waiters ≠ 0) := ⟨h1, h2⟩
        cases hc : q.cancelled with
        | true =>
          left
          exact ⟨hmode, rfl, by simp⟩
        | false =>
          right
          exact ⟨hmode, rfl, by simp [destroyed]⟩

theorem sys_event_queue_destroy_effect (K : Consts) (s : State) (equeue_id : Nat) (mode : Int)
    (r : ErrorCode × State) (h : sys_event_queue_destroy K s equeue_id mode = .ok r) :
    Effect K s r.2 := by
  rcases sys_event_queue_destroy_cases K s equeue_id mode with ⟨_, h1⟩
    | ⟨a, q, hq, ⟨_, _, h1⟩ | ⟨_, _, h1⟩ | ⟨_, _, h1⟩ | ⟨_, hc, h1⟩⟩
  · rw [h1] at h; cases h; exact Effect.same
  · rw [h1] at h; cases h; exact Effect.same
  · rw [h1] at h; cases h; exact Effect.same
  · rw [h1] at h; cases h
  · rw [h1] at h; cases h; exact Effect.destroy equeue_id a q hq hc

theorem tryreceive_loop_length (waiters size : Int) :
    ∀ (events : List event_t) (count : Nat) (event_array : Nat → sys_event_t),
      (tryreceive_loop waiters size events count event_array).1.length ≤ events.length := by
  intro events
  induction events with
  | nil => intro count event_array; simp [tryreceive_loop]
  | cons ev rest ih =>
    intro count event_array
    unfold tryreceive_loop
    split
    · have := ih (count + 1) (fun i => if i = count then to_sys_event ev else event_array i)
      simp only [List.length_cons]
      omega
    · exact Nat.le_refl _

theorem sys_event_queue_tryreceive_effect (K : Consts) (s : State) (equeue_id : Nat)
    (event_array : Nat → sys_event_t) (size : Int) (number : Nat)
    (r : ErrorCode × State × (Nat → sys_event_t) × Nat)
    (h : sys_event_queue_tryreceive K s equeue_id event_array size number = .ok r) :
    Effect K s r.2.1 := by
  unfold sys_event_queue_tryreceive at h
  cases hq : GetIDData_queue s equeue_id with
  | none =>
    simp only [hq] at h
    cases h
    exact Effect.same
  | some x =>
    obtain ⟨a, q⟩ := x
    simp only [hq] at h
    by_cases h1 : size < 0
    · simp [h1] at h
    · rw [if_neg h1] at h
      by_cases h2 : q.type ≠ K.SYS_PPU_QUEUE
      · rw [if_pos h2] at h
        cases h
        exact Effect.same
      · rw [if_neg h2] at h
        cases h
        exact Effect.queue_update (GetIDData_queue_some hq).2
          (queue_step_events rfl rfl rfl rfl rfl rfl
            (tryreceive_loop_length q.waiters size q.events 0 event_array))

theorem receive_iter_queue_step (q : event_queue_t) (w : Int) (timeout start_time now : Nat)
    (stopped : Bool) :
    queue_step q (receive_iter { q with waiters := w } timeout start_time now stopped).2 := by
  unfold receive_iter
  cases hev : q.events with
  | nil =>
    simp only
    split_ifs <;> exact queue_step_events rfl rfl rfl rfl rfl rfl (by simp [hev])
  | cons e rest =>
    exact queue_step_events rfl rfl rfl rfl rfl rfl (by simp [hev])

theorem sys_event_queue_receive_enter_effect (K : Consts) (s : State)
    (equeue_id timeout start_time now : Nat) (stopped : Bool) :
    Effect K s (sys_event_queue_receive_enter K s equeue_id timeout start_time now stopped).2 := by
  unfold sys_event_queue_receive_enter
  cases hq : GetIDData_queue s equeue_id with
  | none => exact Effect.same
  | some x =>
    obtain ⟨a, q⟩ := x
    simp only
    by_cases h2 : q.type ≠ K.SYS_PPU_QUEUE
    · rw [if_pos h2]
      exact Effect.same
    · rw [if_neg h2]
      have hstep := receive_iter_queue_step q (q.waiters + 1) timeout start_time now stopped
      cases hr : receive_iter { q with waiters := q.waiters + 1 } timeout start_time now stopped with
      | mk o q1 =>
        rw [hr] at hstep
        cases o with
        | returned code event => exact Effect.queue_update (GetIDData_queue_some hq).2 hstep
        | waiting => exact Effect.heap_update a q q1 _ (GetIDData_queue_some hq).2 hstep

theorem sys_event_queue_receive_wake_effect (K : Consts) (s : State) (i now : Nat) (stopped : Bool)
    (r : receive_outcome × State) (h : sys_event_queue_receive_wake s i now stopped = some r) :
    Effect K s r.2 := by
  unfold sys_event_queue_receive_wake at h
  cases hf : s.receivers[i]? with
  | none => simp [hf] at h
  | some f =>
    simp only [hf] at h
    cases hq : s.heap[f.queue]? with
    | none => simp [hq] at h
    | some q =>
      simp only [hq] at h
      have hstep := receive_iter_queue_step q q.waiters f.timeout f.start_time now stopped
      cases hr : receive_iter q f.timeout f.start_time now stopped with
      | mk o q1 =>
        have hr1 : receive_iter { q with waiters := q.waiters } f.timeout f.start_time now stopped
            = (o, q1) := hr
        rw [hr1] at hstep
        rw [hr] at h
        cases o with
        | returned code event =>
          simp only [Option.some.injEq] at h
          subst h
          exact Effect.heap_update f.queue q q1 _ hq hstep
        | waiting =>
          simp only [Option.some.injEq] at h
          subst h
          exact Effect.queue_update hq hstep

theorem sys_event_queue_drain_effect (K : Consts) (s : State) (equeue_id : Nat) :
    Effect K s (sys_event_queue_drain s equeue_id).2 := by
  unfold sys_event_queue_drain
  cases hq : GetIDData_queue s equeue_id with
  | none => exact Effect.same
  | some x =>
    obtain ⟨a, q⟩ := x
    exact Effect.queue_update (GetIDData_queue_some hq).2
      (queue_step_events rfl rfl rfl rfl rfl rfl (by simp))

theorem sys_event_port_create_effect (K : Consts) (s : State) (eport_id : Nat) (port_type : Int)
    (name : Nat) : Effect K s (sys_event_port_create K s eport_id port_type name).2.1 := by
  unfold sys_event_port_create
  by_cases h : port_type ≠ K.SYS_EVENT_PORT_LOCAL
  · rw [if_pos h]
    exact Effect.same
  · rw [if_neg h]
    exact Effect.new_port _ (not_not.mp h) rfl

theorem sys_event_port_destroy_effect (K : Consts) (s : State) (eport_id : Nat) :
    Effect K s (sys_event_port_destroy s eport_id).2 := by
  unfold sys_event_port_destroy
  cases hp : GetIDData_port s eport_id with
  | none => exact Effect.same
  | some port =>
    simp only
    split_ifs
    all_goals first
      | exact Effect.same
      | exact Effect.remove_port eport_id port hp

theorem sys_event_port_connect_local_effect (K : Consts) (s : State) (eport_id equeue_id : Nat) :
    Effect K s (sys_event_port_connect_local K s eport_id equeue_id).2 := by
  unfold sys_event_port_connect_local
  cases hp : GetIDData_port s eport_id with
  | none => exact Effect.same
  | some port =>
    cases hq : GetIDData_queue s equeue_id with
    | none => exact Effect.same
    | some x =>
      obtain ⟨a, q⟩ := x
      simp only
      split_ifs
      all_goals first
        | exact Effect.same
        | exact Effect.change_port eport_id port _ hp rfl rfl

theorem sys_event_port_disconnect_effect (K : Consts) (s : State) (eport_id : Nat) :
    Effect K s (sys_event_port_disconnect s eport_id).2 := by
  unfold sys_event_port_disconnect
  cases hp : GetIDData_port s eport_id with
  | none => exact Effect.same
  | some port =>
    cases hl : lock s port.queue with
    | none =>
      simp only [hl]
      exact Effect.same
    | some x =>
      simp only [hl]
      exact Effect.change_port eport_id port _ hp rfl rfl

theorem sys_event_port_send_effect (K : Consts) (pid : Nat) (s : State) (eport_id data1 data2 data3 : Nat) :
    Effect K s (sys_event_port_send pid s eport_id data1 data2 data3).2 := by
  cases hp : GetIDData_port s eport_id with
  | none =>
    unfold sys_event_port_send
    simp only [hp]
    exact Effect.same
  | some port =>
    cases hl : lock s port.queue with
    | none =>
      unfold sys_event_port_send
      simp only [hp, hl]
      exact Effect.same
    | some x =>
      obtain ⟨a, q⟩ := x
      rw [sys_event_port_send_connected pid s eport_id a port q data1 data2 data3 hp hl]
      by_cases hb : q.events.length ≥ to_size_t q.size
      · rw [if_pos hb]
        exact Effect.same
      · rw [if_neg hb]
        exact Effect.queue_update (lock_some hl).2.2
          ⟨rfl, rfl, rfl, rfl, rfl, rfl, Or.inr ⟨by simp, by omega⟩⟩

/-- Every step of an entry point has one of the effects listed in `Effect`. -/
theorem step_effect (K : Consts) (pid : Nat) (s : State) (act : Action)
    (h : act.is_syscall = true) : Effect K s (step K pid s act) := by
  cases act with
  | queue_create attr key size => exact sys_event_queue_create_effect K s 0 attr key size
  | queue_destroy id mode =>
    simp only [step]
    cases hr : sys_event_queue_destroy K s id mode with
    | error e => exact Effect.same
    | ok r => exact sys_event_queue_destroy_effect K s id mode r hr
  | queue_tryreceive id size =>
    simp only [step]
    cases hr : sys_event_queue_tryreceive K s id (fun _ => ⟨0, 0, 0, 0⟩) size 0 with
    | error e => exact Effect.same
    | ok r => exact sys_event_queue_tryreceive_effect K s id _ size 0 r hr
  | queue_receive id timeout start_time now stopped =>
    exact sys_event_queue_receive_enter_effect K s id timeout start_time now stopped
  | receive_wake i now stopped =>
    simp only [step]
    cases hr : sys_event_queue_receive_wake s i now stopped with
    | none => exact Effect.same
    | some r => exact sys_event_queue_receive_wake_effect K s i now stopped r hr
  | queue_drain id => exact sys_event_queue_drain_effect K s id
  | port_create port_type name => exact sys_event_port_create_effect K s 0 port_type name
  | port_destroy id => exact sys_event_port_destroy_effect K s id
  | port_connect_local eport_id equeue_id =>
    exact sys_event_port_connect_local_effect K s eport_id equeue_id
  | port_disconnect id => exact sys_event_port_disconnect_effect K s id
  | port_send id data1 data2 data3 => exact sys_event_port_send_effect K pid s id data1 data2 data3
  | helper_queue_create protocol type name key size => simp [Action.is_syscall] at h
  | helper_port_create name => simp [Action.is_syscall] at h

/-! ## Invariants of the reachable states -/

theorem lookup_filter_ne (l : List (Nat × Nat)) (k k0 : Nat) (h : k ≠ k0) :
    (l.filter (fun e => decide (e.1 ≠ k0))).lookup k = l.lookup k := by
  induction l with
  | nil => rfl
  | cons e rest ih =>
    obtain ⟨k1, v1⟩ := e
    by_cases h1 : k1 = k0
    · subst h1
      have hb : (k == k1) = false := by simpa using h
      rw [List.filter_cons, if_neg (by simp), ih, List.lookup_cons, hb]
    · rw [List.filter_cons, if_pos (by simpa using h1), List.lookup_cons, List.lookup_cons, ih]

theorem heap_lt_of_get {heap : List event_queue_t} {a : Nat} {q : event_queue_t}
    (h : heap[a]? = some q) : a < heap.length := by
  rcases Nat.lt_or_ge a heap.length with h1 | h1
  · exact h1
  · rw [List.getElem?_eq_none h1] at h
    cases h

theorem heap_get_set {heap : List event_queue_t} {a b : Nat} {q q1 x : event_queue_t}
    (hq : heap[a]? = some q) (h : (heap.set a q1)[b]? = some x) :
    (b = a ∧ x = q1) ∨ (b ≠ a ∧ heap[b]? = some x) := by
  by_cases hb : a = b
  · subst hb
    rw [List.getElem?_set_self (heap_lt_of_get hq)] at h
    left
    exact ⟨rfl, (Option.some.inj h).symm⟩
  · rw [List.getElem?_set_ne hb] at h
    right
    exact ⟨fun e => hb e.symm, h⟩

/-- The key facts carry over to a state with fewer queue entries in the ID
table, the same registry, and the same keys at the same addresses. -/
theorem key_inv_frame {s s1 : State} (hinv : key_inv s)
    (hsub : ∀ id a, (id, ID.TYPE_EVENT_QUEUE a) ∈ s1.m_id_map →
      (id, ID.TYPE_EVENT_QUEUE a) ∈ s.m_id_map)
    (hlen : s1.heap.length = s.heap.length)
    (hkey : ∀ (a : Nat) (q1 : event_queue_t), s1.heap[a]? = some q1 →
      ∃ q : event_queue_t, s.heap[a]? = some q ∧ q1.key = q.key)
    (hreg : s1.eq_map = s.eq_map) : key_inv s1 := by
  obtain ⟨h1, h2, h3⟩ := hinv
  refine ⟨?_, ?_, ?_⟩
  · intro id a hm
    rw [hlen]
    exact h1 id a (hsub id a hm)
  · intro id a q1 hm hq hk
    obtain ⟨q, hq0, hkq⟩ := hkey a q1 hq
    rw [hreg, hkq]
    exact h2 id a q (hsub id a hm) hq0 (by rw [← hkq]; exact hk)
  · intro id1 a1 q1 id2 a2 q2 hm1 hm2 hq1 hq2 hk hk0
    obtain ⟨p1, hp1, hkp1⟩ := hkey a1 q1 hq1
    obtain ⟨p2, hp2, hkp2⟩ := hkey a2 q2 hq2
    exact h3 id1 a1 p1 id2 a2 p2 (hsub id1 a1 hm1) (hsub id2 a2 hm2) hp1 hp2
      (by rw [← hkp1, ← hkp2]; exact hk) (by rw [← hkp1]; exact hk0)

theorem mem_set_port {s : State} {eport_id : Nat} {p : event_port_t} {id a : Nat}
    (h : (id, ID.TYPE_EVENT_QUEUE a) ∈ (set_port s eport_id p).m_id_map) :
    (id, ID.TYPE_EVENT_QUEUE a) ∈ s.m_id_map := by
  simp only [set_port, List.mem_map] at h
  obtain ⟨e, he, heq⟩ := h
  by_cases hid : e.1 = eport_id
  · rw [if_pos hid] at heq
    cases heq
  · rw [if_neg hid] at heq
    rw [← heq]
    exact he

theorem key_inv_effect {K : Consts} {s s1 : State} (hinv : key_inv s) (h : Effect K s s1) : key_inv s1 := by
  cases h with
  | same => exact hinv
  | heap_update a q q1 receivers hq hstep =>
    apply key_inv_frame hinv
    · intro id b hm; exact hm
    · simp [set_queue]
    · intro b x hx
      rcases heap_get_set hq (by simpa [set_queue] using hx) with ⟨hb, hx1⟩ | ⟨_, hx1⟩
      · subst hb
        subst hx1
        exact ⟨q, hq, hstep.2.2.2.1⟩
      · exact ⟨x, hx1, rfl⟩
    · rfl
  | new_port p hp1 hp2 =>
    apply key_inv_frame hinv
    · intro id b hm
      simp only [GetNewID, List.mem_cons] at hm
      rcases hm with hm | hm
      · cases hm
      · exact hm
    · rfl
    · intro b x hx; exact ⟨x, hx, rfl⟩
    · rfl
  | remove_port id p hp =>
    apply key_inv_frame hinv
    · intro id1 b hm
      simp only [RemoveID, List.mem_filter] at hm
      exact hm.1
    · rfl
    · intro b x hx; exact ⟨x, hx, rfl⟩
    · rfl
  | change_port id port p hport hp1 hp2 =>
    apply key_inv_frame hinv
    · intro id1 b hm; exact mem_set_port hm
    · rfl
    · intro b x hx; exact ⟨x, hx, rfl⟩
    · rfl
  | create attr key size hs1 hs2 hfree =>
    obtain ⟨h1, h2, h3⟩ := hinv
    have hold : ∀ id a, (id, ID.TYPE_EVENT_QUEUE a) ∈ s.m_id_map → ∀ x,
        (created s attr key size).heap[a]? = some x → s.heap[a]? = some x := by
      intro id a hm x hx
      simp only [created] at hx
      rwa [List.getElem?_append_left (h1 id a hm)] at hx
    have hnew : ∀ x, (created s attr key size).heap[s.heap.length]? = some x → x.key = key := by
      intro x hx
      simp only [created, List.getElem?_concat_length, Option.some.injEq] at hx
      rw [← hx]
      rfl
    have hfresh : ∀ id a q, (id, ID.TYPE_EVENT_QUEUE a) ∈ s.m_id_map → s.heap[a]? = some q →
        q.key = key → key ≠ 0 → False := by
      intro id a q hm hq hk hk0
      have := h2 id a q hm hq (by rw [hk]; exact hk0)
      rcases hfree with h0 | h0
      · exact hk0 h0
      · rw [hk, h0] at this
        cases this
    refine ⟨?_, ?_, ?_⟩
    · intro id a hm
      simp only [created, List.mem_cons, Prod.mk.injEq, ID.TYPE_EVENT_QUEUE.injEq] at hm
      simp only [created, List.length_append, List.length_cons, List.length_nil]
      rcases hm with ⟨_, ha⟩ | hm
      · omega
      · have := h1 id a hm
        omega
    · intro id a x hm hx hk
      have hm1 : (id = s.m_cur_id % 2 ^ 32 ∧ a = s.heap.length) ∨ (id, ID.TYPE_EVENT_QUEUE a) ∈ s.m_id_map := by
        simpa [created] using hm
      rcases hm1 with ⟨_, ha⟩ | hm1
      · subst ha
        have hxk := hnew x hx
        rw [hxk] at hk ⊢
        simp [created, hk]
      · have hx0 := hold id a hm1 x hx
        have := h2 id a x hm1 hx0 hk
        simp only [created]
        by_cases h0 : key = 0
        · simpa [h0] using this
        · simp only [h0, if_false, List.lookup_cons]
          cases hb : (x.key == key) with
          | true => rfl
          | false => simpa using this
    · intro id1 a1 q1 id2 a2 q2 hm1 hm2 hq1 hq2 hk hk0
      have hm1c : (id1 = s.m_cur_id % 2 ^ 32 ∧ a1 = s.heap.length)
          ∨ (id1, ID.TYPE_EVENT_QUEUE a1) ∈ s.m_id_map := by
        simpa [created] using hm1
      have hm2c : (id2 = s.m_cur_id % 2 ^ 32 ∧ a2 = s.heap.length)
          ∨ (id2, ID.TYPE_EVENT_QUEUE a2) ∈ s.m_id_map := by
        simpa [created] using hm2
      rcases hm1c with ⟨hi1, ha1⟩ | hm1c
      · rcases hm2c with ⟨hi2, _⟩ | hm2c
        · rw [hi1, hi2]
        · exfalso
          subst ha1
          have hk1 := hnew q1 hq1
          exact hfresh id2 a2 q2 hm2c (hold id2 a2 hm2c q2 hq2) (by rw [← hk, hk1])
            (by rw [← hk1]; exact hk0)
      · rcases hm2c with ⟨_, ha2⟩ | hm2c
        · exfalso
          subst ha2
          have hk2 := hnew q2 hq2
          exact hfresh id1 a1 q1 hm1c (hold id1 a1 hm1c q1 hq1) (by rw [hk, hk2])
            (by rw [← hk2, ← hk]; exact hk0)
        · exact h3 id1 a1 q1 id2 a2 q2 hm1c hm2c (hold id1 a1 hm1c q1 hq1)
            (hold id2 a2 hm2c q2 hq2) hk hk0
  | destroy equeue_id a q hq hc =>
    obtain ⟨hl, hqa⟩ := GetIDData_queue_some hq
    have hmem := lookup_mem _ _ _ hl
    obtain ⟨h1, h2, h3⟩ := hinv
    have hmap : (destroyed s equeue_id a q).m_id_map
        = s.m_id_map.filter (fun e => decide (e.1 ≠ equeue_id)) := by
      unfold destroyed UnregisterKey
      split <;> rfl
    have hheap : (destroyed s equeue_id a q).heap = s.heap.set a { q with cancelled := true } := by
      unfold destroyed UnregisterKey
      split <;> rfl
    have hkey : ∀ (b : Nat) (x : event_queue_t), (destroyed s equeue_id a q).heap[b]? = some x →
        ∃ x0 : event_queue_t, s.heap[b]? = some x0 ∧ x.key = x0.key := by
      intro b x hx
      rw [hheap] at hx
      rcases heap_get_set hqa hx with ⟨hb, hx1⟩ | ⟨_, hx1⟩
      · subst hb
        subst hx1
        exact ⟨q, hqa, rfl⟩
      · exact ⟨x, hx1, rfl⟩
    have hsub : ∀ id b, (id, ID.TYPE_EVENT_QUEUE b) ∈ (destroyed s equeue_id a q).m_id_map →
        (id, ID.TYPE_EVENT_QUEUE b) ∈ s.m_id_map ∧ id ≠ equeue_id := by
      intro id b hm
      rw [hmap, List.mem_filter] at hm
      exact ⟨hm.1, by simpa using hm.2⟩
    refine ⟨?_, ?_, ?_⟩
    · intro id b hm
      rw [hheap, List.length_set]
      exact h1 id b (hsub id b hm).1
    · intro id b x hm hx hk
      obtain ⟨hm0, hne⟩ := hsub id b hm
      obtain ⟨x0, hx0, hkx⟩ := hkey b x hx
      have hreg := h2 id b x0 hm0 hx0 (by rw [← hkx]; exact hk)
      have hkne : x0.key ≠ q.key := by
        intro hkq
        exact hne (h3 id b x0 equeue_id a q hm0 hmem hx0 hqa hkq (by rw [← hkx]; exact hk))
      rw [hkx]
      unfold destroyed UnregisterKey
      split
      · exact hreg
      · simp only [RemoveID, set_queue]
        rw [lookup_filter_ne _ _ _ hkne]
        exact hreg
    · intro id1 a1 q1 id2 a2 q2 hm1 hm2 hq1 hq2 hk hk0
      obtain ⟨p1, hp1, hkp1⟩ := hkey a1 q1 hq1
      obtain ⟨p2, hp2, hkp2⟩ := hkey a2 q2 hq2
      exact h3 id1 a1 p1 id2 a2 p2 (hsub id1 a1 hm1).1 (hsub id2 a2 hm2).1 hp1 hp2
        (by rw [← hkp1, ← hkp2]; exact hk) (by rw [← hkp1]; exact hk0)

theorem capacity_ok_effect {K : Consts} {s s1 : State} (hinv : capacity_ok s) (h : Effect K s s1) :
    capacity_ok s1 := by
  cases h with
  | same => exact hinv
  | heap_update a q q1 receivers hq hstep =>
    intro x hx
    rcases List.mem_or_eq_of_mem_set (show x ∈ s.heap.set a q1 from hx) with hx1 | hx1
    · exact hinv x hx1
    · subst hx1
      obtain ⟨hs1, hs2, hs3⟩ := hinv q (List.getElem?_mem hq)
      obtain ⟨_, _, _, _, hsize, _, hev⟩ := hstep
      rw [hsize]
      refine ⟨hs1, hs2, ?_⟩
      rcases hev with hev | ⟨hev, hroom⟩
      · omega
      · rw [to_size_t_of_nonneg q.size (by omega) (by omega)] at hroom
        omega
  | new_port p hp1 hp2 => exact hinv
  | remove_port id p hp => exact hinv
  | change_port id port p hport hp1 hp2 => exact hinv
  | create attr key size hs1 hs2 hfree =>
    intro x hx
    simp only [created, List.mem_append, List.mem_singleton] at hx
    rcases hx with hx | hx
    · exact hinv x hx
    · subst hx
      simp only [event_queue_t.new, List.length_nil]
      omega
  | destroy equeue_id a q hq hc =>
    have hheap : (destroyed s equeue_id a q).heap = s.heap.set a { q with cancelled := true } := by
      unfold destroyed UnregisterKey
      split <;> rfl
    intro x hx
    rw [hheap] at hx
    rcases List.mem_or_eq_of_mem_set hx with hx1 | hx1
    · exact hinv x hx1
    · subst hx1
      exact hinv q (List.getElem?_mem (GetIDData_queue_some hq).2)

/-- An invariant of the effects holds in every reachable state. -/
theorem invariant_of_effect (K : Consts) (pid : Nat) (P : State → Prop)
    (hstep : ∀ s s1, P s → Effect K s s1 → P s1) :
    ∀ (as : List Action) (s0 : State), P s0 → (∀ act ∈ as, act.is_syscall = true) →
      P (run K pid s0 as) := by
  intro as
  induction as with
  | nil => intro s0 h0 _; exact h0
  | cons act rest ih =>
    intro s0 h0 hall
    have h1 : P (step K pid s0 act) :=
      hstep s0 _ h0 (step_effect K pid s0 act (hall act (List.mem_cons_self _ _)))
    exact ih (step K pid s0 act) h1 (fun b hb => hall b (List.mem_cons_of_mem _ hb))

theorem key_inv_init : key_inv State.init := by
  refine ⟨?_, ?_, ?_⟩
  · intro id a hm; simp [State.init] at hm
  · intro id a q hm; simp [State.init] at hm
  · intro id1 a1 q1 id2 a2 q2 hm; simp [State.init] at hm

theorem key_inv_reachable (K : Consts) (pid : Nat) (s : State) (h : Reachable K pid s) :
    key_inv s := by
  obtain ⟨as, hall, hrun⟩ := h
  rw [← hrun]
  exact invariant_of_effect K pid key_inv (fun _ _ => key_inv_effect) as State.init key_inv_init hall

theorem capacity_ok_reachable (K : Consts) (pid : Nat) (s : State) (h : Reachable K pid s) :
    capacity_ok s := by
  obtain ⟨as, hall, hrun⟩ := h
  rw [← hrun]
  exact invariant_of_effect K pid capacity_ok (fun _ _ => capacity_ok_effect) as State.init
    (by intro q hq; simp [State.init] at hq) hall

/-! ## Keys and capacity in reachable states -/

/-- The key check of `sys_event_queue_create` on the paths through the entry
points alone (the helper `event_queue_create` left aside). In every state the
entry points can bring the empty system to, if a
queue with nonzero key `k` resolves through the ID table then
`sys_event_queue_create` with key `k` and otherwise valid arguments returns
`CELL_EEXIST`, leaves the id output as it was and leaves the whole state (ID
table, key registry, queue objects) as it was. In any state, a successful
creation with a nonzero key makes the next creation with that key return
`CELL_EEXIST` in the same way. With key 0, two valid creations one after the
other both return `CELL_OK`, with different ids. -/
theorem sys_event_queue_create_key_exists (K : Consts) (pid : Nat) (s : State) (equeue_id : Nat)
    (attr : sys_event_queue_attr) (size : Int)
    (hsize : 0 < size ∧ size ≤ 127)
    (hprot : attr.protocol = to_u32 K.SYS_SYNC_FIFO ∨ attr.protocol = to_u32 K.SYS_SYNC_PRIORITY)
    (htype : attr.type = to_u32 K.SYS_PPU_QUEUE ∨ attr.type = to_u32 K.SYS_SPU_QUEUE) :
    (Reachable K pid s → ∀ (id a : Nat) (q : event_queue_t),
        GetIDData_queue s id = some (a, q) → q.key ≠ 0 →
        sys_event_queue_create K s equeue_id attr q.key size = (CELL_EEXIST, s, equeue_id))
    ∧ (∀ (key out : Nat) (attr0 : sys_event_queue_attr) (size0 : Int), key ≠ 0 →
        (sys_event_queue_create K s out attr0 key size0).1 = CELL_OK →
        sys_event_queue_create K (sys_event_queue_create K s out attr0 key size0).2.1 equeue_id
            attr key size
          = (CELL_EEXIST, (sys_event_queue_create K s out attr0 key size0).2.1, equeue_id))
    ∧ (∀ (out : Nat) (attr0 : sys_event_queue_attr) (size0 : Int), 0 < size0 ∧ size0 ≤ 127 →
        (attr0.protocol = to_u32 K.SYS_SYNC_FIFO ∨ attr0.protocol = to_u32 K.SYS_SYNC_PRIORITY) →
        (attr0.type = to_u32 K.SYS_PPU_QUEUE ∨ attr0.type = to_u32 K.SYS_SPU_QUEUE) →
        (sys_event_queue_create K s out attr0 0 size0).1 = CELL_OK
        ∧ (sys_event_queue_create K (sys_event_queue_create K s out attr0 0 size0).2.1 equeue_id
            attr 0 size).1 = CELL_OK
        ∧ (sys_event_queue_create K s out attr0 0 size0).2.2
          ≠ (sys_event_queue_create K (sys_event_queue_create K s out attr0 0 size0).2.1 equeue_id
              attr 0 size).2.2) := by
  refine ⟨?_, ?_, ?_⟩
  · intro hreach id a q hq hk
    obtain ⟨_, hreg, _⟩ := key_inv_reachable K pid s hreach
    obtain ⟨hl, hqa⟩ := GetIDData_queue_some hq
    have := hreg id a q (lookup_mem _ _ _ hl) hqa hk
    rw [sys_event_queue_create_valid K s equeue_id attr q.key size hsize hprot htype,
      if_pos ⟨hk, this⟩]
  · intro key out attr0 size0 hk hok
    rcases sys_event_queue_create_cases K s out attr0 key size0 with h | ⟨_, _, _, h⟩ | ⟨_, _, h⟩
    · rw [h] at hok; cases hok
    · rw [h] at hok; cases hok
    · rw [h]
      rw [sys_event_queue_create_valid K _ equeue_id attr key size hsize hprot htype, if_pos]
      exact ⟨hk, by simp [created, hk]⟩
  · intro out attr0 size0 hsize0 hprot0 htype0
    have h1 := sys_event_queue_create_valid K s out attr0 0 size0 hsize0 hprot0 htype0
    rw [if_neg (by simp)] at h1
    have h2 := sys_event_queue_create_valid K (sys_event_queue_create K s out attr0 0 size0).2.1
      equeue_id attr 0 size hsize hprot htype
    rw [if_neg (by simp)] at h2
    rw [h2, h1]
    refine ⟨rfl, rfl, ?_⟩
    show s.m_cur_id % 2 ^ 32 ≠ (s.m_cur_id + 1) % 2 ^ 32 % 2 ^ 32
    omega

/-- Example for the key check: after creating a queue with key 7 on the empty system, a
second creation with key 7 returns `CELL_EEXIST` and changes nothing; with key
0 two creations succeed with ids 1 and 2. -/
theorem sys_event_queue_create_key_exists_witness :
    sys_event_queue_create K0 (run K0 1 State.init [Action.queue_create ⟨1, 1, 0⟩ 7 2]) 0 ⟨2, 2, 0⟩
        ({ protocol := 1, type := 1, name := 0, key := 7, size := 2,
           events := [], waiters := 0, cancelled := false } : event_queue_t).key 5
      = (CELL_EEXIST, run K0 1 State.init [Action.queue_create ⟨1, 1, 0⟩ 7 2], 0)
    ∧ sys_event_queue_create K0 (sys_event_queue_create K0 State.init 0 ⟨1, 1, 0⟩ 7 2).2.1 0
          ⟨2, 2, 0⟩ 7 5
        = (CELL_EEXIST, (sys_event_queue_create K0 State.init 0 ⟨1, 1, 0⟩ 7 2).2.1, 0)
    ∧ ((sys_event_queue_create K0 State.init 0 ⟨1, 1, 0⟩ 0 2).1 = CELL_OK
        ∧ (sys_event_queue_create K0 (sys_event_queue_create K0 State.init 0 ⟨1, 1, 0⟩ 0 2).2.1 0
            ⟨2, 2, 0⟩ 0 5).1 = CELL_OK
        ∧ (sys_event_queue_create K0 State.init 0 ⟨1, 1, 0⟩ 0 2).2.2
          ≠ (sys_event_queue_create K0 (sys_event_queue_create K0 State.init 0 ⟨1, 1, 0⟩ 0 2).2.1 0
              ⟨2, 2, 0⟩ 0 5).2.2) :=
  ⟨(sys_event_queue_create_key_exists K0 1 (run K0 1 State.init [Action.queue_create ⟨1, 1, 0⟩ 7 2])
      0 ⟨2, 2, 0⟩ 5 (by decide) (by decide) (by decide)).1
      ⟨[Action.queue_create ⟨1, 1, 0⟩ 7 2], by decide, rfl⟩ 1 0
      { protocol := 1, type := 1, name := 0, key := 7, size := 2,
        events := [], waiters := 0, cancelled := false }
      (by decide) (by decide),
   (sys_event_queue_create_key_exists K0 1 State.init 0 ⟨2, 2, 0⟩ 5 (by decide) (by decide)
      (by decide)).2.1 7 0 ⟨1, 1, 0⟩ 2 (by decide) (by decide),
   (sys_event_queue_create_key_exists K0 1 State.init 0 ⟨2, 2, 0⟩ 5 (by decide) (by decide)
      (by decide)).2.2 0 ⟨1, 1, 0⟩ 2 (by decide) (by decide) (by decide)⟩

/-- C7. Capacity invariant. In every state the entry points (queue create,
destroy, tryreceive, receive with its wake-ups, drain, port create, destroy,
connect, disconnect, send) can bring the empty system to, every queue object,
and so every queue that resolves through the ID table, has
`1 <= size <= 127` and at most `size` pending records. -/
theorem capacity_invariant (K : Consts) (pid : Nat) (s : State) (h : Reachable K pid s) :
    (∀ q ∈ s.heap, 1 ≤ q.size ∧ q.size ≤ 127 ∧ (q.events.length : Int) ≤ q.size)
    ∧ (∀ (id a : Nat) (q : event_queue_t), GetIDData_queue s id = some (a, q) →
        1 ≤ q.size ∧ q.size ≤ 127 ∧ (q.events.length : Int) ≤ q.size) := by
  have hcap := capacity_ok_reachable K pid s h
  refine ⟨hcap, ?_⟩
  intro id a q hq
  exact hcap q (List.getElem?_mem (GetIDData_queue_some hq).2)

/-- Witness for C7: the queue of capacity 2 after three sends (the third one
busy) holds two records. -/
theorem capacity_invariant_witness :
    GetIDData_queue
        (run K0 1 State.init
          [Action.queue_create ⟨1, 1, 0⟩ 0 2, Action.port_create 1 0, Action.port_connect_local 2 1,
           Action.port_send 2 1 2 3, Action.port_send 2 4 5 6, Action.port_send 2 7 8 9]) 1
      = some (0, { protocol := 1, type := 1, name := 0, key := 0, size := 2,
                   events := [⟨2 ^ 32 + 2, 1, 2, 3⟩, ⟨2 ^ 32 + 2, 4, 5, 6⟩],
                   waiters := 0, cancelled := false })
    ∧ (1 ≤ (2 : Int) ∧ (2 : Int) ≤ 127
        ∧ (([⟨2 ^ 32 + 2, 1, 2, 3⟩, ⟨2 ^ 32 + 2, 4, 5, 6⟩] : List event_t).length : Int) ≤ 2) :=
  ⟨by decide,
   (capacity_invariant K0 1 _
      ⟨[Action.queue_create ⟨1, 1, 0⟩ 0 2, Action.port_create 1 0, Action.port_connect_local 2 1,
        Action.port_send 2 1 2 3, Action.port_send 2 4 5 6, Action.port_send 2 7 8 9],
       by decide, rfl⟩).2 1 0
      { protocol := 1, type := 1, name := 0, key := 0, size := 2,
        events := [⟨2 ^ 32 + 2, 1, 2, 3⟩, ⟨2 ^ 32 + 2, 4, 5, 6⟩],
        waiters := 0, cancelled := false } (by decide)⟩

/-! ## When an id can come back into the ID table -/

theorem table_grows_refl (s : State) : table_grows s s :=
  fun e he => Or.inl ⟨e, he, rfl⟩

theorem table_grows_of_sub {s s1 : State}
    (hsub : ∀ e ∈ s1.m_id_map, ∃ e0 ∈ s.m_id_map, e0.1 = e.1) : table_grows s s1 :=
  fun e he => Or.inl (hsub e he)

theorem counter_moves (c : Nat) : (c + 1) % 2 ^ 32 ≠ c := by omega

theorem table_grows_GetNewID (s : State) (data : ID) : table_grows s (GetNewID s data).2 := by
  intro e he
  simp only [GetNewID, List.mem_cons] at he
  rcases he with he | he
  · right
    subst he
    exact ⟨rfl, counter_moves s.m_cur_id⟩
  · exact Or.inl ⟨e, he, rfl⟩

theorem table_grows_effect {K : Consts} {s s1 : State} (h : Effect K s s1) : table_grows s s1 := by
  cases h with
  | same => exact table_grows_refl s
  | heap_update a q q1 receivers hq hstep => exact table_grows_refl s
  | new_port p hp1 hp2 => exact table_grows_GetNewID s _
  | remove_port id p hp =>
    refine table_grows_of_sub ?_
    intro e he
    simp only [RemoveID, List.mem_filter] at he
    exact ⟨e, he.1, rfl⟩
  | change_port id port p hport hp1 hp2 =>
    refine table_grows_of_sub ?_
    intro e he
    simp only [set_port, List.mem_map] at he
    obtain ⟨e0, he0, heq⟩ := he
    refine ⟨e0, he0, ?_⟩
    rw [← heq]
    split <;> rfl
  | create attr key size hs1 hs2 hfree =>
    intro e he
    simp only [created, List.mem_cons] at he
    rcases he with he | he
    · right
      subst he
      exact ⟨rfl, counter_moves s.m_cur_id⟩
    · exact Or.inl ⟨e, he, rfl⟩
  | destroy equeue_id a q hq hc =>
    have hmap : (destroyed s equeue_id a q).m_id_map
        = s.m_id_map.filter (fun e => decide (e.1 ≠ equeue_id)) := by
      unfold destroyed UnregisterKey
      split <;> rfl
    apply table_grows_of_sub
    intro e he
    rw [hmap, List.mem_filter] at he
    exact ⟨e, he.1, rfl⟩

theorem RegisterKey_table (s0 : State) (data k : Nat) :
    (RegisterKey s0 data k).2.m_cur_id = s0.m_cur_id
    ∧ (RegisterKey s0 data k).2.m_id_map = s0.m_id_map := by
  unfold RegisterKey
  split_ifs <;> exact ⟨rfl, rfl⟩

theorem table_grows_step (K : Consts) (pid : Nat) (s : State) (act : Action) :
    table_grows s (step K pid s act) := by
  by_cases h : act.is_syscall = true
  · exact table_grows_effect (step_effect K pid s act h)
  · cases act with
    | helper_queue_create protocol type name key size =>
      simp only [step, event_queue_create, new_queue]
      have := table_grows_GetNewID
        (RegisterKey { s with heap := s.heap ++ [event_queue_t.new protocol type name key size] }
          s.heap.length key).2 (ID.TYPE_EVENT_QUEUE s.heap.length)
      obtain ⟨hc, hm⟩ := RegisterKey_table
        { s with heap := s.heap ++ [event_queue_t.new protocol type name key size] } s.heap.length key
      intro e he
      have := this e he
      rw [hc, hm] at this
      exact this
    | helper_port_create name => exact table_grows_GetNewID s _
    | _ => simp [Action.is_syscall] at h

theorem counter_effect {K : Consts} {s s1 : State} (h : Effect K s s1) :
    s1.m_cur_id = s.m_cur_id ∨ s1.m_cur_id = (s.m_cur_id + 1) % 2 ^ 32 := by
  cases h with
  | same => exact Or.inl rfl
  | heap_update a q q1 receivers hq hstep => exact Or.inl rfl
  | new_port p hp1 hp2 => exact Or.inr rfl
  | remove_port id p hp => exact Or.inl rfl
  | change_port id port p hport hp1 hp2 => exact Or.inl rfl
  | create attr key size hs1 hs2 hfree => exact Or.inr rfl
  | destroy equeue_id a q hq hc =>
    left
    unfold destroyed UnregisterKey
    split <;> rfl

/-- A step moves the id counter by one, modulo `2^32`, or leaves it. -/
theorem counter_step (K : Consts) (pid : Nat) (s : State) (act : Action) :
    (step K pid s act).m_cur_id = s.m_cur_id
    ∨ (step K pid s act).m_cur_id = (s.m_cur_id + 1) % 2 ^ 32 := by
  by_cases h : act.is_syscall = true
  · exact counter_effect (step_effect K pid s act h)
  · cases act with
    | helper_queue_create protocol type name key size =>
      right
      simp only [step, event_queue_create, new_queue, GetNewID]
      rw [(RegisterKey_table _ _ _).1]
    | helper_port_create name => exact Or.inr rfl
    | _ => simp [Action.is_syscall] at h

theorem id_absent_step (K : Consts) (pid : Nat) (s : State) (act : Action) (id : Nat)
    (h : id_absent s id) (hn : id_issued K pid s act id = false) :
    id_absent (step K pid s act) id := by
  intro e he
  rcases table_grows_step K pid s act e he with ⟨e0, he0, heq⟩ | ⟨heq, hmove⟩
  · rw [← heq]
    exact h e0 he0
  · intro hid
    have : id_issued K pid s act id = true := by
      simp only [id_issued, Bool.and_eq_true, decide_eq_true_eq]
      exact ⟨by rw [← heq, hid], hmove⟩
    rw [this] at hn
    cases hn

theorem id_absent_run (K : Consts) (pid id : Nat) :
    ∀ (as : List Action) (s : State), id_absent s id → never_issued K pid id s as = true →
      id_absent (run K pid s as) id := by
  intro as
  induction as with
  | nil => intro s h _; exact h
  | cons act rest ih =>
    intro s h hn
    simp only [never_issued, Bool.and_eq_true, Bool.not_eq_true'] at hn
    exact ih _ (id_absent_step K pid s act id h hn.1) hn.2

/-- The counter does not reach `id` within as many steps as it is away from
`id`, counted upwards modulo `2^32`. -/
theorem never_issued_of_length (K : Consts) (pid id : Nat) :
    ∀ (as : List Action) (s : State),
      as.length ≤ (id + 2 ^ 32 - s.m_cur_id % 2 ^ 32) % 2 ^ 32 →
      never_issued K pid id s as = true := by
  intro as
  induction as with
  | nil => intro s _; rfl
  | cons act rest ih =>
    intro s hlen
    simp only [List.length_cons] at hlen
    simp only [never_issued, Bool.and_eq_true, Bool.not_eq_true']
    refine ⟨?_, ih _ ?_⟩
    · cases hi : id_issued K pid s act id with
      | false => rfl
      | true =>
        exfalso
        simp only [id_issued, Bool.and_eq_true, decide_eq_true_eq] at hi
        have := hi.1
        omega
    · rcases counter_step K pid s act with hc | hc
      · rw [hc]
        omega
      · rw [hc]
        omega

theorem lookup_none_of_forall {α : Type} (l : List (Nat × α)) (k : Nat)
    (h : ∀ e ∈ l, e.1 ≠ k) : l.lookup k = none := by
  induction l with
  | nil => rfl
  | cons e rest ih =>
    obtain ⟨k1, v1⟩ := e
    have hne : k1 ≠ k := h (k1, v1) (List.mem_cons_self _ _)
    have hb : (k == k1) = false := by
      simp only [beq_eq_false_iff_ne, ne_eq]
      exact fun e => hne e.symm
    rw [List.lookup_cons, hb]
    exact ih (fun e he => h e (List.mem_cons_of_mem _ he))

theorem GetIDData_queue_absent {s : State} {id : Nat} (h : id_absent s id) :
    GetIDData_queue s id = none := by
  unfold GetIDData_queue
  rw [lookup_none_of_forall _ _ h]

/-! ## `sys_event_queue_destroy` -/

theorem lookup_filter_self (l : List (Nat × Nat)) (k : Nat) :
    (l.filter (fun e => decide (e.1 ≠ k))).lookup k = none := by
  apply lookup_none_of_forall
  intro e he
  rw [List.mem_filter] at he
  simpa using he.2

theorem destroyed_heap (s : State) (equeue_id a : Nat) (q : event_queue_t) :
    (destroyed s equeue_id a q).heap = s.heap.set a { q with cancelled := true } := by
  unfold destroyed UnregisterKey
  split <;> rfl

theorem destroyed_table (s : State) (equeue_id a : Nat) (q : event_queue_t) :
    (destroyed s equeue_id a q).m_id_map = s.m_id_map.filter (fun e => decide (e.1 ≠ equeue_id))
    ∧ (destroyed s equeue_id a q).m_cur_id = s.m_cur_id := by
  unfold destroyed UnregisterKey
  split <;> exact ⟨rfl, rfl⟩

/-- When an id does not resolve to a queue, every queue entry point called
with it returns `CELL_ESRCH` and changes nothing. -/
theorem queue_operations_not_found (K : Consts) (s : State) (equeue_id : Nat)
    (h : GetIDData_queue s equeue_id = none) :
    (∀ mode, sys_event_queue_destroy K s equeue_id mode = .ok (CELL_ESRCH, s))
    ∧ (∀ event_array size number,
        sys_event_queue_tryreceive K s equeue_id event_array size number
          = .ok (CELL_ESRCH, s, event_array, number))
    ∧ (∀ clock stopped fuel CPU timeout,
        sys_event_queue_receive K clock stopped fuel s CPU equeue_id timeout
          = some (CELL_ESRCH, s, CPU))
    ∧ sys_event_queue_drain s equeue_id = (CELL_ESRCH, s)
    ∧ (∀ eport_id, sys_event_port_connect_local K s eport_id equeue_id = (CELL_ESRCH, s)) := by
  refine ⟨?_, ?_, ?_, ?_, ?_⟩
  · intro mode
    unfold sys_event_queue_destroy
    simp [h]
  · intro event_array size number
    unfold sys_event_queue_tryreceive
    simp [h]
  · intro clock stopped fuel CPU timeout
    unfold sys_event_queue_receive
    simp [h]
  · unfold sys_event_queue_drain
    simp [h]
  · intro eport_id
    unfold sys_event_port_connect_local
    cases hp : GetIDData_port s eport_id <;> simp [h]

/-- C10, amended. `sys_event_queue_destroy` returns `CELL_ESRCH` when the id
does not resolve. When it resolves to a queue that is not cancelled (with
`waiters >= 0`): `CELL_EINVAL` when `mode` is neither 0 nor FORCE; otherwise
`CELL_EBUSY` when `mode = 0` and `waiters > 0`; otherwise `CELL_OK`. On every
failure the whole state is as before the call. On `CELL_OK` the queue object
is as before but for `cancelled = true`, its nonzero key is not in the key
registry, the id does not resolve, and after any further steps none of which
is given this id again by the allocator the id still does not resolve and
destroy, tryreceive, receive, drain and connect_local on it return
`CELL_ESRCH`; no step is given the id while the steps are at most as many as
the 32-bit id counter is away from the id, counted upwards modulo `2^32`. -/
theorem sys_event_queue_destroy_contract (K : Consts) (pid : Nat) (s : State) (equeue_id : Nat)
    (mode : Int) :
    (GetIDData_queue s equeue_id = none →
        sys_event_queue_destroy K s equeue_id mode = .ok (CELL_ESRCH, s))
    ∧ (∀ (a : Nat) (q : event_queue_t), GetIDData_queue s equeue_id = some (a, q) →
        q.cancelled = false → 0 ≤ q.waiters →
        (mode ≠ 0 ∧ mode ≠ K.SYS_EVENT_QUEUE_DESTROY_FORCE →
          sys_event_queue_destroy K s equeue_id mode = .ok (CELL_EINVAL, s))
        ∧ (¬ (mode ≠ 0 ∧ mode ≠ K.SYS_EVENT_QUEUE_DESTROY_FORCE) → mode = 0 ∧ q.waiters > 0 →
          sys_event_queue_destroy K s equeue_id mode = .ok (CELL_EBUSY, s))
        ∧ (¬ (mode ≠ 0 ∧ mode ≠ K.SYS_EVENT_QUEUE_DESTROY_FORCE) → ¬ (mode = 0 ∧ q.waiters > 0) →
          ∃ s1, sys_event_queue_destroy K s equeue_id mode = .ok (CELL_OK, s1)
            ∧ s1.heap[a]? = some { q with cancelled := true }
            ∧ (q.key ≠ 0 → s1.eq_map.lookup q.key = none)
            ∧ GetIDData_queue s1 equeue_id = none
            ∧ (∀ as : List Action,
                as.length ≤ (equeue_id + 2 ^ 32 - s1.m_cur_id % 2 ^ 32) % 2 ^ 32 →
                never_issued K pid equeue_id s1 as = true)
            ∧ (∀ as : List Action, never_issued K pid equeue_id s1 as = true →
                GetIDData_queue (run K pid s1 as) equeue_id = none
                ∧ (∀ mode2, sys_event_queue_destroy K (run K pid s1 as) equeue_id mode2
                    = .ok (CELL_ESRCH, run K pid s1 as))
                ∧ (∀ event_array size number,
                    sys_event_queue_tryreceive K (run K pid s1 as) equeue_id event_array size number
                      = .ok (CELL_ESRCH, run K pid s1 as, event_array, number))
                ∧ (∀ clock stopped fuel CPU timeout,
                    sys_event_queue_receive K clock stopped fuel (run K pid s1 as) CPU equeue_id
                      timeout = some (CELL_ESRCH, run K pid s1 as, CPU))
                ∧ sys_event_queue_drain (run K pid s1 as) equeue_id = (CELL_ESRCH, run K pid s1 as)
                ∧ (∀ eport_id, sys_event_port_connect_local K (run K pid s1 as) eport_id equeue_id
                    = (CELL_ESRCH, run K pid s1 as))))) := by
  constructor
  · intro h
    exact (queue_operations_not_found K s equeue_id h).1 mode
  · intro a q hq hc hw
    rcases sys_event_queue_destroy_cases K s equeue_id mode with ⟨hn, _⟩ | ⟨a1, q1, hq1, hcases⟩
    · rw [hn] at hq; cases hq
    · rw [hq] at hq1
      simp only [Option.some.injEq, Prod.mk.injEq] at hq1
      obtain ⟨ha, hqq⟩ := hq1
      subst ha
      subst hqq
      refine ⟨?_, ?_, ?_⟩
      · intro hm
        rcases hcases with ⟨_, _, h⟩ | ⟨h1, _, _⟩ | ⟨h1, _, _⟩ | ⟨h1, _, _⟩
        · exact h
        · exact absurd h1 hm.1
        · exact absurd hm h1.1
        · exact absurd hm h1.1
      · intro hm hb
        rcases hcases with ⟨h1, h2, _⟩ | ⟨_, _, h⟩ | ⟨_, h2, _⟩ | ⟨h1, _, _⟩
        · exact absurd ⟨h1, h2⟩ hm
        · exact h
        · rw [hc] at h2; cases h2
        · exact absurd ⟨hb.1, by have := hb.2; omega⟩ h1.2
      · intro hm hb
        rcases hcases with ⟨h1, h2, _⟩ | ⟨h1, h2, _⟩ | ⟨_, h2, _⟩ | ⟨_, _, h⟩
        · exact absurd ⟨h1, h2⟩ hm
        · exact absurd ⟨h1, by omega⟩ hb
        · rw [hc] at h2; cases h2
        · obtain ⟨hl, hqa⟩ := GetIDData_queue_some hq
          have hret0 : ∀ e ∈ (destroyed s equeue_id a q).m_id_map, e.1 ≠ equeue_id := by
            intro e he
            rw [(destroyed_table s equeue_id a q).1, List.mem_filter] at he
            simpa using he.2
          refine ⟨destroyed s equeue_id a q, h, ?_, ?_, ?_, ?_, ?_⟩
          · rw [destroyed_heap, List.getElem?_set_self (heap_lt_of_get hqa)]
          · intro hk
            unfold destroyed UnregisterKey
            rw [if_neg hk]
            exact lookup_filter_self _ _
          · exact GetIDData_queue_absent hret0
          · intro as hlen
            exact never_issued_of_length K pid equeue_id as _ hlen
          · intro as hnever
            have hnone := GetIDData_queue_absent
              (id_absent_run K pid equeue_id as _ hret0 hnever)
            exact ⟨hnone, queue_operations_not_found K _ equeue_id hnone⟩

/-- Witness for C10 on the connected example (queue 1, port 2, counter at 3):
id 5 does not resolve; mode 3 is invalid; mode 0 with a waiter is busy; mode 0
without waiter succeeds, no sequence of up to `2^32 - 2` steps is given id 1,
and a later drain, also after a new queue was created, returns `CELL_ESRCH`. -/
theorem sys_event_queue_destroy_contract_witness :
    sys_event_queue_destroy K0 connected_example 5 0 = .ok (CELL_ESRCH, connected_example)
    ∧ sys_event_queue_destroy K0 connected_example 1 3 = .ok (CELL_EINVAL, connected_example)
    ∧ sys_event_queue_destroy K0
        { connected_example with
          heap := [{ protocol := 1, type := 1, name := 0, key := 0, size := 2,
                     events := [], waiters := 1, cancelled := false }],
          receivers := [⟨0, 0, 0⟩] } 1 0
      = .ok (CELL_EBUSY,
        { connected_example with
          heap := [{ protocol := 1, type := 1, name := 0, key := 0, size := 2,
                     events := [], waiters := 1, cancelled := false }],
          receivers := [⟨0, 0, 0⟩] })
    ∧ ∃ s1, sys_event_queue_destroy K0 connected_example 1 0 = .ok (CELL_OK, s1)
      ∧ GetIDData_queue s1 1 = none
      ∧ (∀ as : List Action, as.length ≤ 2 ^ 32 - 2 → never_issued K0 1 1 s1 as = true)
      ∧ (sys_event_queue_drain (run K0 1 s1 [Action.queue_create ⟨1, 1, 0⟩ 0 2]) 1).1
          = CELL_ESRCH := by
  refine ⟨(sys_event_queue_destroy_contract K0 1 connected_example 5 0).1 (by decide),
    ((sys_event_queue_destroy_contract K0 1 connected_example 1 3).2 0
      { protocol := 1, type := 1, name := 0, key := 0, size := 2,
        events := [], waiters := 0, cancelled := false } (by decide) (by decide) (by decide)).1
      (by decide),
    ((sys_event_queue_destroy_contract K0 1
      { connected_example with
        heap := [{ protocol := 1, type := 1, name := 0, key := 0, size := 2,
                   events := [], waiters := 1, cancelled := false }],
        receivers := [⟨0, 0, 0⟩] } 1 0).2 0
      { protocol := 1, type := 1, name := 0, key := 0, size := 2,
        events := [], waiters := 1, cancelled := false } (by decide) (by decide) (by decide)).2.1
      (by decide) (by decide), ?_⟩
  obtain ⟨s1, h1, _, _, h4, h5, h6⟩ :=
    ((sys_event_queue_destroy_contract K0 1 connected_example 1 0).2 0
      { protocol := 1, type := 1, name := 0, key := 0, size := 2,
        events := [], waiters := 0, cancelled := false } (by decide) (by decide) (by decide)).2.2
      (by decide) (by decide)
  have hs1 : sys_event_queue_destroy K0 connected_example 1 0
      = .ok (CELL_OK, destroyed connected_example 1 0
          { protocol := 1, type := 1, name := 0, key := 0, size := 2,
            events := [], waiters := 0, cancelled := false }) := rfl
  rw [hs1] at h1
  simp only [Except.ok.injEq, Prod.mk.injEq, true_and] at h1
  subst h1
  have hbound : ∀ as : List Action, as.length ≤ 2 ^ 32 - 2 →
      never_issued K0 1 1 (destroyed connected_example 1 0
          { protocol := 1, type := 1, name := 0, key := 0, size := 2,
            events := [], waiters := 0, cancelled := false }) as = true := by
    intro as hlen
    exact h5 as hlen
  refine ⟨_, hs1, h4, hbound, ?_⟩
  have h7 := (h6 [Action.queue_create ⟨1, 1, 0⟩ 0 2] (h5 _ (by decide))).2.2.2.2.1
  rw [h7]

/-! ## Ports are LOCAL, and the connection lifecycle -/

theorem GetIDData_port_some {s : State} {id : Nat} {p : event_port_t}
    (h : GetIDData_port s id = some p) : (id, ID.TYPE_EVENT_PORT p) ∈ s.m_id_map := by
  unfold GetIDData_port at h
  split at h
  · rename_i port hl
    simp only [Option.some.injEq] at h
    subst h
    exact lookup_mem _ _ _ hl
  · cases h

theorem ports_local_effect {K : Consts} {s s1 : State} (hinv : ports_local K s)
    (h : Effect K s s1) : ports_local K s1 := by
  cases h with
  | same => exact hinv
  | heap_update a q q1 receivers hq hstep => exact hinv
  | new_port p hp1 hp2 =>
    intro id p1 hm
    simp only [GetNewID, List.mem_cons, Prod.mk.injEq, ID.TYPE_EVENT_PORT.injEq] at hm
    rcases hm with ⟨_, hm⟩ | hm
    · rw [hm]; exact hp1
    · exact hinv id p1 hm
  | remove_port id p hp =>
    intro id1 p1 hm
    simp only [RemoveID, List.mem_filter] at hm
    exact hinv id1 p1 hm.1
  | change_port id port p hport hp1 hp2 =>
    intro id1 p1 hm
    simp only [set_port, List.mem_map] at hm
    obtain ⟨e, he, heq⟩ := hm
    by_cases hid : e.1 = id
    · rw [if_pos hid] at heq
      simp only [Prod.mk.injEq, ID.TYPE_EVENT_PORT.injEq] at heq
      rw [← heq.2, hp1]
      exact hinv id port (GetIDData_port_some hport)
    · rw [if_neg hid] at heq
      rw [heq] at he
      exact hinv id1 p1 he
  | create attr key size hs1 hs2 hfree =>
    intro id p1 hm
    simp only [created, List.mem_cons, Prod.mk.injEq] at hm
    rcases hm with ⟨_, hm⟩ | hm
    · cases hm
    · exact hinv id p1 hm
  | destroy equeue_id a q hq hc =>
    intro id p1 hm
    rw [(destroyed_table s equeue_id a q).1, List.mem_filter] at hm
    exact hinv id p1 hm.1

theorem ports_local_step (K : Consts) (pid : Nat) (s : State) (act : Action)
    (hinv : ports_local K s) : ports_local K (step K pid s act) := by
  by_cases h : act.is_syscall = true
  · exact ports_local_effect hinv (step_effect K pid s act h)
  · cases act with
    | helper_queue_create protocol type name key size =>
      intro id p1 hm
      have hmap : (step K pid s (Action.helper_queue_create protocol type name key size)).m_id_map
          = (s.m_cur_id % 2 ^ 32, ID.TYPE_EVENT_QUEUE s.heap.length) :: s.m_id_map := by
        simp only [step, event_queue_create, new_queue, GetNewID, RegisterKey]
        split_ifs <;> rfl
      rw [hmap] at hm
      simp only [List.mem_cons, Prod.mk.injEq] at hm
      rcases hm with ⟨_, hm⟩ | hm
      · cases hm
      · exact hinv id p1 hm
    | helper_port_create name => exact ports_local_effect hinv (Effect.new_port _ rfl rfl)
    | _ => simp [Action.is_syscall] at h

theorem ports_local_run (K : Consts) (pid : Nat) :
    ∀ (as : List Action) (s : State), ports_local K s → ports_local K (run K pid s as) := by
  intro as
  induction as with
  | nil => intro s h; exact h
  | cons act rest ih =>
    intro s h
    exact ih _ (ports_local_step K pid s act h)

/-- C9. Port connection lifecycle. For a port whose `queue` reference was set
from a queue that still resolves through the ID table, in a state that steps
from the empty system lead to (or in any state, for a port of type LOCAL):
`sys_event_port_connect_local` to any queue that resolves returns
`CELL_EISCONN`, and `sys_event_port_destroy` returns `CELL_EISCONN`. For a port
whose `queue` reference is empty, `sys_event_port_disconnect` returns
`CELL_ENOTCONN`. In all three cases the whole state (the port with its single
reference, the ID table, every queue object) is as before the call. -/
theorem port_connection_lifecycle (K : Consts) (pid : Nat) (s : State) (eport_id : Nat)
    (port : event_port_t) (hp : GetIDData_port s eport_id = some port) :
    (∀ (equeue_id a : Nat) (q : event_queue_t),
        port.queue = some a → GetIDData_queue s equeue_id = some (a, q) →
        (port.type = K.SYS_EVENT_PORT_LOCAL ∨ ∃ as0, run K pid State.init as0 = s) →
        (∀ (equeue_id2 : Nat) (x : Nat × event_queue_t), GetIDData_queue s equeue_id2 = some x →
          sys_event_port_connect_local K s eport_id equeue_id2 = (CELL_EISCONN, s))
        ∧ sys_event_port_destroy s eport_id = (CELL_EISCONN, s))
    ∧ (port.queue = none → sys_event_port_disconnect s eport_id = (CELL_ENOTCONN, s)) := by
  constructor
  · intro equeue_id a q hconn hq hlocal
    have htype : port.type = K.SYS_EVENT_PORT_LOCAL := by
      rcases hlocal with h | ⟨as0, hrun⟩
      · exact h
      · have hinv : ports_local K s := by
          rw [← hrun]
          exact ports_local_run K pid as0 State.init (by intro id p hm; simp [State.init] at hm)
        exact hinv eport_id port (GetIDData_port_some hp)
    have hl : lock s port.queue = some (a, q) := by
      rw [hconn]
      exact lock_of_live hq
    have hexp := expired_of_lock hl
    constructor
    · intro equeue_id2 x hx
      obtain ⟨a2, q2⟩ := x
      unfold sys_event_port_connect_local
      simp [hp, hx, htype, hexp]
    · unfold sys_event_port_destroy
      simp [hp, hexp]
  · intro hnone
    unfold sys_event_port_disconnect
    simp [hp, hnone, lock]

/-- Witness for C9: the connected port 2 of the example, reached from the empty
system, and the same port with its reference empty. -/
theorem port_connection_lifecycle_witness :
    (sys_event_port_connect_local K0 connected_example 2 1 = (CELL_EISCONN, connected_example)
      ∧ sys_event_port_destroy connected_example 2 = (CELL_EISCONN, connected_example))
    ∧ sys_event_port_disconnect
        { connected_example with
          m_id_map := [(2, ID.TYPE_EVENT_PORT { type := 1, name := 0, queue := none }),
                       (1, ID.TYPE_EVENT_QUEUE 0)] } 2
      = (CELL_ENOTCONN,
        { connected_example with
          m_id_map := [(2, ID.TYPE_EVENT_PORT { type := 1, name := 0, queue := none }),
                       (1, ID.TYPE_EVENT_QUEUE 0)] }) :=
  ⟨⟨((port_connection_lifecycle K0 1 connected_example 2 { type := 1, name := 0, queue := some 0 }
        (by decide)).1 1 0
        { protocol := 1, type := 1, name := 0, key := 0, size := 2,
          events := [], waiters := 0, cancelled := false }
        (by decide) (by decide)
        (Or.inr ⟨[Action.queue_create ⟨1, 1, 0⟩ 0 2, Action.port_create 1 0,
          Action.port_connect_local 2 1], by decide⟩)).1 1
        (0, { protocol := 1, type := 1, name := 0, key := 0, size := 2,
              events := [], waiters := 0, cancelled := false }) (by decide),
    ((port_connection_lifecycle K0 1 connected_example 2 { type := 1, name := 0, queue := some 0 }
        (by decide)).1 1 0
        { protocol := 1, type := 1, name := 0, key := 0, size := 2,
          events := [], waiters := 0, cancelled := false }
        (by decide) (by decide) (Or.inl (by decide))).2⟩,
   (port_connection_lifecycle K0 1
      { connected_example with
        m_id_map := [(2, ID.TYPE_EVENT_PORT { type := 1, name := 0, queue := none }),
                     (1, ID.TYPE_EVENT_QUEUE 0)] } 2
      { type := 1, name := 0, queue := none } (by decide)).2 (by decide)⟩

/-! ## One evaluation of the wait loop -/

/-- The wait loop on a queue without pending record: the four exits in the
order of the source. -/
theorem receive_iter_nil (q : event_queue_t) (timeout start_time now : Nat) (stopped : Bool)
    (h : q.events = []) :
    receive_iter q timeout start_time now stopped =
      if q.cancelled then (.returned CELL_ECANCELED none, { q with waiters := q.waiters - 1 })
      else if timeout ≠ 0 ∧ u64_sub now start_time > timeout then
        (.returned CELL_ETIMEDOUT none, { q with waiters := q.waiters - 1 })
      else if stopped then (.returned CELL_OK none, q)
      else (.waiting, q) := by
  unfold receive_iter
  rw [h]

/-- The wait loop on a queue with a pending record: the record is delivered. -/
theorem receive_iter_cons (q : event_queue_t) (timeout start_time now : Nat) (stopped : Bool)
    (e : event_t) (rest : List event_t) (h : q.events = e :: rest) :
    receive_iter q timeout start_time now stopped =
      (.returned CELL_OK (some e), { q with events := rest, waiters := q.waiters - 1 }) := by
  unfold receive_iter
  rw [h]

/-- When one evaluation of the wait loop ends in `CELL_ETIMEDOUT`, the timeout
is not 0, nothing is pending, the queue is not cancelled and the elapsed time
is above the timeout. -/
theorem receive_iter_timedout (q : event_queue_t) (timeout start_time now : Nat) (stopped : Bool)
    (event : Option event_t)
    (h : (receive_iter q timeout start_time now stopped).1 = .returned CELL_ETIMEDOUT event) :
    timeout ≠ 0 ∧ q.events = [] ∧ q.cancelled = false ∧ u64_sub now start_time > timeout := by
  cases hev : q.events with
  | cons e rest =>
    rw [receive_iter_cons q timeout start_time now stopped e rest hev] at h
    simp at h
  | nil =>
    rw [receive_iter_nil q timeout start_time now stopped hev] at h
    cases hc : q.cancelled with
    | true => simp [hc] at h
    | false =>
      simp only [hc, Bool.false_eq_true, if_false] at h
      by_cases ht : timeout ≠ 0 ∧ u64_sub now start_time > timeout
      · exact ⟨ht.1, rfl, rfl, ht.2⟩
      · rw [if_neg ht] at h
        cases stopped <;> simp at h

theorem receive_wait_returned (clock : Nat → Nat) (stopped : Nat → Bool) (timeout start_time : Nat)
    (q : event_queue_t) (fuel n : Nat) (code : ErrorCode) (event : Option event_t)
    (q1 : event_queue_t)
    (h : receive_iter q timeout start_time (clock n) (stopped n) = (.returned code event, q1)) :
    receive_wait clock stopped timeout start_time q fuel n = some (code, event, q1) := by
  cases fuel <;> simp [receive_wait, h]

theorem receive_wait_waiting_zero (clock : Nat → Nat) (stopped : Nat → Bool)
    (timeout start_time : Nat) (q : event_queue_t) (n : Nat) (q1 : event_queue_t)
    (h : receive_iter q timeout start_time (clock n) (stopped n) = (.waiting, q1)) :
    receive_wait clock stopped timeout start_time q 0 n = none := by
  simp [receive_wait, h]

theorem receive_wait_waiting_succ (clock : Nat → Nat) (stopped : Nat → Bool)
    (timeout start_time : Nat) (q : event_queue_t) (fuel n : Nat) (q1 : event_queue_t)
    (h : receive_iter q timeout start_time (clock n) (stopped n) = (.waiting, q1)) :
    receive_wait clock stopped timeout start_time q (fuel + 1) n
      = receive_wait clock stopped timeout start_time q fuel (n + 1) := by
  simp [receive_wait, h]

/-- When the wait loop of a call that runs alone ends in `CELL_ETIMEDOUT`, the
deciding evaluation is one of the readings `m >= n` of the clock. -/
theorem receive_wait_timedout (clock : Nat → Nat) (stopped : Nat → Bool) (timeout start_time : Nat)
    (q : event_queue_t) :
    ∀ (fuel n : Nat) (event : Option event_t) (q1 : event_queue_t),
      receive_wait clock stopped timeout start_time q fuel n = some (CELL_ETIMEDOUT, event, q1) →
      timeout ≠ 0 ∧ q.events = [] ∧ q.cancelled = false
      ∧ ∃ m, n ≤ m ∧ u64_sub (clock m) start_time > timeout := by
  intro fuel
  induction fuel with
  | zero =>
    intro n event q1 h
    cases hr : receive_iter q timeout start_time (clock n) (stopped n) with
    | mk o q2 =>
      cases o with
      | returned code ev =>
        rw [receive_wait_returned clock stopped timeout start_time q 0 n code ev q2 hr] at h
        simp only [Option.some.injEq, Prod.mk.injEq] at h
        obtain ⟨hcode, hev, _⟩ := h
        subst hcode
        have := receive_iter_timedout q timeout start_time (clock n) (stopped n) ev (by rw [hr])
        exact ⟨this.1, this.2.1, this.2.2.1, n, Nat.le_refl _, this.2.2.2⟩
      | waiting =>
        rw [receive_wait_waiting_zero clock stopped timeout start_time q n q2 hr] at h
        cases h
  | succ fuel ih =>
    intro n event q1 h
    cases hr : receive_iter q timeout start_time (clock n) (stopped n) with
    | mk o q2 =>
      cases o with
      | returned code ev =>
        rw [receive_wait_returned clock stopped timeout start_time q (fuel + 1) n code ev q2 hr] at h
        simp only [Option.some.injEq, Prod.mk.injEq] at h
        obtain ⟨hcode, hev, _⟩ := h
        subst hcode
        have := receive_iter_timedout q timeout start_time (clock n) (stopped n) ev (by rw [hr])
        exact ⟨this.1, this.2.1, this.2.2.1, n, Nat.le_refl _, this.2.2.2⟩
      | waiting =>
        rw [receive_wait_waiting_succ clock stopped timeout start_time q fuel n q2 hr] at h
        obtain ⟨h1, h2, h3, m, hm, hgt⟩ := ih (n + 1) event q1 h
        exact ⟨h1, h2, h3, m, by omega, hgt⟩

/-- C12. Timeout is never early. Whenever `sys_event_queue_receive` returns
`CELL_ETIMEDOUT` (as a whole call that runs alone, at its entry among other
threads, or at a wake-up of a suspended call), the timeout is not 0, the queue
had no pending record and was not cancelled at the deciding check, and the
clock reading `now` of that check satisfies
`(now - start_time) mod 2^64 > timeout`, where `start_time` is the reading
taken before the lock; in the whole call `now` is one of the readings made
after `start_time = clock 0`. With `timeout = 0` none of the three returns
`CELL_ETIMEDOUT`. -/
theorem receive_timeout_never_early (K : Consts) (s : State) (equeue_id timeout : Nat) :
    (∀ (clock : Nat → Nat) (stopped : Nat → Bool) (fuel : Nat) (CPU CPU1 : PPUThread) (s1 : State),
        sys_event_queue_receive K clock stopped fuel s CPU equeue_id timeout
          = some (CELL_ETIMEDOUT, s1, CPU1) →
        timeout ≠ 0
        ∧ ∃ (a : Nat) (q : event_queue_t) (m : Nat),
            GetIDData_queue s equeue_id = some (a, q) ∧ q.events = [] ∧ q.cancelled = false
            ∧ 1 ≤ m ∧ u64_sub (clock m) (clock 0) > timeout)
    ∧ (∀ (start_time now : Nat) (stopped : Bool) (event : Option event_t),
        (sys_event_queue_receive_enter K s equeue_id timeout start_time now stopped).1
          = .returned CELL_ETIMEDOUT event →
        timeout ≠ 0
        ∧ u64_sub now start_time > timeout
        ∧ ∃ (a : Nat) (q : event_queue_t),
            GetIDData_queue s equeue_id = some (a, q) ∧ q.events = [] ∧ q.cancelled = false)
    ∧ (∀ (i now : Nat) (stopped : Bool) (event : Option event_t) (s1 : State),
        sys_event_queue_receive_wake s i now stopped = some (.returned CELL_ETIMEDOUT event, s1) →
        ∃ (f : receive_frame) (q : event_queue_t),
          s.receivers[i]? = some f ∧ s.heap[f.queue]? = some q
          ∧ f.timeout ≠ 0 ∧ u64_sub now f.start_time > f.timeout
          ∧ q.events = [] ∧ q.cancelled = false)
    ∧ (timeout = 0 →
        (∀ (clock : Nat → Nat) (stopped : Nat → Bool) (fuel : Nat) (CPU CPU1 : PPUThread) (s1 : State),
          sys_event_queue_receive K clock stopped fuel s CPU equeue_id timeout
            ≠ some (CELL_ETIMEDOUT, s1, CPU1))
        ∧ (∀ (start_time now : Nat) (stopped : Bool) (event : Option event_t),
          (sys_event_queue_receive_enter K s equeue_id timeout start_time now stopped).1
            ≠ .returned CELL_ETIMEDOUT event)) := by
  have hcall : ∀ (clock : Nat → Nat) (stopped : Nat → Bool) (fuel : Nat) (CPU CPU1 : PPUThread)
      (s1 : State),
      sys_event_queue_receive K clock stopped fuel s CPU equeue_id timeout
        = some (CELL_ETIMEDOUT, s1, CPU1) →
      timeout ≠ 0
      ∧ ∃ (a : Nat) (q : event_queue_t) (m : Nat),
          GetIDData_queue s equeue_id = some (a, q) ∧ q.events = [] ∧ q.cancelled = false
          ∧ 1 ≤ m ∧ u64_sub (clock m) (clock 0) > timeout := by
    intro clock stopped fuel CPU CPU1 s1 h
    unfold sys_event_queue_receive at h
    cases hq : GetIDData_queue s equeue_id with
    | none => simp [hq] at h
    | some x =>
      obtain ⟨a, q⟩ := x
      simp only [hq] at h
      by_cases hty : q.type ≠ K.SYS_PPU_QUEUE
      · simp [hty] at h
      · rw [if_neg hty] at h
        cases hw : receive_wait clock stopped timeout (clock 0)
            { q with waiters := q.waiters + 1 } fuel 1 with
        | none => simp [hw] at h
        | some r =>
          obtain ⟨code, ev, q1⟩ := r
          simp only [hw, Option.some.injEq, Prod.mk.injEq] at h
          obtain ⟨hcode, _, _⟩ := h
          subst hcode
          obtain ⟨h1, h2, h3, m, hm, hgt⟩ := receive_wait_timedout clock stopped timeout (clock 0)
            { q with waiters := q.waiters + 1 } fuel 1 ev q1 hw
          exact ⟨h1, a, q, m, rfl, h2, h3, hm, hgt⟩
  have henter : ∀ (start_time now : Nat) (stopped : Bool) (event : Option event_t),
      (sys_event_queue_receive_enter K s equeue_id timeout start_time now stopped).1
        = .returned CELL_ETIMEDOUT event →
      timeout ≠ 0
      ∧ u64_sub now start_time > timeout
      ∧ ∃ (a : Nat) (q : event_queue_t),
          GetIDData_queue s equeue_id = some (a, q) ∧ q.events = [] ∧ q.cancelled = false := by
    intro start_time now stopped event h
    unfold sys_event_queue_receive_enter at h
    cases hq : GetIDData_queue s equeue_id with
    | none => simp [hq] at h
    | some x =>
      obtain ⟨a, q⟩ := x
      simp only [hq] at h
      by_cases hty : q.type ≠ K.SYS_PPU_QUEUE
      · simp [hty] at h
      · rw [if_neg hty] at h
        cases hr : receive_iter { q with waiters := q.waiters + 1 } timeout start_time now stopped with
        | mk o q1 =>
          rw [hr] at h
          cases o with
          | waiting => simp at h
          | returned code ev =>
            simp only at h
            have := receive_iter_timedout { q with waiters := q.waiters + 1 } timeout start_time
              now stopped event (by rw [hr]; exact h)
            exact ⟨this.1, this.2.2.2, a, q, rfl, this.2.1, this.2.2.1⟩
  refine ⟨hcall, henter, ?_, ?_⟩
  · intro i now stopped event s1 h
    unfold sys_event_queue_receive_wake at h
    cases hf : s.receivers[i]? with
    | none => simp [hf] at h
    | some f =>
      simp only [hf] at h
      cases hq : s.heap[f.queue]? with
      | none => simp [hq] at h
      | some q =>
        simp only [hq] at h
        cases hr : receive_iter q f.timeout f.start_time now stopped with
        | mk o q1 =>
          rw [hr] at h
          cases o with
          | waiting => simp at h
          | returned code ev =>
            simp only [Option.some.injEq, Prod.mk.injEq, receive_outcome.returned.injEq] at h
            have := receive_iter_timedout q f.timeout f.start_time now stopped event
              (by rw [hr, h.1.1, h.1.2])
            exact ⟨f, q, rfl, hq, this.1, this.2.2.2, this.2.1, this.2.2.1⟩
  · intro h0
    constructor
    · intro clock stopped fuel CPU CPU1 s1 h
      exact (hcall clock stopped fuel CPU CPU1 s1 h).1 h0
    · intro start_time now stopped event h
      exact (henter start_time now stopped event h).1 h0

/-- Witness for C12: on the empty queue of the connected example a call with
timeout 5 whose clock reads 0 before the lock and 10 at the first check
returns `CELL_ETIMEDOUT`, and `10 - 0 > 5`. -/
theorem receive_timeout_never_early_witness :
    (sys_event_queue_receive_enter K0 connected_example 1 5 0 10 false).1
      = .returned CELL_ETIMEDOUT none
    ∧ (5 ≠ 0 ∧ u64_sub 10 0 > 5
      ∧ ∃ (a : Nat) (q : event_queue_t),
          GetIDData_queue connected_example 1 = some (a, q) ∧ q.events = [] ∧ q.cancelled = false) :=
  ⟨by decide,
   (receive_timeout_never_early K0 connected_example 1 5).2.1 0 10 false none (by decide)⟩

/-! ## `sys_event_queue_drain`, and the PPU-only receive paths -/

theorem waiters_add_sub (q : event_queue_t) :
    ({ q with waiters := q.waiters + 1 - 1 } : event_queue_t) = q := by
  cases q
  simp

/-- A send leaves every queue id resolving to the same address, with an object
of the same type. -/
theorem sys_event_port_send_resolves (pid : Nat) (s : State) (eport_id data1 data2 data3 : Nat)
    (equeue_id a : Nat) (q : event_queue_t) (hq : GetIDData_queue s equeue_id = some (a, q)) :
    ∃ q1, GetIDData_queue (sys_event_port_send pid s eport_id data1 data2 data3).2 equeue_id
        = some (a, q1) ∧ q1.type = q.type := by
  cases hp : GetIDData_port s eport_id with
  | none =>
    refine ⟨q, ?_, rfl⟩
    unfold sys_event_port_send
    simp only [hp]
    exact hq
  | some port =>
    cases hl : lock s port.queue with
    | none =>
      refine ⟨q, ?_, rfl⟩
      unfold sys_event_port_send
      simp only [hp, hl]
      exact hq
    | some x =>
      obtain ⟨b, qb⟩ := x
      rw [sys_event_port_send_connected pid s eport_id b port qb data1 data2 data3 hp hl]
      by_cases hb : qb.events.length ≥ to_size_t qb.size
      · rw [if_pos hb]
        exact ⟨q, hq, rfl⟩
      · rw [if_neg hb]
        obtain ⟨h1, h2⟩ := GetIDData_queue_some hq
        have hqb := (lock_some hl).2.2
        by_cases hab : b = a
        · subst hab
          rw [hqb] at h2
          cases h2
          exact ⟨_, GetIDData_queue_set_queue hq _, rfl⟩
        · refine ⟨q, GetIDData_queue_of (by simpa [set_queue] using h1) ?_, rfl⟩
          simp only [set_queue]
          rw [List.getElem?_set_ne hab]
          exact h2

theorem send_all_resolves (pid eport_id equeue_id a : Nat) :
    ∀ (ds : List (Nat × Nat × Nat)) (s : State) (q : event_queue_t),
      GetIDData_queue s equeue_id = some (a, q) →
      ∃ q1, GetIDData_queue (send_all pid eport_id s ds).2 equeue_id = some (a, q1)
        ∧ q1.type = q.type := by
  intro ds
  induction ds with
  | nil => intro s q hq; exact ⟨q, hq, rfl⟩
  | cons d ds ih =>
    intro s q hq
    obtain ⟨q1, hq1, ht1⟩ := sys_event_port_send_resolves pid s eport_id d.1 d.2.1 d.2.2
      equeue_id a q hq
    obtain ⟨q2, hq2, ht2⟩ := ih _ q1 hq1
    exact ⟨q2, hq2, by rw [ht2, ht1]⟩

/-- Result of `sys_event_queue_drain` on an id that resolves, and of a
`sys_event_queue_tryreceive` with `size = 1` after it on a PPU queue. -/
theorem sys_event_queue_drain_spec (K : Consts) (s : State) (equeue_id a : Nat) (q : event_queue_t)
    (hq : GetIDData_queue s equeue_id = some (a, q)) :
    sys_event_queue_drain s equeue_id = (CELL_OK, set_queue s a { q with events := [] })
    ∧ GetIDData_queue (set_queue s a { q with events := [] }) equeue_id
        = some (a, { q with events := [] })
    ∧ (q.type = K.SYS_PPU_QUEUE → ∀ (event_array : Nat → sys_event_t) (number : Nat),
        sys_event_queue_tryreceive K (sys_event_queue_drain s equeue_id).2 equeue_id event_array 1
            number
          = .ok (CELL_OK, (sys_event_queue_drain s equeue_id).2, event_array, 0)) := by
  have h1 : sys_event_queue_drain s equeue_id = (CELL_OK, set_queue s a { q with events := [] }) := by
    unfold sys_event_queue_drain
    simp [hq]
  have h2 := GetIDData_queue_set_queue hq { q with events := [] }
  refine ⟨h1, h2, ?_⟩
  intro hppu event_array number
  have hne : ¬ (({ q with events := [] } : event_queue_t).type ≠ K.SYS_PPU_QUEUE) := by
    simp [hppu]
  rw [h1]
  unfold sys_event_queue_tryreceive
  simp only [h2, hne, if_false, tryreceive_loop, set_queue_set_queue]
  simp

/-- C13. `sys_event_queue_drain` on an id that resolves (whatever the type of
the queue and its `waiters`) returns `CELL_OK`; afterwards the queue object is
the old one with no pending record (so `cancelled`, `waiters`, `size`, `key`
are as before), every other queue object, the ID table with every port, the
key registry and the suspended receive calls are as before. Hence, also after
any sends, a drain followed by `sys_event_queue_tryreceive` with `size = 1` on
a PPU queue gives `CELL_OK` with `number = 0` and writes no record. On an id
that does not resolve, drain returns `CELL_ESRCH` and changes nothing. -/
theorem sys_event_queue_drain_clears (K : Consts) (pid : Nat) (s : State) (equeue_id : Nat) :
    (GetIDData_queue s equeue_id = none → sys_event_queue_drain s equeue_id = (CELL_ESRCH, s))
    ∧ (∀ (a : Nat) (q : event_queue_t), GetIDData_queue s equeue_id = some (a, q) →
        (sys_event_queue_drain s equeue_id).1 = CELL_OK
        ∧ (sys_event_queue_drain s equeue_id).2.heap[a]? = some { q with events := [] }
        ∧ (∀ b, b ≠ a → (sys_event_queue_drain s equeue_id).2.heap[b]? = s.heap[b]?)
        ∧ (sys_event_queue_drain s equeue_id).2.m_id_map = s.m_id_map
        ∧ (sys_event_queue_drain s equeue_id).2.m_cur_id = s.m_cur_id
        ∧ (sys_event_queue_drain s equeue_id).2.eq_map = s.eq_map
        ∧ (sys_event_queue_drain s equeue_id).2.receivers = s.receivers
        ∧ (q.type = K.SYS_PPU_QUEUE → ∀ (event_array : Nat → sys_event_t) (number : Nat),
            sys_event_queue_tryreceive K (sys_event_queue_drain s equeue_id).2 equeue_id
                event_array 1 number
              = .ok (CELL_OK, (sys_event_queue_drain s equeue_id).2, event_array, 0))
        ∧ (q.type = K.SYS_PPU_QUEUE → ∀ (eport_id : Nat) (ds : List (Nat × Nat × Nat))
              (event_array : Nat → sys_event_t) (number : Nat),
            sys_event_queue_tryreceive K
                (sys_event_queue_drain (send_all pid eport_id s ds).2 equeue_id).2 equeue_id
                event_array 1 number
              = .ok (CELL_OK, (sys_event_queue_drain (send_all pid eport_id s ds).2 equeue_id).2,
                  event_array, 0))) := by
  constructor
  · intro h
    unfold sys_event_queue_drain
    simp [h]
  · intro a q hq
    obtain ⟨h1, h2, h3⟩ := sys_event_queue_drain_spec K s equeue_id a q hq
    refine ⟨by rw [h1], ?_, ?_, by rw [h1]; rfl, by rw [h1]; rfl, by rw [h1]; rfl,
      by rw [h1]; rfl, h3, ?_⟩
    · rw [h1]
      exact heap_get_set_queue s a q _ (GetIDData_queue_some hq).2
    · intro b hb
      rw [h1]
      simp only [set_queue]
      rw [List.getElem?_set_ne (fun e => hb e.symm)]
    · intro hppu eport_id ds event_array number
      obtain ⟨q1, hq1, ht1⟩ := send_all_resolves pid eport_id equeue_id a ds s q hq
      exact (sys_event_queue_drain_spec K _ equeue_id a q1 hq1).2.2 (by rw [ht1, hppu])
        event_array number

/-- Witness for C13: on the connected example, two sends, a drain, then a
tryreceive of one record gives `number = 0`; draining id 9 gives
`CELL_ESRCH`. -/
theorem sys_event_queue_drain_clears_witness :
    sys_event_queue_drain connected_example 9 = (CELL_ESRCH, connected_example)
    ∧ (sys_event_queue_drain (send_all 1 2 connected_example [(1, 2, 3), (4, 5, 6)]).2 1).1 = CELL_OK
    ∧ sys_event_queue_tryreceive K0
        (sys_event_queue_drain (send_all 1 2 connected_example [(1, 2, 3), (4, 5, 6)]).2 1).2 1
        (fun _ => ⟨0, 0, 0, 0⟩) 1 7
      = .ok (CELL_OK,
          (sys_event_queue_drain (send_all 1 2 connected_example [(1, 2, 3), (4, 5, 6)]).2 1).2,
          fun _ => ⟨0, 0, 0, 0⟩, 0) :=
  ⟨(sys_event_queue_drain_clears K0 1 connected_example 9).1 (by decide),
   by decide,
   ((sys_event_queue_drain_clears K0 1 connected_example 1).2 0
      { protocol := 1, type := 1, name := 0, key := 0, size := 2,
        events := [], waiters := 0, cancelled := false } (by decide)).2.2.2.2.2.2.2.2
      (by decide) 2 [(1, 2, 3), (4, 5, 6)] (fun _ => ⟨0, 0, 0, 0⟩) 7⟩

/-- C15. Receive paths are PPU-only. On an id that resolves to a queue whose
type is not PPU, `sys_event_queue_receive` returns `CELL_EINVAL` for every
timeout (for every clock, stop flag and fuel), and
`sys_event_queue_tryreceive` returns `CELL_EINVAL` for every `size >= 0`; the
state (pending records and `waiters` included), the registers, the event array
and the number output are as before the call, whatever is pending. -/
theorem receive_paths_ppu_only (K : Consts) (s : State) (equeue_id a : Nat) (q : event_queue_t)
    (hq : GetIDData_queue s equeue_id = some (a, q)) (hspu : q.type ≠ K.SYS_PPU_QUEUE) :
    (∀ (clock : Nat → Nat) (stopped : Nat → Bool) (fuel : Nat) (CPU : PPUThread) (timeout : Nat),
        sys_event_queue_receive K clock stopped fuel s CPU equeue_id timeout
          = some (CELL_EINVAL, s, CPU))
    ∧ (∀ (timeout start_time now : Nat) (stopped : Bool),
        sys_event_queue_receive_enter K s equeue_id timeout start_time now stopped
          = (.returned CELL_EINVAL none, s))
    ∧ (∀ (event_array : Nat → sys_event_t) (size : Int) (number : Nat), 0 ≤ size →
        sys_event_queue_tryreceive K s equeue_id event_array size number
          = .ok (CELL_EINVAL, s, event_array, number)) := by
  refine ⟨?_, ?_, ?_⟩
  · intro clock stopped fuel CPU timeout
    unfold sys_event_queue_receive
    simp only [hq]
    rw [if_pos hspu]
  · intro timeout start_time now stopped
    unfold sys_event_queue_receive_enter
    simp only [hq]
    rw [if_pos hspu]
  · intro event_array size number hsize
    have hns : ¬ size < 0 := by omega
    unfold sys_event_queue_tryreceive
    simp only [hq]
    rw [if_neg hns, if_pos hspu]

/-- Witness for C15: an SPU queue (type 2) with a pending record. -/
theorem receive_paths_ppu_only_witness :
    sys_event_queue_tryreceive K0
        { m_cur_id := 2, m_id_map := [(1, ID.TYPE_EVENT_QUEUE 0)], eq_map := [],
          heap := [{ protocol := 1, type := 2, name := 0, key := 0, size := 2,
                     events := [⟨9, 1, 2, 3⟩], waiters := 0, cancelled := false }],
          receivers := [] }
        1 (fun _ => ⟨0, 0, 0, 0⟩) 1 7
      = .ok (CELL_EINVAL,
        { m_cur_id := 2, m_id_map := [(1, ID.TYPE_EVENT_QUEUE 0)], eq_map := [],
          heap := [{ protocol := 1, type := 2, name := 0, key := 0, size := 2,
                     events := [⟨9, 1, 2, 3⟩], waiters := 0, cancelled := false }],
          receivers := [] },
        fun _ => ⟨0, 0, 0, 0⟩, 7) :=
  (receive_paths_ppu_only K0
    { m_cur_id := 2, m_id_map := [(1, ID.TYPE_EVENT_QUEUE 0)], eq_map := [],
      heap := [{ protocol := 1, type := 2, name := 0, key := 0, size := 2,
                 events := [⟨9, 1, 2, 3⟩], waiters := 0, cancelled := false }],
      receivers := [] }
    1 0 { protocol := 1, type := 2, name := 0, key := 0, size := 2,
          events := [⟨9, 1, 2, 3⟩], waiters := 0, cancelled := false }
    (by decide) (by decide)).2.2 (fun _ => ⟨0, 0, 0, 0⟩) 1 7 (by decide)

/-! ## Decision order of the wait loop -/

theorem waiters_self (q : event_queue_t) :
    ({ q with waiters := q.waiters } : event_queue_t) = q := by
  cases q
  rfl

/-- C18. Decision order of one evaluation of the wait loop of
`sys_event_queue_receive` on a PPU queue with no pending record. If
`cancelled` is set the call returns `CELL_ECANCELED`; otherwise, if
`timeout != 0` and the elapsed time exceeds it, `CELL_ETIMEDOUT`; otherwise, if
the emulator is stopped, `CELL_OK` with no register written, the pending
records as they were and `waiters` one above its value at entry; otherwise the
call keeps waiting. `CELL_ECANCELED` and `CELL_ETIMEDOUT` leave `waiters` at
its value at entry (the whole state is the one at entry). So cancellation is
decided before the timeout and both before the stop flag. Stated for the first
evaluation of a call that runs alone (readings `clock 1`, `stopped 1`, start
`clock 0`), and for one evaluation `receive_iter` on the queue object. -/
theorem receive_decision_order (K : Consts) (s : State) (equeue_id a : Nat) (q : event_queue_t)
    (clock : Nat → Nat) (stopped : Nat → Bool) (fuel : Nat) (CPU : PPUThread) (timeout : Nat)
    (hq : GetIDData_queue s equeue_id = some (a, q)) (hppu : q.type = K.SYS_PPU_QUEUE)
    (hev : q.events = []) :
    (q.cancelled = true →
        sys_event_queue_receive K clock stopped fuel s CPU equeue_id timeout
          = some (CELL_ECANCELED, s, CPU))
    ∧ (q.cancelled = false → (timeout ≠ 0 ∧ u64_sub (clock 1) (clock 0) > timeout) →
        sys_event_queue_receive K clock stopped fuel s CPU equeue_id timeout
          = some (CELL_ETIMEDOUT, s, CPU))
    ∧ (q.cancelled = false → ¬ (timeout ≠ 0 ∧ u64_sub (clock 1) (clock 0) > timeout) →
        stopped 1 = true →
        sys_event_queue_receive K clock stopped fuel s CPU equeue_id timeout
          = some (CELL_OK, set_queue s a { q with waiters := q.waiters + 1 }, CPU))
    ∧ (q.cancelled = false → ¬ (timeout ≠ 0 ∧ u64_sub (clock 1) (clock 0) > timeout) →
        stopped 1 = false →
        sys_event_queue_receive K clock stopped 0 s CPU equeue_id timeout = none
        ∧ sys_event_queue_receive_enter K s equeue_id timeout (clock 0) (clock 1) (stopped 1)
          = (.waiting, { set_queue s a { q with waiters := q.waiters + 1 } with
              receivers := s.receivers ++ [{ queue := a, timeout := timeout, start_time := clock 0 }] }))
    ∧ (∀ (q0 : event_queue_t) (start_time now : Nat) (stop : Bool), q0.events = [] →
        receive_iter q0 timeout start_time now stop =
          if q0.cancelled then (.returned CELL_ECANCELED none, { q0 with waiters := q0.waiters - 1 })
          else if timeout ≠ 0 ∧ u64_sub now start_time > timeout then
            (.returned CELL_ETIMEDOUT none, { q0 with waiters := q0.waiters - 1 })
          else if stop then (.returned CELL_OK none, q0)
          else (.waiting, q0)) := by
  have hne : ¬ (q.type ≠ K.SYS_PPU_QUEUE) := by simp [hppu]
  have hself : set_queue s a q = s := set_queue_self s a q (GetIDData_queue_some hq).2
  have hev1 : ({ q with waiters := q.waiters + 1 } : event_queue_t).events = [] := hev
  have hiter := receive_iter_nil { q with waiters := q.waiters + 1 } timeout (clock 0) (clock 1)
    (stopped 1) hev1
  refine ⟨?_, ?_, ?_, ?_, ?_⟩
  · intro hc
    have hc1 : ({ q with waiters := q.waiters + 1 } : event_queue_t).cancelled = true := hc
    rw [if_pos hc1] at hiter
    unfold sys_event_queue_receive
    simp only [hq, hne, if_false]
    rw [receive_wait_returned clock stopped timeout (clock 0) _ fuel 1 _ _ _ hiter]
    simp only [write_gpr]
    rw [waiters_add_sub, hself]
  · intro hc ht
    have hc1 : ¬ (({ q with waiters := q.waiters + 1 } : event_queue_t).cancelled = true) := by
      simp [hc]
    rw [if_neg hc1, if_pos ht] at hiter
    unfold sys_event_queue_receive
    simp only [hq, hne, if_false]
    rw [receive_wait_returned clock stopped timeout (clock 0) _ fuel 1 _ _ _ hiter]
    simp only [write_gpr]
    rw [waiters_add_sub, hself]
  · intro hc ht hs
    have hc1 : ¬ (({ q with waiters := q.waiters + 1 } : event_queue_t).cancelled = true) := by
      simp [hc]
    rw [if_neg hc1, if_neg ht, if_pos hs] at hiter
    unfold sys_event_queue_receive
    simp only [hq, hne, if_false]
    rw [receive_wait_returned clock stopped timeout (clock 0) _ fuel 1 _ _ _ hiter]
    simp only [write_gpr]
  · intro hc ht hs
    have hc1 : ¬ (({ q with waiters := q.waiters + 1 } : event_queue_t).cancelled = true) := by
      simp [hc]
    have hs1 : ¬ (stopped 1 = true) := by simp [hs]
    rw [if_neg hc1, if_neg ht, if_neg hs1] at hiter
    constructor
    · unfold sys_event_queue_receive
      simp only [hq, hne, if_false]
      rw [receive_wait_waiting_zero clock stopped timeout (clock 0) _ 1 _ hiter]
    · unfold sys_event_queue_receive_enter
      simp only [hq, hne, if_false, hiter]
  · intro q0 start_time now stop h0
    exact receive_iter_nil q0 timeout start_time now stop h0

/-- Witness for C18: the empty queue of the connected example, cancelled, with
a timeout that has run out and the stop flag set: the call returns
`CELL_ECANCELED`; not cancelled: `CELL_ETIMEDOUT`; with timeout 0:
`CELL_OK` with `waiters` one higher. -/
theorem receive_decision_order_witness :
    sys_event_queue_receive K0 (fun n => 10 * n) (fun _ => true) 0
        { connected_example with
          heap := [{ protocol := 1, type := 1, name := 0, key := 0, size := 2,
                     events := [], waiters := 0, cancelled := true }] }
        ⟨fun _ => 0⟩ 1 5
      = some (CELL_ECANCELED,
        { connected_example with
          heap := [{ protocol := 1, type := 1, name := 0, key := 0, size := 2,
                     events := [], waiters := 0, cancelled := true }] },
        ⟨fun _ => 0⟩)
    ∧ sys_event_queue_receive K0 (fun n => 10 * n) (fun _ => true) 0 connected_example
        ⟨fun _ => 0⟩ 1 5
      = some (CELL_ETIMEDOUT, connected_example, ⟨fun _ => 0⟩)
    ∧ sys_event_queue_receive K0 (fun n => 10 * n) (fun _ => true) 0 connected_example
        ⟨fun _ => 0⟩ 1 0
      = some (CELL_OK,
        set_queue connected_example 0
          { protocol := 1, type := 1, name := 0, key := 0, size := 2,
            events := [], waiters := 0 + 1, cancelled := false },
        ⟨fun _ => 0⟩) :=
  ⟨(receive_decision_order K0
      { connected_example with
        heap := [{ protocol := 1, type := 1, name := 0, key := 0, size := 2,
                   events := [], waiters := 0, cancelled := true }] }
      1 0 { protocol := 1, type := 1, name := 0, key := 0, size := 2,
            events := [], waiters := 0, cancelled := true }
      (fun n => 10 * n) (fun _ => true) 0 ⟨fun _ => 0⟩ 5 (by decide) (by decide) (by decide)).1
      (by decide),
   (receive_decision_order K0 connected_example 1 0
      { protocol := 1, type := 1, name := 0, key := 0, size := 2,
        events := [], waiters := 0, cancelled := false }
      (fun n => 10 * n) (fun _ => true) 0 ⟨fun _ => 0⟩ 5 (by decide) (by decide) (by decide)).2.1
      (by decide) (by decide),
   (receive_decision_order K0 connected_example 1 0
      { protocol := 1, type := 1, name := 0, key := 0, size := 2,
        events := [], waiters := 0, cancelled := false }
      (fun n => 10 * n) (fun _ => true) 0 ⟨fun _ => 0⟩ 0 (by decide) (by decide) (by decide)).2.2.1
      (by decide) (by decide) (by decide)⟩

/-! ## `sys_event_port_disconnect` -/

theorem lookup_set_port (s : State) (eport_id : Nat) (p : event_port_t) (k : Nat) :
    (set_port s eport_id p).m_id_map.lookup k
      = if k = eport_id then (s.m_id_map.lookup k).map (fun _ => ID.TYPE_EVENT_PORT p)
        else s.m_id_map.lookup k := by
  simp only [set_port]
  induction s.m_id_map with
  | nil => simp
  | cons e rest ih =>
    obtain ⟨k1, v1⟩ := e
    by_cases hk : k = k1
    · subst hk
      by_cases hid : k = eport_id
      · simp [hid]
      · simp [hid]
    · have hb : (k == k1) = false := by simpa using hk
      by_cases hid : k1 = eport_id
      · subst hid
        simp only [List.map_cons, if_true, List.lookup_cons, hb, if_neg hk]
        simp only [if_neg hk] at ih
        exact ih
      · simp only [List.map_cons, hid, if_false, List.lookup_cons, hb]
        exact ih

theorem GetIDData_port_lookup {s : State} {id : Nat} {p : event_port_t}
    (h : GetIDData_port s id = some p) : s.m_id_map.lookup id = some (ID.TYPE_EVENT_PORT p) := by
  unfold GetIDData_port at h
  split at h
  · rename_i port hl
    simp only [Option.some.injEq] at h
    subst h
    exact hl
  · cases h

theorem GetIDData_port_set_port {s : State} {eport_id : Nat} {port : event_port_t}
    (hp : GetIDData_port s eport_id = some port) (p : event_port_t) :
    GetIDData_port (set_port s eport_id p) eport_id = some p := by
  unfold GetIDData_port
  rw [lookup_set_port, if_pos rfl, GetIDData_port_lookup hp]
  rfl

theorem GetIDData_queue_set_port {s : State} {eport_id : Nat} {port : event_port_t}
    (hp : GetIDData_port s eport_id = some port) (p : event_port_t) (k : Nat) :
    GetIDData_queue (set_port s eport_id p) k = GetIDData_queue s k := by
  unfold GetIDData_queue
  rw [lookup_set_port]
  by_cases hk : k = eport_id
  · subst hk
    rw [if_pos rfl, GetIDData_port_lookup hp]
    rfl
  · rw [if_neg hk]
    rfl

/-- C19. `sys_event_port_disconnect` on a port whose queue reference resolves
returns `CELL_OK` (never `CELL_EBUSY`) and only empties that reference: every
queue object (pending records, whoever sent them, `waiters`, `cancelled`), the
key registry, the suspended receive calls and every other entry of the ID
table are as before. Afterwards `sys_event_port_send` on the port returns
`CELL_ENOTCONN`, and `sys_event_port_connect_local` of the port (of type
LOCAL, as in every state reached from the empty system) to a queue that
resolves returns `CELL_OK`, after which the reference resolves again and send
does not return `CELL_ENOTCONN`. -/
theorem sys_event_port_disconnect_clears (K : Consts) (pid : Nat) (s : State) (eport_id a : Nat)
    (port : event_port_t) (q : event_queue_t)
    (hp : GetIDData_port s eport_id = some port) (hl : lock s port.queue = some (a, q)) :
    sys_event_port_disconnect s eport_id = (CELL_OK, set_port s eport_id { port with queue := none })
    ∧ (sys_event_port_disconnect s eport_id).2.heap = s.heap
    ∧ (sys_event_port_disconnect s eport_id).2.eq_map = s.eq_map
    ∧ (sys_event_port_disconnect s eport_id).2.receivers = s.receivers
    ∧ (sys_event_port_disconnect s eport_id).2.m_cur_id = s.m_cur_id
    ∧ GetIDData_port (sys_event_port_disconnect s eport_id).2 eport_id
        = some { port with queue := none }
    ∧ (∀ k, k ≠ eport_id →
        (sys_event_port_disconnect s eport_id).2.m_id_map.lookup k = s.m_id_map.lookup k)
    ∧ (∀ k, GetIDData_queue (sys_event_port_disconnect s eport_id).2 k = GetIDData_queue s k)
    ∧ (∀ data1 data2 data3,
        sys_event_port_send pid (sys_event_port_disconnect s eport_id).2 eport_id data1 data2 data3
          = (CELL_ENOTCONN, (sys_event_port_disconnect s eport_id).2))
    ∧ (∀ (equeue_id a2 : Nat) (q2 : event_queue_t), GetIDData_queue s equeue_id = some (a2, q2) →
        (port.type = K.SYS_EVENT_PORT_LOCAL ∨ ∃ as0, run K pid State.init as0 = s) →
        (sys_event_port_connect_local K (sys_event_port_disconnect s eport_id).2 eport_id
            equeue_id).1 = CELL_OK
        ∧ GetIDData_port
            (sys_event_port_connect_local K (sys_event_port_disconnect s eport_id).2 eport_id
              equeue_id).2 eport_id = some { port with queue := some a2 }
        ∧ lock
            (sys_event_port_connect_local K (sys_event_port_disconnect s eport_id).2 eport_id
              equeue_id).2 (some a2) = some (a2, q2)
        ∧ ∀ data1 data2 data3,
            (sys_event_port_send pid
              (sys_event_port_connect_local K (sys_event_port_disconnect s eport_id).2 eport_id
                equeue_id).2 eport_id data1 data2 data3).1 ≠ CELL_ENOTCONN) := by
  have h1 : sys_event_port_disconnect s eport_id
      = (CELL_OK, set_port s eport_id { port with queue := none }) := by
    unfold sys_event_port_disconnect
    simp only [hp, hl]
  have hp1 := GetIDData_port_set_port hp { port with queue := none }
  rw [h1]
  refine ⟨rfl, rfl, rfl, rfl, rfl, hp1, ?_, ?_, ?_, ?_⟩
  · intro k hk
    simp only
    rw [lookup_set_port, if_neg hk]
  · intro k
    exact GetIDData_queue_set_port hp _ k
  · intro data1 data2 data3
    unfold sys_event_port_send
    simp only [hp1, lock]
  · intro equeue_id a2 q2 hq2 hlocal
    have htype : port.type = K.SYS_EVENT_PORT_LOCAL := by
      rcases hlocal with h | ⟨as0, hrun⟩
      · exact h
      · have hinv : ports_local K s := by
          rw [← hrun]
          exact ports_local_run K pid as0 State.init (by intro id p hm; simp [State.init] at hm)
        exact hinv eport_id port (GetIDData_port_some hp)
    have hq1 : GetIDData_queue (set_port s eport_id { port with queue := none }) equeue_id
        = some (a2, q2) := by
      rw [GetIDData_queue_set_port hp]
      exact hq2
    have hconn : sys_event_port_connect_local K (set_port s eport_id { port with queue := none })
        eport_id equeue_id
        = (CELL_OK, set_port (set_port s eport_id { port with queue := none }) eport_id
            { port with queue := some a2 }) := by
      unfold sys_event_port_connect_local
      simp only [hp1, hq1]
      have hne : ¬ (({ port with queue := none } : event_port_t).type ≠ K.SYS_EVENT_PORT_LOCAL) := by
        simp [htype]
      rw [if_neg hne]
      simp [expired]
    have hp2 := GetIDData_port_set_port hp1 { port with queue := some a2 }
    have hq3 : GetIDData_queue (set_port (set_port s eport_id { port with queue := none }) eport_id
        { port with queue := some a2 }) equeue_id = some (a2, q2) := by
      rw [GetIDData_queue_set_port hp1]
      exact hq1
    have hl2 := lock_of_live hq3
    simp only
    rw [hconn]
    refine ⟨rfl, hp2, hl2, ?_⟩
    intro data1 data2 data3
    rw [sys_event_port_send_connected pid _ eport_id a2 { port with queue := some a2 } q2
      data1 data2 data3 hp2 hl2]
    split <;> simp

/-- Witness for C19: port 2 of the connected example after a send: the
disconnect returns `CELL_OK` and keeps the pending record, a send then returns
`CELL_ENOTCONN`, and the port connects to queue 1 again. -/
theorem sys_event_port_disconnect_clears_witness :
    (sys_event_port_disconnect (sys_event_port_send 1 connected_example 2 7 8 9).2 2).1 = CELL_OK
    ∧ (sys_event_port_disconnect (sys_event_port_send 1 connected_example 2 7 8 9).2 2).2.heap
        = [{ protocol := 1, type := 1, name := 0, key := 0, size := 2,
             events := [⟨2 ^ 32 + 2, 7, 8, 9⟩], waiters := 0, cancelled := false }]
    ∧ (sys_event_port_send 1
        (sys_event_port_disconnect (sys_event_port_send 1 connected_example 2 7 8 9).2 2).2
        2 1 2 3).1 = CELL_ENOTCONN
    ∧ (sys_event_port_connect_local K0
        (sys_event_port_disconnect (sys_event_port_send 1 connected_example 2 7 8 9).2 2).2
        2 1).1 = CELL_OK := by
  have h := sys_event_port_disconnect_clears K0 1 (sys_event_port_send 1 connected_example 2 7 8 9).2
    2 0 { type := 1, name := 0, queue := some 0 }
    { protocol := 1, type := 1, name := 0, key := 0, size := 2,
      events := [⟨2 ^ 32 + 2, 7, 8, 9⟩], waiters := 0, cancelled := false }
    (by decide) (by decide)
  refine ⟨by rw [h.1], ?_, ?_, ?_⟩
  · rw [h.2.1]
    decide
  · rw [h.2.2.2.2.2.2.2.2.1 1 2 3]
  · exact (h.2.2.2.2.2.2.2.2.2 1 0
      { protocol := 1, type := 1, name := 0, key := 0, size := 2,
        events := [⟨2 ^ 32 + 2, 7, 8, 9⟩], waiters := 0, cancelled := false }
      (by decide) (Or.inl (by decide))).1

/-! ## Waiters and suspended receive calls -/

theorem countP_eraseIdx {α : Type} (p : α → Bool) :
    ∀ (l : List α) (i : Nat) (x : α), l[i]? = some x →
      (l.eraseIdx i).countP p + (if p x = true then 1 else 0) = l.countP p := by
  intro l
  induction l with
  | nil => intro i x h; simp at h
  | cons y rest ih =>
    intro i x h
    cases i with
    | zero =>
      simp only [List.getElem?_cons_zero, Option.some.injEq] at h
      subst h
      simp only [List.eraseIdx_cons_zero, List.countP_cons]
    | succ i =>
      simp only [List.getElem?_cons_succ] at h
      have := ih i x h
      simp only [List.eraseIdx_cons_succ, List.countP_cons]
      omega

theorem parked_of_receivers {s s1 : State} (h : s1.receivers = s.receivers) (b : Nat) :
    parked s1 b = parked s b := by
  unfold parked
  rw [h]

theorem parked_zero_of_ge {s : State} (h : frames_in_heap s) {b : Nat} (hb : s.heap.length ≤ b) :
    parked s b = 0 := by
  unfold parked
  rw [List.countP_eq_zero]
  intro f hf
  have := h f hf
  simp only [decide_eq_true_eq]
  omega

theorem waiters_step_same (ab : Bool) (s : State) : waiters_step ab s s :=
  ⟨Nat.le_refl _, fun _ hf => Or.inl hf, fun _ q1 h => Or.inl ⟨q1, h, Or.inl rfl⟩⟩

/-- A step that touches neither the queue objects nor the suspended calls. -/
theorem waiters_step_table (ab : Bool) {s s1 : State} (hh : s1.heap = s.heap)
    (hr : s1.receivers = s.receivers) : waiters_step ab s s1 := by
  refine ⟨by rw [hh], fun f hf => Or.inl (by rw [← hr]; exact hf), ?_⟩
  intro b q1 h
  rw [hh] at h
  exact Or.inl ⟨q1, h, Or.inl (by rw [parked_of_receivers hr])⟩

/-- A step that stores into one queue object. -/
theorem waiters_step_update (ab : Bool) {s s1 : State} {a : Nat} {q q1 : event_queue_t}
    (hq : s.heap[a]? = some q) (hh : s1.heap = s.heap.set a q1)
    (hf : ∀ f ∈ s1.receivers, f ∈ s.receivers ∨ f.queue < s.heap.length)
    (hb : ∀ b, b ≠ a → parked s1 b = parked s b)
    (hw : q1.waiters - (parked s1 a : Int) = q.waiters - (parked s a : Int)
      ∨ (ab = true ∧ q1.waiters - (parked s1 a : Int) = q.waiters - (parked s a : Int) + 1)) :
    waiters_step ab s s1 := by
  refine ⟨by rw [hh, List.length_set], hf, ?_⟩
  intro b x hx
  rw [hh] at hx
  rcases heap_get_set hq hx with ⟨hba, hxq⟩ | ⟨hba, hx0⟩
  · subst hba
    subst hxq
    exact Or.inl ⟨q, hq, hw⟩
  · exact Or.inl ⟨x, hx0, Or.inl (by rw [hb b hba])⟩

/-- A step that stores into one queue object without touching `waiters` or the
suspended calls. -/
theorem waiters_step_set (ab : Bool) {s s1 : State} {a : Nat} {q q1 : event_queue_t}
    (hq : s.heap[a]? = some q) (hh : s1.heap = s.heap.set a q1)
    (hr : s1.receivers = s.receivers) (hw : q1.waiters = q.waiters) : waiters_step ab s s1 :=
  waiters_step_update ab hq hh (fun f hf => Or.inl (by rw [← hr]; exact hf))
    (fun b _ => parked_of_receivers hr b)
    (Or.inl (by rw [parked_of_receivers hr, hw]))

/-- A step that allocates a queue object. -/
theorem waiters_step_append (ab : Bool) {s s1 : State} {obj : event_queue_t}
    (hh : s1.heap = s.heap ++ [obj]) (hr : s1.receivers = s.receivers) (hw : obj.waiters = 0) :
    waiters_step ab s s1 := by
  refine ⟨by rw [hh]; simp, fun f hf => Or.inl (by rw [← hr]; exact hf), ?_⟩
  intro b x hx
  rw [hh] at hx
  rcases Nat.lt_or_ge b s.heap.length with hlt | hge
  · rw [List.getElem?_append_left hlt] at hx
    exact Or.inl ⟨x, hx, Or.inl (by rw [parked_of_receivers hr])⟩
  · right
    refine ⟨hge, ?_, parked_of_receivers hr b⟩
    rw [List.getElem?_append_right hge] at hx
    have hidx : b - s.heap.length = 0 := by
      rcases Nat.eq_zero_or_pos (b - s.heap.length) with h0 | h0
      · exact h0
      · rw [List.getElem?_eq_none (by simp; omega)] at hx
        cases hx
    rw [hidx] at hx
    simp only [List.getElem?_cons_zero, Option.some.injEq] at hx
    rw [← hx]
    exact hw

theorem waiters_inv_step {ab : Bool} {s s1 : State} (hf : frames_in_heap s) (hg : waiters_ge s)
    (h : waiters_step ab s s1) : frames_in_heap s1 ∧ waiters_ge s1 := by
  obtain ⟨h0, h1, h2⟩ := h
  constructor
  · intro f hf1
    rcases h1 f hf1 with hm | hm
    · have := hf f hm
      omega
    · omega
  · intro b q1 hq1
    rcases h2 b q1 hq1 with ⟨q, hq, hd | ⟨_, hd⟩⟩ | ⟨hb, hw, hp⟩
    · have := hg b q hq
      omega
    · have := hg b q hq
      omega
    · rw [hw, hp, parked_zero_of_ge hf hb]
      simp

theorem waiters_eq_step {s s1 : State} (hf : frames_in_heap s) (hg : waiters_eq s)
    (h : waiters_step false s s1) : waiters_eq s1 := by
  obtain ⟨h0, h1, h2⟩ := h
  intro b q1 hq1
  rcases h2 b q1 hq1 with ⟨q, hq, hd | ⟨hab, _⟩⟩ | ⟨hb, hw, hp⟩
  · have := hg b q hq
    omega
  · cases hab
  · rw [hw, hp, parked_zero_of_ge hf hb]
    simp

theorem destroyed_receivers (s : State) (equeue_id a : Nat) (q : event_queue_t) :
    (destroyed s equeue_id a q).receivers = s.receivers := by
  unfold destroyed UnregisterKey
  split <;> rfl

theorem event_queue_create_shape (s : State) (protocol : Nat) (type : Int) (name key : Nat)
    (size : Int) :
    (event_queue_create s protocol type name key size).2.heap
        = s.heap ++ [event_queue_t.new protocol type name key size]
    ∧ (event_queue_create s protocol type name key size).2.receivers = s.receivers
    ∧ (event_queue_create s protocol type name key size).2.m_id_map
        = (s.m_cur_id % 2 ^ 32, ID.TYPE_EVENT_QUEUE s.heap.length) :: s.m_id_map
    ∧ (event_queue_create s protocol type name key size).2.m_cur_id = (s.m_cur_id + 1) % 2 ^ 32
    ∧ ((event_queue_create s protocol type name key size).2.eq_map = s.eq_map
      ∨ (key ≠ 0 ∧ (event_queue_create s protocol type name key size).2.eq_map
          = (key, s.heap.length) :: s.eq_map)) := by
  simp only [event_queue_create, new_queue, GetNewID, RegisterKey]
  by_cases hk : key = 0
  · simp [hk]
  · cases hl : s.eq_map.lookup key with
    | none => simp [hk, hl]
    | some v => simp [hk, hl]

theorem sys_event_queue_receive_enter_waiters (K : Consts) (s : State)
    (equeue_id timeout start_time now : Nat) (stopped : Bool) :
    waiters_step stopped s
      (sys_event_queue_receive_enter K s equeue_id timeout start_time now stopped).2 := by
  unfold sys_event_queue_receive_enter
  cases hq : GetIDData_queue s equeue_id with
  | none => exact waiters_step_same _ s
  | some x =>
    obtain ⟨a, q⟩ := x
    have hqa := (GetIDData_queue_some hq).2
    simp only
    by_cases hty : q.type ≠ K.SYS_PPU_QUEUE
    · rw [if_pos hty]
      exact waiters_step_same _ s
    · rw [if_neg hty]
      have hcases : q.events = [] ∨ ∃ e rest, q.events = e :: rest := by
        cases q.events with
        | nil => exact Or.inl rfl
        | cons e rest => exact Or.inr ⟨e, rest, rfl⟩
      rcases hcases with hev | ⟨e, rest, hev⟩
      · rw [receive_iter_nil { q with waiters := q.waiters + 1 } timeout start_time now stopped hev]
        by_cases hc : ({ q with waiters := q.waiters + 1 } : event_queue_t).cancelled = true
        · rw [if_pos hc]
          exact waiters_step_set _ hqa rfl rfl (by simp)
        · rw [if_neg hc]
          by_cases ht : timeout ≠ 0 ∧ u64_sub now start_time > timeout
          · rw [if_pos ht]
            exact waiters_step_set _ hqa rfl rfl (by simp)
          · rw [if_neg ht]
            by_cases hs : stopped = true
            · rw [if_pos hs]
              exact waiters_step_update _ hqa rfl (fun f hf => Or.inl hf) (fun b _ => rfl)
                (Or.inr ⟨hs, by simp only [set_queue, parked]; omega⟩)
            · rw [if_neg hs]
              refine waiters_step_update _ hqa rfl ?_ ?_ (Or.inl ?_)
              · intro f hf
                simp only [List.mem_append, List.mem_singleton] at hf
                rcases hf with hf | hf
                · exact Or.inl hf
                · right
                  rw [hf]
                  exact heap_lt_of_get hqa
              · intro b hb
                simp only [parked, List.countP_append, List.countP_cons, List.countP_nil]
                have : ¬ (a = b) := fun e => hb e.symm
                simp [this]
              · simp only [parked, List.countP_append, List.countP_cons, List.countP_nil]
                simp
      · rw [receive_iter_cons { q with waiters := q.waiters + 1 } timeout start_time now stopped
          e rest hev]
        exact waiters_step_set _ hqa rfl rfl (by simp)

theorem sys_event_queue_receive_wake_waiters (s : State) (i now : Nat) (stopped : Bool)
    (r : receive_outcome × State) (h : sys_event_queue_receive_wake s i now stopped = some r) :
    waiters_step stopped s r.2 := by
  unfold sys_event_queue_receive_wake at h
  cases hf : s.receivers[i]? with
  | none => simp [hf] at h
  | some f =>
    simp only [hf] at h
    cases hq : s.heap[f.queue]? with
    | none => simp [hq] at h
    | some q =>
      simp only [hq] at h
      have hcount : ∀ b, parked { set_queue s f.queue q with receivers := s.receivers.eraseIdx i } b
          + (if f.queue = b then 1 else 0) = parked s b := by
        intro b
        have := countP_eraseIdx (fun g : receive_frame => decide (g.queue = b)) s.receivers i f hf
        simpa [parked] using this
      have hleave : ∀ (q1 : event_queue_t) (ab : Bool),
          (q1.waiters = q.waiters - 1 ∨ (ab = true ∧ q1.waiters = q.waiters)) →
          waiters_step ab s { set_queue s f.queue q1 with receivers := s.receivers.eraseIdx i } := by
        intro q1 ab hw
        have hcount1 : ∀ b,
            parked { set_queue s f.queue q1 with receivers := s.receivers.eraseIdx i } b
              + (if f.queue = b then 1 else 0) = parked s b := hcount
        refine waiters_step_update ab hq rfl ?_ ?_ ?_
        · intro g hg
          exact Or.inl (List.mem_of_mem_eraseIdx hg)
        · intro b hb
          have := hcount1 b
          have hne : ¬ (f.queue = b) := fun e => hb e.symm
          simpa [hne] using this
        · have := hcount1 f.queue
          rw [if_pos rfl] at this
          rcases hw with hw | ⟨hab, hw⟩
          · left
            omega
          · right
            exact ⟨hab, by omega⟩
      have hcases : q.events = [] ∨ ∃ e rest, q.events = e :: rest := by
        cases q.events with
        | nil => exact Or.inl rfl
        | cons e rest => exact Or.inr ⟨e, rest, rfl⟩
      rcases hcases with hev | ⟨e, rest, hev⟩
      · rw [receive_iter_nil q f.timeout f.start_time now stopped hev] at h
        by_cases hc : q.cancelled = true
        · rw [if_pos hc] at h
          simp only [Option.some.injEq] at h
          subst h
          exact hleave _ _ (Or.inl rfl)
        · rw [if_neg hc] at h
          by_cases ht : f.timeout ≠ 0 ∧ u64_sub now f.start_time > f.timeout
          · rw [if_pos ht] at h
            simp only [Option.some.injEq] at h
            subst h
            exact hleave _ _ (Or.inl rfl)
          · rw [if_neg ht] at h
            by_cases hs : stopped = true
            · rw [if_pos hs] at h
              simp only [Option.some.injEq] at h
              subst h
              exact hleave _ _ (Or.inr ⟨hs, rfl⟩)
            · rw [if_neg hs] at h
              simp only [Option.some.injEq] at h
              subst h
              exact waiters_step_set _ hq rfl rfl rfl
      · rw [receive_iter_cons q f.timeout f.start_time now stopped e rest hev] at h
        simp only [Option.some.injEq] at h
        subst h
        exact hleave _ _ (Or.inl rfl)

/-- Every step, of an entry point or of a helper, keeps `waiters - parked` of
each queue object, but for a receive call that reads the stop flag as set. -/
theorem waiters_step_step (K : Consts) (pid : Nat) (s : State) (act : Action) :
    waiters_step act.stop_flag s (step K pid s act) := by
  cases act with
  | queue_create attr key size =>
    simp only [step]
    rcases sys_event_queue_create_cases K s 0 attr key size with h | ⟨_, _, _, h⟩ | ⟨_, _, h⟩
    · rw [h]; exact waiters_step_same _ s
    · rw [h]; exact waiters_step_same _ s
    · rw [h]; exact waiters_step_append _ rfl rfl rfl
  | queue_destroy id mode =>
    simp only [step]
    rcases sys_event_queue_destroy_cases K s id mode with ⟨_, h1⟩
      | ⟨a, q, hq, ⟨_, _, h1⟩ | ⟨_, _, h1⟩ | ⟨_, _, h1⟩ | ⟨_, _, h1⟩⟩
    · rw [h1]; exact waiters_step_same _ s
    · rw [h1]; exact waiters_step_same _ s
    · rw [h1]; exact waiters_step_same _ s
    · rw [h1]; exact waiters_step_same _ s
    · rw [h1]
      exact waiters_step_set _ (GetIDData_queue_some hq).2 (destroyed_heap s id a q)
        (destroyed_receivers s id a q) rfl
  | queue_tryreceive id size =>
    simp only [step, sys_event_queue_tryreceive]
    cases hq : GetIDData_queue s id with
    | none => exact waiters_step_same _ s
    | some x =>
      obtain ⟨a, q⟩ := x
      simp only
      by_cases h1 : size < 0
      · rw [if_pos h1]; exact waiters_step_same _ s
      · rw [if_neg h1]
        by_cases h2 : q.type ≠ K.SYS_PPU_QUEUE
        · rw [if_pos h2]; exact waiters_step_same _ s
        · rw [if_neg h2]
          exact waiters_step_set _ (GetIDData_queue_some hq).2 rfl rfl rfl
  | queue_receive id timeout start_time now stopped =>
    exact sys_event_queue_receive_enter_waiters K s id timeout start_time now stopped
  | receive_wake i now stopped =>
    simp only [step]
    cases hr : sys_event_queue_receive_wake s i now stopped with
    | none => exact waiters_step_same _ s
    | some r => exact sys_event_queue_receive_wake_waiters s i now stopped r hr
  | queue_drain id =>
    simp only [step, sys_event_queue_drain]
    cases hq : GetIDData_queue s id with
    | none => exact waiters_step_same _ s
    | some x =>
      obtain ⟨a, q⟩ := x
      exact waiters_step_set _ (GetIDData_queue_some hq).2 rfl rfl rfl
  | port_create port_type name =>
    simp only [step, sys_event_port_create]
    split_ifs
    · exact waiters_step_same _ s
    · exact waiters_step_table _ rfl rfl
  | port_destroy id =>
    simp only [step, sys_event_port_destroy]
    cases hp : GetIDData_port s id with
    | none => exact waiters_step_same _ s
    | some port =>
      simp only
      split_ifs
      all_goals exact waiters_step_table _ rfl rfl
  | port_connect_local eport_id equeue_id =>
    simp only [step, sys_event_port_connect_local]
    cases hp : GetIDData_port s eport_id with
    | none => exact waiters_step_same _ s
    | some port =>
      cases hq : GetIDData_queue s equeue_id with
      | none => exact waiters_step_same _ s
      | some x =>
        obtain ⟨a, q⟩ := x
        simp only
        split_ifs
        all_goals exact waiters_step_table _ rfl rfl
  | port_disconnect id =>
    simp only [step, sys_event_port_disconnect]
    cases hp : GetIDData_port s id with
    | none => exact waiters_step_same _ s
    | some port =>
      cases hl : lock s port.queue with
      | none =>
        simp only [hl]
        exact waiters_step_same _ s
      | some x =>
        simp only [hl]
        exact waiters_step_table _ rfl rfl
  | port_send id data1 data2 data3 =>
    simp only [step]
    cases hp : GetIDData_port s id with
    | none =>
      unfold sys_event_port_send
      simp only [hp]
      exact waiters_step_same _ s
    | some port =>
      cases hl : lock s port.queue with
      | none =>
        unfold sys_event_port_send
        simp only [hp, hl]
        exact waiters_step_same _ s
      | some x =>
        obtain ⟨a, q⟩ := x
        rw [sys_event_port_send_connected pid s id a port q data1 data2 data3 hp hl]
        split_ifs
        · exact waiters_step_same _ s
        · exact waiters_step_set _ (lock_some hl).2.2 rfl rfl rfl
  | helper_queue_create protocol type name key size =>
    simp only [step]
    obtain ⟨h1, h2, _⟩ := event_queue_create_shape s protocol type name key size
    exact waiters_step_append _ h1 h2 rfl
  | helper_port_create name => exact waiters_step_table _ rfl rfl

theorem waiters_ge_run (K : Consts) (pid : Nat) :
    ∀ (as : List Action) (s : State), frames_in_heap s → waiters_ge s →
      frames_in_heap (run K pid s as) ∧ waiters_ge (run K pid s as) := by
  intro as
  induction as with
  | nil => intro s h1 h2; exact ⟨h1, h2⟩
  | cons act rest ih =>
    intro s h1 h2
    obtain ⟨g1, g2⟩ := waiters_inv_step h1 h2 (waiters_step_step K pid s act)
    exact ih _ g1 g2

theorem waiters_eq_ge {s : State} (h : waiters_eq s) : waiters_ge s := by
  intro a q hq
  rw [h a q hq]

theorem waiters_eq_run (K : Consts) (pid : Nat) :
    ∀ (as : List Action) (s : State), frames_in_heap s → waiters_eq s →
      (∀ act ∈ as, act.stop_flag = false) →
      frames_in_heap (run K pid s as) ∧ waiters_eq (run K pid s as) := by
  intro as
  induction as with
  | nil => intro s h1 h2 _; exact ⟨h1, h2⟩
  | cons act rest ih =>
    intro s h1 h2 hall
    have hstep := waiters_step_step K pid s act
    rw [hall act (List.mem_cons_self _ _)] at hstep
    have g1 := (waiters_inv_step h1 (waiters_eq_ge h2) hstep).1
    have g2 := waiters_eq_step h1 h2 hstep
    exact ih _ g1 g2 (fun b hb => hall b (List.mem_cons_of_mem _ hb))

theorem waiters_init : frames_in_heap State.init ∧ waiters_eq State.init := by
  constructor
  · intro f hf
    simp [State.init] at hf
  · intro a q hq
    simp [State.init] at hq

/-- C16, as amended. In every state that steps from the empty system lead to
(each receive call being an entry step and wake-up steps under the lock),
`waiters` of each queue object is at least the number of receive calls inside
the wait loop of that queue, so it is never negative; and it equals that
number when no receive step has read the stop flag as set. -/
theorem waiters_count_invariant (K : Consts) (pid : Nat) (as : List Action) :
    (∀ (a : Nat) (q : event_queue_t), (run K pid State.init as).heap[a]? = some q →
        (parked (run K pid State.init as) a : Int) ≤ q.waiters ∧ 0 ≤ q.waiters)
    ∧ ((∀ act ∈ as, act.stop_flag = false) →
        ∀ (a : Nat) (q : event_queue_t), (run K pid State.init as).heap[a]? = some q →
          q.waiters = (parked (run K pid State.init as) a : Int))
    ∧ (∀ (id a : Nat) (q : event_queue_t),
        GetIDData_queue (run K pid State.init as) id = some (a, q) →
        (parked (run K pid State.init as) a : Int) ≤ q.waiters
        ∧ ((∀ act ∈ as, act.stop_flag = false) →
            q.waiters = (parked (run K pid State.init as) a : Int))) := by
  have hge := (waiters_ge_run K pid as State.init waiters_init.1 (waiters_eq_ge waiters_init.2)).2
  have heq : (∀ act ∈ as, act.stop_flag = false) → waiters_eq (run K pid State.init as) :=
    fun hall => (waiters_eq_run K pid as State.init waiters_init.1 waiters_init.2 hall).2
  refine ⟨?_, ?_, ?_⟩
  · intro a q hq
    have := hge a q hq
    exact ⟨this, by omega⟩
  · intro hall a q hq
    exact heq hall a q hq
  · intro id a q hq
    have hqa := (GetIDData_queue_some hq).2
    exact ⟨hge a q hqa, fun hall => heq hall a q hqa⟩

/-- Witness for C16: one receive call asleep on queue 1 (stop flag not set):
`waiters = 1` and one call is parked on the queue object. -/
theorem waiters_count_invariant_witness :
    GetIDData_queue
        (run K0 1 State.init
          [Action.queue_create ⟨1, 1, 0⟩ 0 2, Action.queue_receive 1 0 0 0 false]) 1
      = some (0, { protocol := 1, type := 1, name := 0, key := 0, size := 2,
                   events := [], waiters := 1, cancelled := false })
    ∧ parked (run K0 1 State.init
          [Action.queue_create ⟨1, 1, 0⟩ 0 2, Action.queue_receive 1 0 0 0 false]) 0 = 1
    ∧ ({ protocol := 1, type := 1, name := 0, key := 0, size := 2,
         events := [], waiters := 1, cancelled := false } : event_queue_t).waiters
      = (parked (run K0 1 State.init
          [Action.queue_create ⟨1, 1, 0⟩ 0 2, Action.queue_receive 1 0 0 0 false]) 0 : Int) :=
  ⟨by decide, by decide,
   ((waiters_count_invariant K0 1
      [Action.queue_create ⟨1, 1, 0⟩ 0 2, Action.queue_receive 1 0 0 0 false]).2.2 1 0
      { protocol := 1, type := 1, name := 0, key := 0, size := 2,
        events := [], waiters := 1, cancelled := false } (by decide)).2 (by decide)⟩

/-- Counterexample to C16 as stated: a receive call on the empty queue 1 that
reads the stop flag as set returns at once without `waiters--`; afterwards no
call is inside the wait loop and `waiters = 1`. -/
theorem waiters_count_counterexample :
    (∀ act ∈ [Action.queue_create ⟨1, 1, 0⟩ 0 2, Action.queue_receive 1 0 0 0 true],
        act.is_syscall = true)
    ∧ (sys_event_queue_receive_enter K0
        (run K0 1 State.init [Action.queue_create ⟨1, 1, 0⟩ 0 2]) 1 0 0 0 true).1
      = .returned CELL_OK none
    ∧ GetIDData_queue
        (run K0 1 State.init
          [Action.queue_create ⟨1, 1, 0⟩ 0 2, Action.queue_receive 1 0 0 0 true]) 1
      = some (0, { protocol := 1, type := 1, name := 0, key := 0, size := 2,
                   events := [], waiters := 1, cancelled := false })
    ∧ (run K0 1 State.init
          [Action.queue_create ⟨1, 1, 0⟩ 0 2, Action.queue_receive 1 0 0 0 true]).receivers = []
    ∧ parked (run K0 1 State.init
          [Action.queue_create ⟨1, 1, 0⟩ 0 2, Action.queue_receive 1 0 0 0 true]) 0 = 0 := by
  decide

/-! ## Owners of queue objects, and cancellation -/

theorem live_inv_init : live_inv State.init := by
  refine ⟨?_, ?_, ?_, ?_⟩
  · intro id a hm; simp [State.init] at hm
  · intro id1 id2 a hm; simp [State.init] at hm
  · intro id a q hm; simp [State.init] at hm
  · intro k b hm; simp [State.init] at hm

/-- The owner facts carry over to a state with fewer queue entries in the ID
table and the same queue objects and registry. -/
theorem live_inv_table {s s1 : State} (hinv : live_inv s)
    (hsub : ∀ id a, (id, ID.TYPE_EVENT_QUEUE a) ∈ s1.m_id_map →
      (id, ID.TYPE_EVENT_QUEUE a) ∈ s.m_id_map)
    (hh : s1.heap = s.heap) (he : s1.eq_map = s.eq_map) : live_inv s1 := by
  obtain ⟨h1, h2, h3, h4⟩ := hinv
  refine ⟨?_, ?_, ?_, ?_⟩
  · intro id a hm
    rw [hh]
    exact h1 id a (hsub id a hm)
  · intro id1 id2 a hm1 hm2
    exact h2 id1 id2 a (hsub id1 a hm1) (hsub id2 a hm2)
  · intro id a q hm hq
    rw [hh] at hq
    exact h3 id a q (hsub id a hm) hq
  · intro k b hm
    rw [he] at hm
    rw [hh]
    exact h4 k b hm

/-- The owner facts carry over when a queue object is replaced by one with the
same key and the same `cancelled`. -/
theorem live_inv_update {s s1 : State} {a : Nat} {q q1 : event_queue_t} (hinv : live_inv s)
    (hq : s.heap[a]? = some q) (hh : s1.heap = s.heap.set a q1) (hm : s1.m_id_map = s.m_id_map)
    (he : s1.eq_map = s.eq_map) (hk : q1.key = q.key) (hc : q1.cancelled = q.cancelled) :
    live_inv s1 := by
  obtain ⟨h1, h2, h3, h4⟩ := hinv
  refine ⟨?_, ?_, ?_, ?_⟩
  · intro id b hb
    rw [hh, List.length_set]
    rw [hm] at hb
    exact h1 id b hb
  · intro id1 id2 b hb1 hb2
    rw [hm] at hb1 hb2
    exact h2 id1 id2 b hb1 hb2
  · intro id b x hb hx
    rw [hm] at hb
    rw [hh] at hx
    rcases heap_get_set hq hx with ⟨hba, hxq⟩ | ⟨_, hx0⟩
    · subst hba
      subst hxq
      rw [hc]
      exact h3 id b q hb hq
    · exact h3 id b x hb hx0
  · intro k b hb
    rw [he] at hb
    obtain ⟨hk0, qb, hqb, hkb⟩ := h4 k b hb
    refine ⟨hk0, ?_⟩
    rw [hh]
    by_cases hba : a = b
    · subst hba
      rw [hq] at hqb
      cases hqb
      exact ⟨q1, List.getElem?_set_self (heap_lt_of_get hq), by rw [hk]; exact hkb⟩
    · exact ⟨qb, by rw [List.getElem?_set_ne hba]; exact hqb, hkb⟩

/-- The owner facts carry over when a new queue object gets a new id. -/
theorem live_inv_append {s s1 : State} {obj : event_queue_t} {c : Nat} (hinv : live_inv s)
    (hh : s1.heap = s.heap ++ [obj])
    (hm : s1.m_id_map = (c, ID.TYPE_EVENT_QUEUE s.heap.length) :: s.m_id_map)
    (he : s1.eq_map = s.eq_map
      ∨ (obj.key ≠ 0 ∧ s1.eq_map = (obj.key, s.heap.length) :: s.eq_map))
    (hc : obj.cancelled = false) : live_inv s1 := by
  obtain ⟨h1, h2, h3, h4⟩ := hinv
  have hmem : ∀ id b, (id, ID.TYPE_EVENT_QUEUE b) ∈ s1.m_id_map →
      (id = c ∧ b = s.heap.length) ∨ (id, ID.TYPE_EVENT_QUEUE b) ∈ s.m_id_map := by
    intro id b hb
    rw [hm] at hb
    simpa using hb
  have hnew : s1.heap[s.heap.length]? = some obj := by
    rw [hh]
    exact List.getElem?_concat_length _ _
  have hold : ∀ b, b < s.heap.length → s1.heap[b]? = s.heap[b]? := by
    intro b hb
    rw [hh, List.getElem?_append_left hb]
  refine ⟨?_, ?_, ?_, ?_⟩
  · intro id b hb
    rw [hh]
    simp only [List.length_append, List.length_cons, List.length_nil]
    rcases hmem id b hb with ⟨_, hb1⟩ | hb1
    · omega
    · have := h1 id b hb1
      omega
  · intro id1 id2 b hb1 hb2
    rcases hmem id1 b hb1 with ⟨hi1, ha1⟩ | hb1
    · rcases hmem id2 b hb2 with ⟨hi2, _⟩ | hb2
      · rw [hi1, hi2]
      · have := h1 id2 b hb2
        omega
    · rcases hmem id2 b hb2 with ⟨_, ha2⟩ | hb2
      · have := h1 id1 b hb1
        omega
      · exact h2 id1 id2 b hb1 hb2
  · intro id b x hb hx
    rcases hmem id b hb with ⟨_, hb1⟩ | hb1
    · subst hb1
      rw [hnew] at hx
      cases hx
      exact hc
    · rw [hold b (h1 id b hb1)] at hx
      exact h3 id b x hb1 hx
  · intro k b hb
    have hkeep : ∀ k b, (k, b) ∈ s.eq_map →
        k ≠ 0 ∧ ∃ x : event_queue_t, s1.heap[b]? = some x ∧ x.key = k := by
      intro k b hb
      obtain ⟨hk0, qb, hqb, hkb⟩ := h4 k b hb
      exact ⟨hk0, qb, by rw [hold b (heap_lt_of_get hqb)]; exact hqb, hkb⟩
    rcases he with he | ⟨hk0, he⟩
    · rw [he] at hb
      exact hkeep k b hb
    · rw [he] at hb
      simp only [List.mem_cons, Prod.mk.injEq] at hb
      rcases hb with ⟨hk, hb1⟩ | hb
      · subst hk
        subst hb1
        exact ⟨hk0, obj, hnew, rfl⟩
      · exact hkeep k b hb

theorem destroyed_eq_map_sub (s : State) (equeue_id a : Nat) (q : event_queue_t) :
    ∀ e ∈ (destroyed s equeue_id a q).eq_map, e ∈ s.eq_map ∧ (q.key ≠ 0 → e.1 ≠ q.key) := by
  intro e he
  unfold destroyed UnregisterKey at he
  by_cases hk : q.key = 0
  · rw [if_pos hk] at he
    exact ⟨he, fun h => absurd hk h⟩
  · rw [if_neg hk] at he
    simp only [RemoveID, set_queue, List.mem_filter] at he
    exact ⟨he.1, fun _ => by simpa using he.2⟩

theorem live_inv_effect {K : Consts} {s s1 : State} (hinv : live_inv s) (h : Effect K s s1) :
    live_inv s1 := by
  cases h with
  | same => exact hinv
  | heap_update a q q1 receivers hq hstep =>
    exact live_inv_update hinv hq rfl rfl rfl hstep.2.2.2.1 hstep.2.2.2.2.2.1
  | new_port p hp1 hp2 =>
    refine live_inv_table hinv ?_
      (show (GetNewID s (ID.TYPE_EVENT_PORT p)).2.heap = s.heap from rfl)
      (show (GetNewID s (ID.TYPE_EVENT_PORT p)).2.eq_map = s.eq_map from rfl)
    intro id b hm
    simp only [GetNewID, List.mem_cons] at hm
    rcases hm with hm | hm
    · cases hm
    · exact hm
  | remove_port id p hp =>
    refine live_inv_table hinv ?_ (show (RemoveID s id).heap = s.heap from rfl)
      (show (RemoveID s id).eq_map = s.eq_map from rfl)
    intro id1 b hm
    simp only [RemoveID, List.mem_filter] at hm
    exact hm.1
  | change_port id port p hport hp1 hp2 =>
    refine live_inv_table hinv ?_ (show (set_port s id p).heap = s.heap from rfl)
      (show (set_port s id p).eq_map = s.eq_map from rfl)
    intro id1 b hm
    exact mem_set_port hm
  | create attr key size hs1 hs2 hfree =>
    refine live_inv_append hinv
      (show (created s attr key size).heap
        = s.heap ++ [event_queue_t.new attr.protocol (to_s32 attr.type) attr.name_u64 key size]
        from rfl)
      (show (created s attr key size).m_id_map
        = (s.m_cur_id % 2 ^ 32, ID.TYPE_EVENT_QUEUE s.heap.length) :: s.m_id_map from rfl) ?_ rfl
    by_cases hk : key = 0
    · left
      simp [created, hk]
    · right
      exact ⟨hk, by simp [created, hk, event_queue_t.new]⟩
  | destroy equeue_id a q hq hc =>
    obtain ⟨hl, hqa⟩ := GetIDData_queue_some hq
    have hmem := lookup_mem _ _ _ hl
    obtain ⟨h1, h2, h3, h4⟩ := hinv
    have hsub : ∀ id b, (id, ID.TYPE_EVENT_QUEUE b) ∈ (destroyed s equeue_id a q).m_id_map →
        (id, ID.TYPE_EVENT_QUEUE b) ∈ s.m_id_map ∧ id ≠ equeue_id := by
      intro id b hm
      rw [(destroyed_table s equeue_id a q).1, List.mem_filter] at hm
      exact ⟨hm.1, by simpa using hm.2⟩
    refine ⟨?_, ?_, ?_, ?_⟩
    · intro id b hm
      rw [destroyed_heap, List.length_set]
      exact h1 id b (hsub id b hm).1
    · intro id1 id2 b hm1 hm2
      exact h2 id1 id2 b (hsub id1 b hm1).1 (hsub id2 b hm2).1
    · intro id b x hm hx
      obtain ⟨hm0, hne⟩ := hsub id b hm
      rw [destroyed_heap] at hx
      rcases heap_get_set hqa hx with ⟨hba, _⟩ | ⟨_, hx0⟩
      · subst hba
        exact absurd (h2 id equeue_id b hm0 hmem) hne
      · exact h3 id b x hm0 hx0
    · intro k b hb
      obtain ⟨hb0, _⟩ := destroyed_eq_map_sub s equeue_id a q (k, b) hb
      obtain ⟨hk0, qb, hqb, hkb⟩ := h4 k b hb0
      refine ⟨hk0, ?_⟩
      rw [destroyed_heap]
      by_cases hba : a = b
      · subst hba
        rw [hqa] at hqb
        cases hqb
        exact ⟨_, List.getElem?_set_self (heap_lt_of_get hqa), hkb⟩
      · exact ⟨qb, by rw [List.getElem?_set_ne hba]; exact hqb, hkb⟩

theorem live_inv_step (K : Consts) (pid : Nat) (s : State) (act : Action) (hinv : live_inv s) :
    live_inv (step K pid s act) := by
  by_cases h : act.is_syscall = true
  · exact live_inv_effect hinv (step_effect K pid s act h)
  · cases act with
    | helper_queue_create protocol type name key size =>
      obtain ⟨h1, _, h3, _, h5⟩ := event_queue_create_shape s protocol type name key size
      exact live_inv_append hinv h1 h3 h5 rfl
    | helper_port_create name =>
      exact live_inv_effect hinv ((Effect.new_port _ rfl rfl : Effect K s _))
    | _ => simp [Action.is_syscall] at h

theorem live_inv_run (K : Consts) (pid : Nat) :
    ∀ (as : List Action) (s : State), live_inv s → live_inv (run K pid s as) := by
  intro as
  induction as with
  | nil => intro s h; exact h
  | cons act rest ih =>
    intro s h
    exact ih _ (live_inv_step K pid s act h)

/-- A cancelled queue object stays allocated and cancelled under the effects
of the entry points. -/
theorem cancelled_kept_effect {K : Consts} {s s1 : State} (h : Effect K s s1) (a : Nat)
    (q : event_queue_t) (hq : s.heap[a]? = some q) (hc : q.cancelled = true) :
    ∃ q1 : event_queue_t, s1.heap[a]? = some q1 ∧ q1.cancelled = true := by
  cases h with
  | same => exact ⟨q, hq, hc⟩
  | heap_update b qb q1 receivers hqb hstep =>
    by_cases hba : b = a
    · subst hba
      rw [hq] at hqb
      cases hqb
      exact ⟨q1, List.getElem?_set_self (heap_lt_of_get hq), by rw [hstep.2.2.2.2.2.1]; exact hc⟩
    · exact ⟨q, by simp only [set_queue]; rw [List.getElem?_set_ne hba]; exact hq, hc⟩
  | new_port p hp1 hp2 => exact ⟨q, hq, hc⟩
  | remove_port id p hp => exact ⟨q, hq, hc⟩
  | change_port id port p hport hp1 hp2 => exact ⟨q, hq, hc⟩
  | create attr key size hs1 hs2 hfree =>
    refine ⟨q, ?_, hc⟩
    simp only [created]
    rw [List.getElem?_append_left (heap_lt_of_get hq)]
    exact hq
  | destroy equeue_id b qb hqb hcb =>
    rw [destroyed_heap]
    by_cases hba : b = a
    · subst hba
      exact ⟨_, List.getElem?_set_self (heap_lt_of_get hq), rfl⟩
    · exact ⟨q, by rw [List.getElem?_set_ne hba]; exact hq, hc⟩

theorem cancelled_kept_step (K : Consts) (pid : Nat) (s : State) (act : Action) (a : Nat)
    (q : event_queue_t) (hq : s.heap[a]? = some q) (hc : q.cancelled = true) :
    ∃ q1 : event_queue_t, (step K pid s act).heap[a]? = some q1 ∧ q1.cancelled = true := by
  by_cases h : act.is_syscall = true
  · exact cancelled_kept_effect (step_effect K pid s act h) a q hq hc
  · cases act with
    | helper_queue_create protocol type name key size =>
      obtain ⟨h1, _⟩ := event_queue_create_shape s protocol type name key size
      refine ⟨q, ?_, hc⟩
      simp only [step]
      rw [h1, List.getElem?_append_left (heap_lt_of_get hq)]
      exact hq
    | helper_port_create name => exact ⟨q, hq, hc⟩
    | _ => simp [Action.is_syscall] at h

theorem cancelled_kept_run (K : Consts) (pid : Nat) (a : Nat) :
    ∀ (as : List Action) (s : State) (q : event_queue_t), s.heap[a]? = some q →
      q.cancelled = true →
      ∃ q1 : event_queue_t, (run K pid s as).heap[a]? = some q1 ∧ q1.cancelled = true := by
  intro as
  induction as with
  | nil => intro s q hq hc; exact ⟨q, hq, hc⟩
  | cons act rest ih =>
    intro s q hq hc
    obtain ⟨q1, hq1, hc1⟩ := cancelled_kept_step K pid s act a q hq hc
    exact ih _ q1 hq1 hc1

theorem live_not_cancelled_run (K : Consts) (pid : Nat) (as : List Action) (id a : Nat)
    (q : event_queue_t) (hq : GetIDData_queue (run K pid State.init as) id = some (a, q)) :
    q.cancelled = false := by
  obtain ⟨_, _, h3, _⟩ := live_inv_run K pid as State.init live_inv_init
  obtain ⟨hl, hqa⟩ := GetIDData_queue_some hq
  exact h3 id a q (lookup_mem _ _ _ hl) hqa

/-- C20. The double-cancel branch is unreachable. In every state that steps
from the empty system lead to (entry points, and the helpers as well), every
queue that resolves through the ID table has `cancelled = false`; so
`sys_event_queue_destroy` never takes its `throw`, for any id and mode; and no
step turns `cancelled` of a queue object from true back to false, so each
flag goes from false to true at most once. -/
theorem double_cancel_unreachable (K : Consts) (pid : Nat) (as : List Action) :
    (∀ (id a : Nat) (q : event_queue_t),
        GetIDData_queue (run K pid State.init as) id = some (a, q) → q.cancelled = false)
    ∧ (∀ (id : Nat) (mode : Int) (e : String),
        sys_event_queue_destroy K (run K pid State.init as) id mode ≠ .error e)
    ∧ (∀ (act : Action) (a : Nat) (q q1 : event_queue_t),
        (run K pid State.init as).heap[a]? = some q →
        (step K pid (run K pid State.init as) act).heap[a]? = some q1 →
        q.cancelled = true → q1.cancelled = true) := by
  refine ⟨live_not_cancelled_run K pid as, ?_, ?_⟩
  · intro id mode e herr
    rcases sys_event_queue_destroy_cases K (run K pid State.init as) id mode with ⟨_, h1⟩
      | ⟨a, q, hq, ⟨_, _, h1⟩ | ⟨_, _, h1⟩ | ⟨_, hc, _⟩ | ⟨_, _, h1⟩⟩
    · rw [h1] at herr; cases herr
    · rw [h1] at herr; cases herr
    · rw [h1] at herr; cases herr
    · rw [live_not_cancelled_run K pid as id a q hq] at hc
      cases hc
    · rw [h1] at herr; cases herr
  · intro act a q q1 hq hq1 hc
    obtain ⟨q2, hq2, hc2⟩ := cancelled_kept_step K pid _ act a q hq hc
    rw [hq1] at hq2
    cases hq2
    exact hc2

/-- Witness for C20: queue 1 after creation is not cancelled, and a destroy
after a destroy returns `CELL_ESRCH` instead of throwing. -/
theorem double_cancel_unreachable_witness :
    ({ protocol := 1, type := 1, name := 0, key := 0, size := 2,
       events := [], waiters := 0, cancelled := false } : event_queue_t).cancelled = false
    ∧ sys_event_queue_destroy K0
        (run K0 1 State.init [Action.queue_create ⟨1, 1, 0⟩ 0 2, Action.queue_destroy 1 1]) 1 1
      ≠ .error "sys_event_queue_destroy" :=
  ⟨(double_cancel_unreachable K0 1 [Action.queue_create ⟨1, 1, 0⟩ 0 2]).1 1 0
      { protocol := 1, type := 1, name := 0, key := 0, size := 2,
        events := [], waiters := 0, cancelled := false } (by decide),
   (double_cancel_unreachable K0 1
      [Action.queue_create ⟨1, 1, 0⟩ 0 2, Action.queue_destroy 1 1]).2.1 1 1
      "sys_event_queue_destroy"⟩

/-- C11, as amended. In a state that steps from the empty system lead to,
`sys_event_queue_destroy` with mode FORCE (FORCE being nonzero) on a queue that
resolves returns `CELL_OK`, whatever `waiters` is, and leaves the suspended
receive calls as they are. After any further steps, a receive call still
suspended on that queue object finds it cancelled: at its next evaluation of
the wait loop it returns `CELL_ECANCELED` (for every clock reading and stop
flag) when no record is pending then, and `CELL_OK` with the front record
when one is. -/
theorem forced_destroy_cancels (K : Consts) (pid : Nat) (s : State) (equeue_id a : Nat)
    (q : event_queue_t) (hreach : ∃ as0, run K pid State.init as0 = s)
    (hq : GetIDData_queue s equeue_id = some (a, q))
    (hforce : K.SYS_EVENT_QUEUE_DESTROY_FORCE ≠ 0) :
    sys_event_queue_destroy K s equeue_id K.SYS_EVENT_QUEUE_DESTROY_FORCE
      = .ok (CELL_OK, destroyed s equeue_id a q)
    ∧ (destroyed s equeue_id a q).receivers = s.receivers
    ∧ ∀ (as : List Action) (i : Nat) (f : receive_frame) (now : Nat) (stopped : Bool),
        (run K pid (destroyed s equeue_id a q) as).receivers[i]? = some f → f.queue = a →
        ∃ q2 : event_queue_t,
          (run K pid (destroyed s equeue_id a q) as).heap[a]? = some q2
          ∧ q2.cancelled = true
          ∧ (q2.events = [] →
              sys_event_queue_receive_wake (run K pid (destroyed s equeue_id a q) as) i now stopped
                = some (.returned CELL_ECANCELED none,
                    { set_queue (run K pid (destroyed s equeue_id a q) as) a
                        { q2 with waiters := q2.waiters - 1 } with
                      receivers :=
                        (run K pid (destroyed s equeue_id a q) as).receivers.eraseIdx i }))
          ∧ (∀ e rest, q2.events = e :: rest →
              sys_event_queue_receive_wake (run K pid (destroyed s equeue_id a q) as) i now stopped
                = some (.returned CELL_OK (some e),
                    { set_queue (run K pid (destroyed s equeue_id a q) as) a
                        { q2 with events := rest, waiters := q2.waiters - 1 } with
                      receivers :=
                        (run K pid (destroyed s equeue_id a q) as).receivers.eraseIdx i })) := by
  obtain ⟨as0, hrun⟩ := hreach
  have hc : q.cancelled = false := by
    subst hrun
    exact live_not_cancelled_run K pid as0 equeue_id a q hq
  have hqa := (GetIDData_queue_some hq).2
  refine ⟨?_, destroyed_receivers s equeue_id a q, ?_⟩
  · rcases sys_event_queue_destroy_cases K s equeue_id K.SYS_EVENT_QUEUE_DESTROY_FORCE with ⟨hn, _⟩
      | ⟨a1, q1, hq1, ⟨_, h2, _⟩ | ⟨h1, _, _⟩ | ⟨_, hc1, _⟩ | ⟨_, _, h⟩⟩
    · rw [hn] at hq; cases hq
    · exact absurd rfl h2
    · exact absurd h1 hforce
    · rw [hq] at hq1
      cases hq1
      rw [hc] at hc1
      cases hc1
    · rw [hq] at hq1
      cases hq1
      exact h
  · intro as i f now stopped hf hfa
    have h0 : (destroyed s equeue_id a q).heap[a]? = some { q with cancelled := true } := by
      rw [destroyed_heap]
      exact List.getElem?_set_self (heap_lt_of_get hqa)
    obtain ⟨q2, hq2, hc2⟩ := cancelled_kept_run K pid a as _ _ h0 rfl
    refine ⟨q2, hq2, hc2, ?_, ?_⟩
    · intro hev
      unfold sys_event_queue_receive_wake
      simp only [hf, hfa, hq2]
      rw [receive_iter_nil q2 f.timeout f.start_time now stopped hev, if_pos hc2]
    · intro e rest hev
      unfold sys_event_queue_receive_wake
      simp only [hf, hfa, hq2]
      rw [receive_iter_cons q2 f.timeout f.start_time now stopped e rest hev]

/-- Witness for C11: a receive call asleep on the empty queue 1; the forced
destroy returns `CELL_OK` and the call, woken with the stop flag set and any
clock, returns `CELL_ECANCELED`. -/
theorem forced_destroy_cancels_witness :
    sys_event_queue_destroy K0
        (run K0 1 State.init
          [Action.queue_create ⟨1, 1, 0⟩ 0 2, Action.queue_receive 1 0 0 0 false]) 1 1
      = .ok (CELL_OK,
          destroyed
            (run K0 1 State.init
              [Action.queue_create ⟨1, 1, 0⟩ 0 2, Action.queue_receive 1 0 0 0 false]) 1 0
            { protocol := 1, type := 1, name := 0, key := 0, size := 2,
              events := [], waiters := 1, cancelled := false })
    ∧ (sys_event_queue_receive_wake
        (destroyed
          (run K0 1 State.init
            [Action.queue_create ⟨1, 1, 0⟩ 0 2, Action.queue_receive 1 0 0 0 false]) 1 0
          { protocol := 1, type := 1, name := 0, key := 0, size := 2,
            events := [], waiters := 1, cancelled := false }) 0 5 true).map Prod.fst
      = some (.returned CELL_ECANCELED none) :=
  ⟨(forced_destroy_cancels K0 1
      (run K0 1 State.init
        [Action.queue_create ⟨1, 1, 0⟩ 0 2, Action.queue_receive 1 0 0 0 false]) 1 0
      { protocol := 1, type := 1, name := 0, key := 0, size := 2,
        events := [], waiters := 1, cancelled := false }
      ⟨[Action.queue_create ⟨1, 1, 0⟩ 0 2, Action.queue_receive 1 0 0 0 false], rfl⟩
      (by decide) (by decide)).1,
   by decide⟩

/-- Counterexample to C11 as stated: a receive call goes to sleep on the empty
queue 1, a send through port 2 then pushes `(7, 8, 9)`, and the queue is
destroyed with mode FORCE before the call wakes. One call is blocked
(`waiters = 1`), the destroy returns `CELL_OK`, and the call's next evaluation
of the wait loop returns `CELL_OK` with the record, not `CELL_ECANCELED`. -/
theorem forced_destroy_counterexample :
    (run K0 1 State.init
        [Action.queue_create ⟨1, 1, 0⟩ 0 2, Action.port_create 1 0, Action.port_connect_local 2 1,
         Action.queue_receive 1 0 0 0 false, Action.port_send 2 7 8 9]).receivers
      = [{ queue := 0, timeout := 0, start_time := 0 }]
    ∧ GetIDData_queue
        (run K0 1 State.init
          [Action.queue_create ⟨1, 1, 0⟩ 0 2, Action.port_create 1 0, Action.port_connect_local 2 1,
           Action.queue_receive 1 0 0 0 false, Action.port_send 2 7 8 9]) 1
      = some (0, { protocol := 1, type := 1, name := 0, key := 0, size := 2,
                   events := [⟨2 ^ 32 + 2, 7, 8, 9⟩], waiters := 1, cancelled := false })
    ∧ sys_event_queue_destroy K0
        (run K0 1 State.init
          [Action.queue_create ⟨1, 1, 0⟩ 0 2, Action.port_create 1 0, Action.port_connect_local 2 1,
           Action.queue_receive 1 0 0 0 false, Action.port_send 2 7 8 9]) 1 1
      = .ok (CELL_OK,
          destroyed
            (run K0 1 State.init
              [Action.queue_create ⟨1, 1, 0⟩ 0 2, Action.port_create 1 0,
               Action.port_connect_local 2 1, Action.queue_receive 1 0 0 0 false,
               Action.port_send 2 7 8 9]) 1 0
            { protocol := 1, type := 1, name := 0, key := 0, size := 2,
              events := [⟨2 ^ 32 + 2, 7, 8, 9⟩], waiters := 1, cancelled := false })
    ∧ (sys_event_queue_receive_wake
        (destroyed
          (run K0 1 State.init
            [Action.queue_create ⟨1, 1, 0⟩ 0 2, Action.port_create 1 0,
             Action.port_connect_local 2 1, Action.queue_receive 1 0 0 0 false,
             Action.port_send 2 7 8 9]) 1 0
          { protocol := 1, type := 1, name := 0, key := 0, size := 2,
            events := [⟨2 ^ 32 + 2, 7, 8, 9⟩], waiters := 1, cancelled := false }) 0 0 false).map
          Prod.fst
      = some (.returned CELL_OK (some ⟨2 ^ 32 + 2, 7, 8, 9⟩)) := by
  refine ⟨by decide, by decide, ?_, by decide⟩
  rfl

/-! ## Stale connections -/

theorem lookup_filter_ne_id (l : List (Nat × ID)) (k k0 : Nat) (h : k ≠ k0) :
    (l.filter (fun e => decide (e.1 ≠ k0))).lookup k = l.lookup k := by
  induction l with
  | nil => rfl
  | cons e rest ih =>
    obtain ⟨k1, v1⟩ := e
    by_cases h1 : k1 = k0
    · subst h1
      have hb : (k == k1) = false := by simpa using h
      rw [List.filter_cons, if_neg (by simp), ih, List.lookup_cons, hb]
    · rw [List.filter_cons, if_pos (by simpa using h1), List.lookup_cons, List.lookup_cons, ih]

/-- After a successful destroy, in a state where the owner facts hold, the
queue object has no owner but the receive calls suspended on it. -/
theorem use_count_destroyed {s : State} {equeue_id a : Nat} {q : event_queue_t}
    (hinv : live_inv s) (hq : GetIDData_queue s equeue_id = some (a, q)) :
    use_count (destroyed s equeue_id a q) a = parked s a := by
  obtain ⟨_, h2, _, h4⟩ := hinv
  obtain ⟨hl, hqa⟩ := GetIDData_queue_some hq
  have hmem := lookup_mem _ _ _ hl
  have h1 : (destroyed s equeue_id a q).m_id_map.countP
      (fun e => decide (e.2 = ID.TYPE_EVENT_QUEUE a)) = 0 := by
    rw [List.countP_eq_zero]
    intro e he
    rw [(destroyed_table s equeue_id a q).1, List.mem_filter] at he
    simp only [decide_eq_true_eq]
    intro hea
    have hmem1 : (e.1, ID.TYPE_EVENT_QUEUE a) ∈ s.m_id_map := by
      rw [← hea]
      exact he.1
    have := h2 e.1 equeue_id a hmem1 hmem
    simp [this] at he
  have h3 : (destroyed s equeue_id a q).eq_map.countP (fun e => decide (e.2 = a)) = 0 := by
    rw [List.countP_eq_zero]
    intro e he
    obtain ⟨he0, hne⟩ := destroyed_eq_map_sub s equeue_id a q e he
    simp only [decide_eq_true_eq]
    intro hea
    obtain ⟨hk0, qb, hqb, hkb⟩ := h4 e.1 e.2 he0
    rw [hea, hqa] at hqb
    cases hqb
    exact hne (by rw [hkb]; exact hk0) hkb.symm
  unfold use_count
  rw [h1, h3, destroyed_receivers]
  simp [parked]

/-- The three port calls on a port whose queue reference does not resolve. -/
theorem port_calls_not_connected (pid : Nat) (s : State) (eport_id : Nat) (port : event_port_t)
    (hp : GetIDData_port s eport_id = some port) (hexp : expired s port.queue = true) :
    (∀ data1 data2 data3,
        sys_event_port_send pid s eport_id data1 data2 data3 = (CELL_ENOTCONN, s))
    ∧ sys_event_port_disconnect s eport_id = (CELL_ENOTCONN, s)
    ∧ sys_event_port_destroy s eport_id = (CELL_OK, RemoveID s eport_id) := by
  have hlock : lock s port.queue = none := by
    unfold lock
    cases hw : port.queue with
    | none => rfl
    | some b =>
      rw [hw] at hexp
      simp [hexp]
  refine ⟨?_, ?_, ?_⟩
  · intro data1 data2 data3
    unfold sys_event_port_send
    simp only [hp, hlock]
  · unfold sys_event_port_disconnect
    simp only [hp, hlock]
  · unfold sys_event_port_destroy
    simp only [hp, hexp, not_true_eq_false, if_false]

/-! ## A destroyed queue stays without owner in the tables -/

theorem orphan_destroyed {s : State} {equeue_id a : Nat} {q : event_queue_t}
    (hinv : live_inv s) (hq : GetIDData_queue s equeue_id = some (a, q)) :
    orphan (destroyed s equeue_id a q) a := by
  obtain ⟨_, h2, _, h4⟩ := hinv
  obtain ⟨hl, hqa⟩ := GetIDData_queue_some hq
  have hmem := lookup_mem _ _ _ hl
  refine ⟨?_, ?_, ?_⟩
  · rw [destroyed_heap, List.length_set]
    exact heap_lt_of_get hqa
  · intro id he
    rw [(destroyed_table s equeue_id a q).1, List.mem_filter] at he
    have := h2 id equeue_id a he.1 hmem
    simp [this] at he
  · intro k he
    obtain ⟨he0, hne⟩ := destroyed_eq_map_sub s equeue_id a q (k, a) he
    obtain ⟨hk0, qb, hqb, hkb⟩ := h4 k a he0
    rw [hqa] at hqb
    cases hqb
    exact hne (by rw [hkb]; exact hk0) hkb.symm

theorem orphan_of_tables {s s1 : State} {a : Nat} (ho : orphan s a)
    (hlen : s.heap.length ≤ s1.heap.length)
    (ht : ∀ id, (id, ID.TYPE_EVENT_QUEUE a) ∈ s1.m_id_map → (id, ID.TYPE_EVENT_QUEUE a) ∈ s.m_id_map)
    (he : ∀ k, (k, a) ∈ s1.eq_map → (k, a) ∈ s.eq_map) : orphan s1 a :=
  ⟨Nat.lt_of_lt_of_le ho.1 hlen, fun id h => ho.2.1 id (ht id h), fun k h => ho.2.2 k (he k h)⟩

theorem orphan_effect {K : Consts} {s s1 : State} {a : Nat} (h : Effect K s s1)
    (ho : orphan s a) : orphan s1 a := by
  cases h with
  | same => exact ho
  | heap_update b q q1 receivers hq hstep =>
    refine orphan_of_tables ho ?_ (fun id h => h) (fun k h => h)
    simp [set_queue]
  | new_port p hp1 hp2 =>
    refine orphan_of_tables ho (Nat.le_refl _) ?_ (fun k h => h)
    intro id hm
    simp only [GetNewID, List.mem_cons, Prod.mk.injEq] at hm
    rcases hm with ⟨_, hm⟩ | hm
    · cases hm
    · exact hm
  | remove_port id p hp =>
    refine orphan_of_tables ho (Nat.le_refl _) ?_ (fun k h => h)
    intro id1 hm
    simp only [RemoveID, List.mem_filter] at hm
    exact hm.1
  | change_port id port p hport hp1 hp2 =>
    exact orphan_of_tables ho (Nat.le_refl _) (fun id1 hm => mem_set_port hm) (fun k h => h)
  | create attr key size hs1 hs2 hfree =>
    have hne : a ≠ s.heap.length := Nat.ne_of_lt ho.1
    refine orphan_of_tables ho ?_ ?_ ?_
    · simp [created]
    · intro id hm
      simp only [created, List.mem_cons, Prod.mk.injEq, ID.TYPE_EVENT_QUEUE.injEq] at hm
      rcases hm with ⟨_, hm⟩ | hm
      · exact absurd hm hne
      · exact hm
    · intro k hm
      simp only [created] at hm
      by_cases hk : key = 0
      · rw [if_pos hk] at hm
        exact hm
      · rw [if_neg hk] at hm
        simp only [List.mem_cons, Prod.mk.injEq] at hm
        rcases hm with ⟨_, hm⟩ | hm
        · exact absurd hm hne
        · exact hm
  | destroy equeue_id b q hq hc =>
    refine orphan_of_tables ho ?_ ?_ ?_
    · rw [destroyed_heap, List.length_set]
    · intro id hm
      rw [(destroyed_table s equeue_id b q).1, List.mem_filter] at hm
      exact hm.1
    · intro k hm
      exact (destroyed_eq_map_sub s equeue_id b q (k, a) hm).1

theorem orphan_step (K : Consts) (pid : Nat) (s : State) (act : Action) (a : Nat)
    (ho : orphan s a) : orphan (step K pid s act) a := by
  by_cases h : act.is_syscall = true
  · exact orphan_effect (step_effect K pid s act h) ho
  · cases act with
    | helper_queue_create protocol type name key size =>
      obtain ⟨h1, _, h3, _, h5⟩ := event_queue_create_shape s protocol type name key size
      have hne : a ≠ s.heap.length := Nat.ne_of_lt ho.1
      refine orphan_of_tables ho ?_ ?_ ?_
      · simp only [step]
        rw [h1]
        simp
      · intro id hm
        simp only [step] at hm
        rw [h3] at hm
        simp only [List.mem_cons, Prod.mk.injEq, ID.TYPE_EVENT_QUEUE.injEq] at hm
        rcases hm with ⟨_, hm⟩ | hm
        · exact absurd hm hne
        · exact hm
      · intro k hm
        simp only [step] at hm
        rcases h5 with h5 | ⟨_, h5⟩
        · rw [h5] at hm
          exact hm
        · rw [h5] at hm
          simp only [List.mem_cons, Prod.mk.injEq] at hm
          rcases hm with ⟨_, hm⟩ | hm
          · exact absurd hm hne
          · exact hm
    | helper_port_create name =>
      exact orphan_effect ((Effect.new_port _ rfl rfl : Effect K s _)) ho
    | _ => simp [Action.is_syscall] at h

/-- A queue object without owner in the tables is owned by the suspended
receive calls alone. -/
theorem use_count_orphan {s : State} {a : Nat} (ho : orphan s a) :
    use_count s a = parked s a := by
  have h1 : s.m_id_map.countP (fun e => decide (e.2 = ID.TYPE_EVENT_QUEUE a)) = 0 := by
    rw [List.countP_eq_zero]
    intro e he
    simp only [decide_eq_true_eq]
    intro hea
    exact ho.2.1 e.1 (by rw [← hea]; exact he)
  have h3 : s.eq_map.countP (fun e => decide (e.2 = a)) = 0 := by
    rw [List.countP_eq_zero]
    intro e he
    simp only [decide_eq_true_eq]
    intro hea
    exact ho.2.2 e.1 (by rw [← hea]; exact he)
  unfold use_count
  rw [h1, h3]
  simp [parked]

/-- What a step does to the suspended receive calls: nothing, or one of them
returns, or a call on a queue that resolves through the ID table goes to
sleep. -/
theorem receivers_step (K : Consts) (pid : Nat) (s : State) (act : Action) :
    (step K pid s act).receivers = s.receivers
    ∨ (∃ i, (step K pid s act).receivers = s.receivers.eraseIdx i)
    ∨ (∃ (id : Nat) (q : event_queue_t) (f : receive_frame),
        GetIDData_queue s id = some (f.queue, q)
        ∧ (step K pid s act).receivers = s.receivers ++ [f]) := by
  cases act with
  | queue_create attr key size =>
    left
    simp only [step]
    rcases sys_event_queue_create_cases K s 0 attr key size with h | ⟨_, _, _, h⟩ | ⟨_, _, h⟩
    · rw [h]
    · rw [h]
    · rw [h]; rfl
  | queue_destroy id mode =>
    left
    simp only [step]
    rcases sys_event_queue_destroy_cases K s id mode with ⟨_, h1⟩
      | ⟨a, q, hq, ⟨_, _, h1⟩ | ⟨_, _, h1⟩ | ⟨_, _, h1⟩ | ⟨_, _, h1⟩⟩
    · rw [h1]
    · rw [h1]
    · rw [h1]
    · rw [h1]
    · rw [h1]
      exact destroyed_receivers s id a q
  | queue_tryreceive id size =>
    left
    simp only [step, sys_event_queue_tryreceive]
    cases hq : GetIDData_queue s id with
    | none => rfl
    | some x =>
      obtain ⟨a, q⟩ := x
      simp only
      split_ifs <;> rfl
  | queue_receive id timeout start_time now stopped =>
    simp only [step]
    unfold sys_event_queue_receive_enter
    cases hq : GetIDData_queue s id with
    | none => exact Or.inl rfl
    | some x =>
      obtain ⟨a, q⟩ := x
      simp only
      by_cases hty : q.type ≠ K.SYS_PPU_QUEUE
      · rw [if_pos hty]
        exact Or.inl rfl
      · rw [if_neg hty]
        cases hr : receive_iter { q with waiters := q.waiters + 1 } timeout start_time now stopped with
        | mk out q1 =>
          cases out with
          | returned code event => exact Or.inl rfl
          | waiting =>
            right
            right
            exact ⟨id, q, { queue := a, timeout := timeout, start_time := start_time }, hq, rfl⟩
  | receive_wake i now stopped =>
    simp only [step]
    unfold sys_event_queue_receive_wake
    cases hf : s.receivers[i]? with
    | none => exact Or.inl rfl
    | some f =>
      simp only
      cases hq : s.heap[f.queue]? with
      | none => exact Or.inl rfl
      | some q =>
        simp only
        cases hr : receive_iter q f.timeout f.start_time now stopped with
        | mk out q1 =>
          cases out with
          | returned code event => exact Or.inr (Or.inl ⟨i, rfl⟩)
          | waiting => exact Or.inl rfl
  | queue_drain id =>
    left
    simp only [step, sys_event_queue_drain]
    cases hq : GetIDData_queue s id with
    | none => rfl
    | some x => rfl
  | port_create port_type name =>
    left
    simp only [step, sys_event_port_create]
    split_ifs <;> rfl
  | port_destroy id =>
    left
    simp only [step, sys_event_port_destroy]
    cases hp : GetIDData_port s id with
    | none => rfl
    | some port =>
      simp only
      split_ifs <;> rfl
  | port_connect_local eport_id equeue_id =>
    left
    simp only [step, sys_event_port_connect_local]
    cases hp : GetIDData_port s eport_id with
    | none => rfl
    | some port =>
      cases hq : GetIDData_queue s equeue_id with
      | none => rfl
      | some x =>
        obtain ⟨a, q⟩ := x
        simp only
        split_ifs <;> rfl
  | port_disconnect id =>
    left
    simp only [step, sys_event_port_disconnect]
    cases hp : GetIDData_port s id with
    | none => rfl
    | some port =>
      cases hl : lock s port.queue with
      | none => simp only [hl]
      | some x => simp only [hl]; rfl
  | port_send id data1 data2 data3 =>
    left
    simp only [step]
    unfold sys_event_port_send
    cases hp : GetIDData_port s id with
    | none => rfl
    | some port =>
      cases hl : lock s port.queue with
      | none => simp only [hl]
      | some x =>
        obtain ⟨a, q⟩ := x
        simp only [hl]
        split_ifs <;> rfl
  | helper_queue_create protocol type name key size =>
    left
    simp only [step]
    exact (event_queue_create_shape s protocol type name key size).2.1
  | helper_port_create name => exact Or.inl rfl

theorem parked_step_orphan (K : Consts) (pid : Nat) (s : State) (act : Action) (a : Nat)
    (ho : orphan s a) : parked (step K pid s act) a ≤ parked s a := by
  rcases receivers_step K pid s act with h | ⟨i, h⟩ | ⟨id, q, f, hq, h⟩
  · unfold parked
    rw [h]
  · unfold parked
    rw [h]
    exact (List.eraseIdx_sublist _ _).countP_le _
  · have hmem := lookup_mem _ _ _ (GetIDData_queue_some hq).1
    have hne : ¬ (f.queue = a) := by
      intro e
      rw [e] at hmem
      exact ho.2.1 id hmem
    unfold parked
    rw [h]
    simp [List.countP_append, hne]

theorem orphan_run (K : Consts) (pid : Nat) (a : Nat) :
    ∀ (as : List Action) (s : State), orphan s a →
      orphan (run K pid s as) a ∧ parked (run K pid s as) a ≤ parked s a := by
  intro as
  induction as with
  | nil => intro s h; exact ⟨h, Nat.le_refl _⟩
  | cons act rest ih =>
    intro s h
    obtain ⟨g1, g2⟩ := ih _ (orphan_step K pid s act a h)
    exact ⟨g1, Nat.le_trans g2 (parked_step_orphan K pid s act a h)⟩

theorem run_append (K : Consts) (pid : Nat) (s : State) (as bs : List Action) :
    run K pid s (as ++ bs) = run K pid (run K pid s as) bs := by
  unfold run
  rw [List.foldl_append]

/-- C14, as amended. For a port connected to a queue, in a state that steps
from the empty system lead to: after `sys_event_queue_destroy` on that queue
has returned `CELL_OK`, if no receive call is suspended on the queue (which is
always so when the mode was 0), `sys_event_port_send` on the port returns
`CELL_ENOTCONN` and pushes nothing, `sys_event_port_disconnect` returns
`CELL_ENOTCONN`, and `sys_event_port_destroy` returns `CELL_OK` and removes
the port. The same three outcomes hold, in any state, for a port whose
reference is empty. They also hold in every state that further steps lead to
from the state after the destroy, for every port whose reference is to that
queue, as soon as no receive call is suspended on the queue: so after a destroy
with mode FORCE once the receive calls that were blocked have returned. The
number of receive calls suspended on the destroyed queue is the one before the
destroy and never goes up in later steps; it is 0 in all later states when it
was 0 at the destroy or the mode was 0. -/
theorem stale_connection_not_connected (K : Consts) (pid : Nat) (s : State)
    (eport_id equeue_id a : Nat) (port : event_port_t) (q : event_queue_t) (mode : Int)
    (s1 : State)
    (hreach : ∃ as0, run K pid State.init as0 = s)
    (hp : GetIDData_port s eport_id = some port) (hconn : port.queue = some a)
    (hq : GetIDData_queue s equeue_id = some (a, q))
    (hdestroy : sys_event_queue_destroy K s equeue_id mode = .ok (CELL_OK, s1)) :
    ((parked s a = 0 ∨ mode = 0) →
        (∀ data1 data2 data3,
          sys_event_port_send pid s1 eport_id data1 data2 data3 = (CELL_ENOTCONN, s1))
        ∧ sys_event_port_disconnect s1 eport_id = (CELL_ENOTCONN, s1)
        ∧ sys_event_port_destroy s1 eport_id = (CELL_OK, RemoveID s1 eport_id))
    ∧ (∀ (s2 : State) (port2 : event_port_t), GetIDData_port s2 eport_id = some port2 →
        port2.queue = none →
        (∀ data1 data2 data3,
          sys_event_port_send pid s2 eport_id data1 data2 data3 = (CELL_ENOTCONN, s2))
        ∧ sys_event_port_disconnect s2 eport_id = (CELL_ENOTCONN, s2)
        ∧ sys_event_port_destroy s2 eport_id = (CELL_OK, RemoveID s2 eport_id))
    ∧ (∀ (as : List Action) (eport2 : Nat) (port2 : event_port_t),
        GetIDData_port (run K pid s1 as) eport2 = some port2 → port2.queue = some a →
        parked (run K pid s1 as) a = 0 →
        (∀ data1 data2 data3,
          sys_event_port_send pid (run K pid s1 as) eport2 data1 data2 data3
            = (CELL_ENOTCONN, run K pid s1 as))
        ∧ sys_event_port_disconnect (run K pid s1 as) eport2 = (CELL_ENOTCONN, run K pid s1 as)
        ∧ sys_event_port_destroy (run K pid s1 as) eport2
            = (CELL_OK, RemoveID (run K pid s1 as) eport2))
    ∧ parked s1 a = parked s a
    ∧ (∀ as bs : List Action,
        parked (run K pid s1 (as ++ bs)) a ≤ parked (run K pid s1 as) a)
    ∧ ((parked s a = 0 ∨ mode = 0) → ∀ as : List Action, parked (run K pid s1 as) a = 0) := by
  obtain ⟨as0, hrun⟩ := hreach
  have hinv : live_inv s := by
    rw [← hrun]
    exact live_inv_run K pid as0 State.init live_inv_init
  have hge : waiters_ge s := by
    rw [← hrun]
    exact (waiters_ge_run K pid as0 State.init waiters_init.1 (waiters_eq_ge waiters_init.2)).2
  obtain ⟨hl, hqa⟩ := GetIDData_queue_some hq
  have hs1 : s1 = destroyed s equeue_id a q ∧ ¬ (mode = 0 ∧ q.waiters ≠ 0) := by
    rcases sys_event_queue_destroy_cases K s equeue_id mode with ⟨hn, _⟩
      | ⟨a1, q1, hq1, ⟨_, _, h⟩ | ⟨_, _, h⟩ | ⟨_, _, h⟩ | ⟨hm, _, h⟩⟩
    · rw [hn] at hq; cases hq
    · rw [h] at hdestroy; cases hdestroy
    · rw [h] at hdestroy; cases hdestroy
    · rw [h] at hdestroy; cases hdestroy
    · rw [hq] at hq1
      cases hq1
      rw [h] at hdestroy
      simp only [Except.ok.injEq, Prod.mk.injEq, true_and] at hdestroy
      exact ⟨hdestroy.symm, hm.2⟩
  obtain ⟨hs1eq, hmode⟩ := hs1
  have hparked : (parked s a = 0 ∨ mode = 0) → parked s a = 0 := by
    intro hfree
    rcases hfree with h | h
    · exact h
    · have hw : q.waiters = 0 := by
        by_contra hne
        exact hmode ⟨h, hne⟩
      have := hge a q hqa
      omega
  have horphan : orphan s1 a := by
    rw [hs1eq]
    exact orphan_destroyed hinv hq
  have hsame : parked s1 a = parked s a := by
    rw [hs1eq]
    unfold parked
    rw [destroyed_receivers]
  have hlater : ∀ (as : List Action) (eport2 : Nat) (port2 : event_port_t),
      GetIDData_port (run K pid s1 as) eport2 = some port2 → port2.queue = some a →
      parked (run K pid s1 as) a = 0 →
      (∀ data1 data2 data3,
        sys_event_port_send pid (run K pid s1 as) eport2 data1 data2 data3
          = (CELL_ENOTCONN, run K pid s1 as))
      ∧ sys_event_port_disconnect (run K pid s1 as) eport2 = (CELL_ENOTCONN, run K pid s1 as)
      ∧ sys_event_port_destroy (run K pid s1 as) eport2
          = (CELL_OK, RemoveID (run K pid s1 as) eport2) := by
    intro as eport2 port2 hp2 hconn2 hzero
    have hexp : expired (run K pid s1 as) port2.queue = true := by
      rw [hconn2]
      simp only [expired, decide_eq_true_eq]
      rw [use_count_orphan (orphan_run K pid a as s1 horphan).1]
      exact hzero
    exact port_calls_not_connected pid _ eport2 port2 hp2 hexp
  refine ⟨?_, ?_, hlater, hsame, ?_, ?_⟩
  · intro hfree
    have hne : eport_id ≠ equeue_id := by
      intro heq
      have := GetIDData_port_lookup hp
      rw [heq, hl] at this
      cases this
    have hp1 : GetIDData_port s1 eport_id = some port := by
      rw [hs1eq]
      unfold GetIDData_port
      rw [(destroyed_table s equeue_id a q).1, lookup_filter_ne_id _ _ _ hne,
        GetIDData_port_lookup hp]
    exact hlater [] eport_id port hp1 hconn (by
      show parked s1 a = 0
      rw [hsame]
      exact hparked hfree)
  · intro s2 port2 hp2 hnone
    exact port_calls_not_connected pid s2 eport_id port2 hp2 (by rw [hnone]; rfl)
  · intro as bs
    rw [run_append]
    exact (orphan_run K pid a bs _ (orphan_run K pid a as s1 horphan).1).2
  · intro hfree as
    have h1 := (orphan_run K pid a as s1 horphan).2
    have h2 := hparked hfree
    omega

/-- Witness for C14. The connected example, queue 1 destroyed with mode 0: the
three calls on port 2 give `CELL_ENOTCONN`, `CELL_ENOTCONN`, `CELL_OK`. And
with a receive call asleep on queue 1 and the queue destroyed with mode FORCE:
once the receive call has woken up (and returned `CELL_ECANCELED`), the three
calls on port 2 give the same. -/
theorem stale_connection_not_connected_witness :
    (sys_event_port_send 1 (destroyed connected_example 1 0
        { protocol := 1, type := 1, name := 0, key := 0, size := 2,
          events := [], waiters := 0, cancelled := false }) 2 7 8 9).1 = CELL_ENOTCONN
    ∧ (sys_event_port_disconnect (destroyed connected_example 1 0
        { protocol := 1, type := 1, name := 0, key := 0, size := 2,
          events := [], waiters := 0, cancelled := false }) 2).1 = CELL_ENOTCONN
    ∧ (sys_event_port_destroy (destroyed connected_example 1 0
        { protocol := 1, type := 1, name := 0, key := 0, size := 2,
          events := [], waiters := 0, cancelled := false }) 2).1 = CELL_OK
    ∧ (sys_event_port_send 1
        (run K0 1 State.init
          [Action.queue_create ⟨1, 1, 0⟩ 0 2, Action.port_create 1 0, Action.port_connect_local 2 1,
           Action.queue_receive 1 0 0 0 false, Action.queue_destroy 1 1,
           Action.receive_wake 0 0 false]) 2 7 8 9).1 = CELL_ENOTCONN
    ∧ (sys_event_port_disconnect
        (run K0 1 State.init
          [Action.queue_create ⟨1, 1, 0⟩ 0 2, Action.port_create 1 0, Action.port_connect_local 2 1,
           Action.queue_receive 1 0 0 0 false, Action.queue_destroy 1 1,
           Action.receive_wake 0 0 false]) 2).1 = CELL_ENOTCONN
    ∧ (sys_event_port_destroy
        (run K0 1 State.init
          [Action.queue_create ⟨1, 1, 0⟩ 0 2, Action.port_create 1 0, Action.port_connect_local 2 1,
           Action.queue_receive 1 0 0 0 false, Action.queue_destroy 1 1,
           Action.receive_wake 0 0 false]) 2).1 = CELL_OK := by
  have h := (stale_connection_not_connected K0 1 connected_example 2 1 0
    { type := 1, name := 0, queue := some 0 }
    { protocol := 1, type := 1, name := 0, key := 0, size := 2,
      events := [], waiters := 0, cancelled := false } 0
    (destroyed connected_example 1 0
      { protocol := 1, type := 1, name := 0, key := 0, size := 2,
        events := [], waiters := 0, cancelled := false })
    ⟨[Action.queue_create ⟨1, 1, 0⟩ 0 2, Action.port_create 1 0, Action.port_connect_local 2 1],
      by decide⟩
    (by decide) (by decide) (by decide) rfl).1 (Or.inr rfl)
  have g := (stale_connection_not_connected K0 1
    (run K0 1 State.init
      [Action.queue_create ⟨1, 1, 0⟩ 0 2, Action.port_create 1 0, Action.port_connect_local 2 1,
       Action.queue_receive 1 0 0 0 false]) 2 1 0
    { type := 1, name := 0, queue := some 0 }
    { protocol := 1, type := 1, name := 0, key := 0, size := 2,
      events := [], waiters := 1, cancelled := false } 1
    (destroyed
      (run K0 1 State.init
        [Action.queue_create ⟨1, 1, 0⟩ 0 2, Action.port_create 1 0, Action.port_connect_local 2 1,
         Action.queue_receive 1 0 0 0 false]) 1 0
      { protocol := 1, type := 1, name := 0, key := 0, size := 2,
        events := [], waiters := 1, cancelled := false })
    ⟨[Action.queue_create ⟨1, 1, 0⟩ 0 2, Action.port_create 1 0, Action.port_connect_local 2 1,
      Action.queue_receive 1 0 0 0 false], rfl⟩
    (by decide) (by decide) (by decide) rfl).2.2.1 [Action.receive_wake 0 0 false] 2
    { type := 1, name := 0, queue := some 0 } (by decide) (by decide) (by decide)
  have e : run K0 1 State.init
      [Action.queue_create ⟨1, 1, 0⟩ 0 2, Action.port_create 1 0, Action.port_connect_local 2 1,
       Action.queue_receive 1 0 0 0 false, Action.queue_destroy 1 1,
       Action.receive_wake 0 0 false]
      = run K0 1 (destroyed
          (run K0 1 State.init
            [Action.queue_create ⟨1, 1, 0⟩ 0 2, Action.port_create 1 0,
             Action.port_connect_local 2 1, Action.queue_receive 1 0 0 0 false]) 1 0
          { protocol := 1, type := 1, name := 0, key := 0, size := 2,
            events := [], waiters := 1, cancelled := false })
        [Action.receive_wake 0 0 false] := rfl
  rw [e]
  exact ⟨by rw [h.1 7 8 9], by rw [h.2.1], by rw [h.2.2],
    by rw [g.1 7 8 9], by rw [g.2.1], by rw [g.2.2]⟩

/-- Counterexample to C14 as stated: port 2 is connected to queue 1, a receive
call is asleep on the queue, and the queue is destroyed with mode FORCE, which
returns `CELL_OK`. The suspended call still owns the queue object, so the
port's reference resolves: send returns `CELL_OK` and pushes a record,
disconnect returns `CELL_OK`, and the port destroy returns `CELL_EISCONN`. -/
theorem stale_connection_counterexample :
    sys_event_queue_destroy K0
        (run K0 1 State.init
          [Action.queue_create ⟨1, 1, 0⟩ 0 2, Action.port_create 1 0, Action.port_connect_local 2 1,
           Action.queue_receive 1 0 0 0 false]) 1 1
      = .ok (CELL_OK,
          destroyed
            (run K0 1 State.init
              [Action.queue_create ⟨1, 1, 0⟩ 0 2, Action.port_create 1 0,
               Action.port_connect_local 2 1, Action.queue_receive 1 0 0 0 false]) 1 0
            { protocol := 1, type := 1, name := 0, key := 0, size := 2,
              events := [], waiters := 1, cancelled := false })
    ∧ (sys_event_port_send 1
        (destroyed
          (run K0 1 State.init
            [Action.queue_create ⟨1, 1, 0⟩ 0 2, Action.port_create 1 0,
             Action.port_connect_local 2 1, Action.queue_receive 1 0 0 0 false]) 1 0
          { protocol := 1, type := 1, name := 0, key := 0, size := 2,
            events := [], waiters := 1, cancelled := false }) 2 7 8 9).1 = CELL_OK
    ∧ ((sys_event_port_send 1
        (destroyed
          (run K0 1 State.init
            [Action.queue_create ⟨1, 1, 0⟩ 0 2, Action.port_create 1 0,
             Action.port_connect_local 2 1, Action.queue_receive 1 0 0 0 false]) 1 0
          { protocol := 1, type := 1, name := 0, key := 0, size := 2,
            events := [], waiters := 1, cancelled := false }) 2 7 8 9).2.heap.map
          (fun x => x.events))
      = [[⟨2 ^ 32 + 2, 7, 8, 9⟩]]
    ∧ (sys_event_port_disconnect
        (destroyed
          (run K0 1 State.init
            [Action.queue_create ⟨1, 1, 0⟩ 0 2, Action.port_create 1 0,
             Action.port_connect_local 2 1, Action.queue_receive 1 0 0 0 false]) 1 0
          { protocol := 1, type := 1, name := 0, key := 0, size := 2,
            events := [], waiters := 1, cancelled := false }) 2).1 = CELL_OK
    ∧ (sys_event_port_destroy
        (destroyed
          (run K0 1 State.init
            [Action.queue_create ⟨1, 1, 0⟩ 0 2, Action.port_create 1 0,
             Action.port_connect_local 2 1, Action.queue_receive 1 0 0 0 false]) 1 0
          { protocol := 1, type := 1, name := 0, key := 0, size := 2,
            events := [], waiters := 1, cancelled := false }) 2).1 = CELL_EISCONN := by
  refine ⟨?_, by decide, by decide, by decide, by decide⟩
  rfl

/-! ## The key registry and the helper `event_queue_create` -/

/-- C17, at the failing input. After `sys_event_queue_create` with key 7 and
the helper `event_queue_create` with key 7, the ids 1 and 2 both resolve to
queues with key 7, and the registry holds key 7 once. After queue 2 is then
destroyed, queue 1 is still in the ID table with key 7 but key 7 is not
registered, and a further `sys_event_queue_create` with key 7 returns
`CELL_OK`, so that again two live queues have key 7. -/
theorem key_registry_helper_duplicate :
    GetIDData_queue
        (run K0 1 State.init
          [Action.queue_create ⟨1, 1, 0⟩ 7 2, Action.helper_queue_create 1 1 0 7 2]) 1
      = some (0, { protocol := 1, type := 1, name := 0, key := 7, size := 2,
                   events := [], waiters := 0, cancelled := false })
    ∧ GetIDData_queue
        (run K0 1 State.init
          [Action.queue_create ⟨1, 1, 0⟩ 7 2, Action.helper_queue_create 1 1 0 7 2]) 2
      = some (1, { protocol := 1, type := 1, name := 0, key := 7, size := 2,
                   events := [], waiters := 0, cancelled := false })
    ∧ (run K0 1 State.init
          [Action.queue_create ⟨1, 1, 0⟩ 7 2, Action.helper_queue_create 1 1 0 7 2]).eq_map
      = [(7, 0)]
    ∧ GetIDData_queue
        (run K0 1 State.init
          [Action.queue_create ⟨1, 1, 0⟩ 7 2, Action.helper_queue_create 1 1 0 7 2,
           Action.queue_destroy 2 0]) 1
      = some (0, { protocol := 1, type := 1, name := 0, key := 7, size := 2,
                   events := [], waiters := 0, cancelled := false })
    ∧ (run K0 1 State.init
          [Action.queue_create ⟨1, 1, 0⟩ 7 2, Action.helper_queue_create 1 1 0 7 2,
           Action.queue_destroy 2 0]).eq_map.lookup 7 = none
    ∧ (sys_event_queue_create K0
        (run K0 1 State.init
          [Action.queue_create ⟨1, 1, 0⟩ 7 2, Action.helper_queue_create 1 1 0 7 2,
           Action.queue_destroy 2 0]) 0 ⟨1, 1, 0⟩ 7 2).1 = CELL_OK
    ∧ (sys_event_queue_create K0
        (run K0 1 State.init [Action.queue_create ⟨1, 1, 0⟩ 7 2]) 0 ⟨1, 1, 0⟩ 7 2).1
      = CELL_EEXIST := by
  decide

/-! ## The id counter wraps: a destroyed id is handed out again -/

theorem run_cons (K : Consts) (pid : Nat) (s : State) (act : Action) (as : List Action) :
    run K pid s (act :: as) = run K pid (step K pid s act) as := rfl

theorem port_churn_step (c : Nat) (h : c % 2 ^ 32 ≠ 1) :
    step K0 1 (step K0 1 (one_queue_example (c % 2 ^ 32)) (Action.port_create 1 0))
        (Action.port_destroy (c % 2 ^ 32))
      = one_queue_example ((c + 1) % 2 ^ 32) := by
  have h1 : step K0 1 (one_queue_example (c % 2 ^ 32)) (Action.port_create 1 0)
      = { one_queue_example (c % 2 ^ 32) with
          m_cur_id := (c + 1) % 2 ^ 32,
          m_id_map := [(c % 2 ^ 32, ID.TYPE_EVENT_PORT { type := 1, name := 0, queue := none }),
                       (1, ID.TYPE_EVENT_QUEUE 0)] } := by
    simp only [step, sys_event_port_create, K0, GetNewID, one_queue_example, ne_eq,
      not_true_eq_false, if_false, Nat.mod_mod, Nat.mod_add_mod]
  rw [h1]
  have hb : (1 == c % 2 ^ 32) = false := by
    simp only [beq_eq_false_iff_ne, ne_eq]
    exact fun e => h e.symm
  simp only [step, sys_event_port_destroy, GetIDData_port, one_queue_example, List.lookup_cons,
    beq_self_eq_true, expired, RemoveID, List.filter_cons, ne_eq, not_true_eq_false,
    decide_False, decide_True, List.filter_nil]
  have h2 : ¬ (1 = c % 4294967296) := fun e => h e.symm
  simp [h2]

theorem port_churn_run :
    ∀ (n c : Nat), (∀ j, j < n → (c + j) % 2 ^ 32 ≠ 1) →
      run K0 1 (one_queue_example (c % 2 ^ 32)) (port_churn n c)
        = one_queue_example ((c + n) % 2 ^ 32) := by
  intro n
  induction n with
  | zero => intro c _; rfl
  | succ n ih =>
    intro c h
    have h0 : c % 2 ^ 32 ≠ 1 := h 0 (Nat.succ_pos n)
    have hstep : run K0 1 (one_queue_example (c % 2 ^ 32)) (port_churn (n + 1) c)
        = run K0 1 (step K0 1 (step K0 1 (one_queue_example (c % 2 ^ 32)) (Action.port_create 1 0))
            (Action.port_destroy (c % 2 ^ 32))) (port_churn n (c + 1)) := rfl
    rw [hstep, port_churn_step c h0, ih (c + 1) (fun j hj => by
      have := h (j + 1) (by omega)
      rw [show c + 1 + j = c + (j + 1) by omega]
      exact this)]
    rw [show c + 1 + n = c + (n + 1) by omega]

/-- Counterexample to C10 as stated (the id of a destroyed queue never
resolves again). One queue is created (id 1), then `2^32 - 1` ports are created
and destroyed one after the other, which brings the 32-bit id counter back
to 1. `sys_event_queue_destroy` of id 1 returns `CELL_OK` and the id does not
resolve; the next `sys_event_queue_create` is given id 1, and
`sys_event_queue_drain` of id 1 then finds the new queue and returns `CELL_OK`,
not `CELL_ESRCH`. -/
theorem sys_event_queue_destroy_counterexample :
    run K0 1 State.init (Action.queue_create ⟨1, 1, 0⟩ 0 2 :: port_churn 4294967295 2)
      = one_queue_example 1
    ∧ sys_event_queue_destroy K0 (one_queue_example 1) 1 0
      = .ok (CELL_OK, destroyed (one_queue_example 1) 1 0
          { protocol := 1, type := 1, name := 0, key := 0, size := 2,
            events := [], waiters := 0, cancelled := false })
    ∧ GetIDData_queue (destroyed (one_queue_example 1) 1 0
          { protocol := 1, type := 1, name := 0, key := 0, size := 2,
            events := [], waiters := 0, cancelled := false }) 1 = none
    ∧ (sys_event_queue_create K0 (destroyed (one_queue_example 1) 1 0
          { protocol := 1, type := 1, name := 0, key := 0, size := 2,
            events := [], waiters := 0, cancelled := false }) 0 ⟨1, 1, 0⟩ 0 2).1 = CELL_OK
    ∧ (sys_event_queue_create K0 (destroyed (one_queue_example 1) 1 0
          { protocol := 1, type := 1, name := 0, key := 0, size := 2,
            events := [], waiters := 0, cancelled := false }) 0 ⟨1, 1, 0⟩ 0 2).2.2 = 1
    ∧ (sys_event_queue_drain (run K0 1 (destroyed (one_queue_example 1) 1 0
          { protocol := 1, type := 1, name := 0, key := 0, size := 2,
            events := [], waiters := 0, cancelled := false })
        [Action.queue_create ⟨1, 1, 0⟩ 0 2]) 1).1 = CELL_OK := by
  refine ⟨?_, rfl, rfl, rfl, rfl, rfl⟩
  have h0 : step K0 1 State.init (Action.queue_create ⟨1, 1, 0⟩ 0 2)
      = one_queue_example (2 % 2 ^ 32) := rfl
  rw [run_cons, h0, port_churn_run 4294967295 2 (fun j hj => by omega)]
  rfl

/-! ## `sys_event_queue_create` after the helper took the same key -/

/-- C2, at the failing input. `sys_event_queue_create` with key 7 makes queue 1;
the helper `event_queue_create` with key 7 makes queue 2 although the key is
taken; `sys_event_queue_destroy` of queue 2 then unregisters key 7. Queue 1,
made by `sys_event_queue_create` with key 7, is still live: id 1 resolves to it
and it is not cancelled. Yet `sys_event_queue_create` with key 7 returns
`CELL_OK`, not `CELL_EEXIST`: it writes the id 3, enters a third queue in the
ID table and registers key 7 for it. Without the helper call in between, the
second `sys_event_queue_create` with key 7 returns `CELL_EEXIST`, and the id
output and the state are as before the call. -/
theorem sys_event_queue_create_key_taken_by_helper :
    GetIDData_queue
        (run K0 1 State.init
          [Action.queue_create ⟨1, 1, 0⟩ 7 2, Action.helper_queue_create 1 1 0 7 2,
           Action.queue_destroy 2 0]) 1
      = some (0, { protocol := 1, type := 1, name := 0, key := 7, size := 2,
                   events := [], waiters := 0, cancelled := false })
    ∧ sys_event_queue_create K0
        (run K0 1 State.init
          [Action.queue_create ⟨1, 1, 0⟩ 7 2, Action.helper_queue_create 1 1 0 7 2,
           Action.queue_destroy 2 0]) 0 ⟨1, 1, 0⟩ 7 2
      = (CELL_OK,
         { m_cur_id := 4,
           m_id_map := [(3, ID.TYPE_EVENT_QUEUE 2), (1, ID.TYPE_EVENT_QUEUE 0)],
           eq_map := [(7, 2)],
           heap := [{ protocol := 1, type := 1, name := 0, key := 7, size := 2,
                      events := [], waiters := 0, cancelled := false },
                    { protocol := 1, type := 1, name := 0, key := 7, size := 2,
                      events := [], waiters := 0, cancelled := true },
                    { protocol := 1, type := 1, name := 0, key := 7, size := 2,
                      events := [], waiters := 0, cancelled := false }],
           receivers := [] },
         3)
    ∧ (run K0 1 State.init
          [Action.queue_create ⟨1, 1, 0⟩ 7 2, Action.helper_queue_create 1 1 0 7 2,
           Action.queue_destroy 2 0]).m_id_map = [(1, ID.TYPE_EVENT_QUEUE 0)]
    ∧ (run K0 1 State.init
          [Action.queue_create ⟨1, 1, 0⟩ 7 2, Action.helper_queue_create 1 1 0 7 2,
           Action.queue_destroy 2 0]).eq_map = []
    ∧ sys_event_queue_create K0
        (run K0 1 State.init [Action.queue_create ⟨1, 1, 0⟩ 7 2]) 0 ⟨1, 1, 0⟩ 7 2
      = (CELL_EEXIST, run K0 1 State.init [Action.queue_create ⟨1, 1, 0⟩ 7 2], 0) := by
  refine ⟨rfl, rfl, rfl, rfl, rfl⟩

end sys_event
